import Mathlib

/-!
Verification development for the housekeeping add-on's plan/apply/rollback
engine (`src/housekeeper/engine.py`, `util.py`, `model.py`).

The Python code is shallowly embedded: dicts of optional string fields become
structures of `Option String` fields, Python truthiness of such a field is the
`isT` predicate below, dict lookups built by comprehension (last write wins,
falsy keys skipped) become `dlast`, and the `re` library calls on
user-supplied rule patterns become an abstract matcher parameter
(`String → Option (String → Bool)`, mirroring `_compile_regex` returning
`None` on a bad pattern).  The one concretely modelled regex is the
suffix-duplicate pattern of `util.is_suffix_duplicate_entity`.  Float
confidences are decimal literals that the engine never computes with, so they
are embedded as rationals.  `str.lower`/`str.strip` are modelled on their
ASCII behaviour, which coincides with Python on the ASCII strings the claims
are about.
-/

namespace Housekeeper

/-- Python truthiness of a `dict.get` result holding an optional string:
`None` and `""` are falsy. -/
def isT : Option String → Bool
  | none => false
  | some s => !s.isEmpty

/-- Value of an optional string, with Python's `or ""` default. -/
def tval : Option String → String
  | none => ""
  | some s => s

/-- ASCII model of `str.lower` applied to each character. -/
def lowerStr (s : String) : String := ⟨s.data.map Char.toLower⟩

/-- Whitespace test used to model `str.strip`. -/
def isWS (c : Char) : Bool := c = ' ' || c = '\t' || c = '\n' || c = '\r' || c = '\x0b' || c = '\x0c'

/-- ASCII model of `str.strip`: drop leading and trailing whitespace. -/
def pyStrip (s : String) : String :=
  ⟨((s.data.dropWhile isWS).reverse.dropWhile isWS).reverse⟩

/-- Model of `str(x or "").strip()` pipelines: missing or empty optional
strings collapse to `""` before stripping. -/
def stripOf (o : Option String) : String := pyStrip (tval o)

/-- Characters kept by `tokenize`: the class `[a-z0-9]` of `util._split_re`. -/
def isTokChar (c : Char) : Bool := ('a' ≤ c && c ≤ 'z') || ('0' ≤ c && c ≤ '9')

/-- Accumulator-based splitter behind `tokRuns`: `acc` is the current run of
token characters, in reverse. -/
def tokRunsAux : List Char → List Char → List (List Char)
  | [], acc => if acc.isEmpty then [] else [acc.reverse]
  | c :: cs, acc =>
    if isTokChar c then tokRunsAux cs (c :: acc)
    else if acc.isEmpty then tokRunsAux cs [] else acc.reverse :: tokRunsAux cs []

/-- Maximal runs of token characters of a character list, in order.
This models splitting on `[^a-z0-9]+` and dropping empty pieces. -/
def tokRuns (cs : List Char) : List (List Char) := tokRunsAux cs []

/-- Embedding of `util.tokenize`: lower-case, split on runs of non-`[a-z0-9]`
characters, collect the non-empty pieces as a set.  (`strip` in the source is
redundant for the resulting set, since whitespace is a separator anyway.) -/
def tokenize (s : String) : Finset String :=
  ((tokRuns (s.data.map Char.toLower)).map fun w => (⟨w⟩ : String)).toFinset

/-- Membership in the regex alternation `[2-9]|[1-9][0-9]+` (a full match of
the candidate numeric suffix). -/
def suffixNum : List Char → Bool
  | [] => false
  | [c] => '2' ≤ c && c ≤ '9'
  | c :: cs => '1' ≤ c && c ≤ '9' && cs.all Char.isDigit

/-- Split a character list at its last underscore:
`splitLastU cs = some (base, suf)` when `cs = base ++ '_' :: suf` and `suf`
contains no underscore. -/
def splitLastU (cs : List Char) : Option (List Char × List Char) :=
  match (cs.reverse.dropWhile fun c => c ≠ '_') with
  | [] => none
  | _ :: restRev => some (restRev.reverse, (cs.reverse.takeWhile fun c => c ≠ '_').reverse)

/-- A Python regex `$` may match just before one trailing newline; model this
by removing a single final newline before matching. -/
def stripFinalNL (cs : List Char) : List Char :=
  if cs.getLast? = some '\n' then cs.dropLast else cs

/-- Embedding of `util.is_suffix_duplicate_entity`, i.e. of
`re.match(r"^(?P<base>.+)_([2-9]|[1-9][0-9]+)$", entity_id)`.
The greedy nonempty base forces the split at the last underscore (the numeric
alternation contains no underscore); `.` excludes newlines and `$` tolerates a
single trailing newline. -/
def is_suffix_duplicate_entity (entity_id : String) : Bool × String :=
  let cs := stripFinalNL entity_id.data
  if cs.any fun c => c = '\n' then (false, entity_id)
  else
    match splitLastU cs with
    | some (base, suf) =>
        if base ≠ [] && suffixNum suf then (true, ⟨base⟩) else (false, entity_id)
    | none => (false, entity_id)

/-- Payload of an action: the optional keys the engine ever writes or reads.
A field being `none` models the key being absent from the payload dict. -/
structure Payload where
  entity_id : Option String := none
  device_id : Option String := none
  area_id : Option String := none
  name : Option String := none
  hidden_by : Option String := none
deriving DecidableEq, Repr

/-- Embedding of `HousekeeperEngine.action_fingerprint`: the key is the
Python `or`-chain `entity_id or device_id or area_id or name or ""`, which
takes the first truthy (present and non-empty) value. -/
def action_fingerprint (atype : String) (p : Payload) : String :=
  atype ++ ":" ++
    (if isT p.entity_id then tval p.entity_id
     else if isT p.device_id then tval p.device_id
     else if isT p.area_id then tval p.area_id
     else if isT p.name then tval p.name
     else "")

/-! ## Registry data model

Registry records are dicts of optional fields; `none` models a missing key
(or a key explicitly set to `null`, which the engine treats identically via
`dict.get`). -/

/-- Area registry entry. -/
structure AreaR where
  area_id : Option String := none
  name : Option String := none
deriving DecidableEq, Repr

/-- Device registry entry. -/
structure DeviceR where
  id : Option String := none
  name : Option String := none
  name_by_user : Option String := none
  area_id : Option String := none
deriving DecidableEq, Repr

/-- Entity registry entry. -/
structure EntityR where
  entity_id : Option String := none
  unique_id : Option String := none
  name : Option String := none
  original_name : Option String := none
  device_id : Option String := none
  area_id : Option String := none
  hidden_by : Option String := none
  disabled_by : Option String := none
deriving DecidableEq, Repr

/-- Live state of an entity; `friendly_name` stands for
`attributes["friendly_name"]`, the only attribute the engine reads. -/
structure StateR where
  entity_id : Option String := none
  state : Option String := none
  friendly_name : Option String := none
deriving DecidableEq, Repr

/-- Snapshot of the registry as fetched by `HousekeeperEngine._fetch`. -/
structure Snapshot where
  areas : List AreaR := []
  devices : List DeviceR := []
  entities : List EntityR := []
  states : List StateR := []
deriving DecidableEq, Repr

/-- Lookup in a dict built by comprehension over a list keyed by a truthy
optional-string field: falsy keys are skipped and a later entry overwrites an
earlier one with the same key. -/
def dlast {α : Type} (l : List α) (key : α → Option String) (k : String) : Option α :=
  (l.filter fun x => isT (key x) && key x == some k).getLast?

/-- Embedding of `engine._is_active_state`. -/
def _is_active_state : Option StateR → Bool
  | none => false
  | some s =>
    match s.state with
    | none => false
    | some v => v != "unavailable"

/-- Embedding of `engine._effective_area_id`; `devById` stands for the
`device_by_id` dict. -/
def _effective_area_id (er : EntityR) (devById : String → Option DeviceR) : Option String :=
  if isT er.area_id then er.area_id
  else if !isT er.device_id then none
  else (devById (tval er.device_id)).bind (·.area_id)

/-- Embedding of `engine._normalize_name`: `(s or "").strip().lower()`. -/
def _normalize_name (s : String) : String := lowerStr (pyStrip s)

/-- The literal generic-name set of `engine._looks_generic_media_name`. -/
def genericMediaNames : List String :=
  ["tv", "speaker", "speakers", "chromecast", "google cast", "google home",
   "media player", "mediaplayer", "nest audio", "nest mini", "home", "default", "unknown"]

/-- Embedding of `engine._looks_generic_media_name`. -/
def _looks_generic_media_name (name : String) : Bool :=
  let n := _normalize_name name
  if n.isEmpty then true
  else genericMediaNames.contains n || "media player".data.isPrefixOf n.data

/-- Substring test on character lists, modelling Python's `in` on strings. -/
def hasSub (pat : List Char) : List Char → Bool
  | [] => pat.isEmpty
  | c :: t => pat.isPrefixOf (c :: t) || hasSub pat t

/-- Substring test on strings. -/
def strContains (hay pat : String) : Bool := hasSub pat.data hay.data

/-- Embedding of `engine._media_base_label`. -/
def _media_base_label (entity_id friendly : String) : String :=
  let e := _normalize_name entity_id
  let f := _normalize_name friendly
  let hay := e ++ " " ++ f
  if strContains hay "tv" then "TV"
  else if strContains hay "speaker" || strContains hay "sonos" || strContains hay "nest" then "Speaker"
  else if strContains hay "beamer" || strContains hay "projector" then "Beamer"
  else "Media"

/-- Python `a or b` collapsed to a string for optional-string operands
(`str(a or b or "")` chains). -/
def pyOr2 (a b : Option String) : String := if isT a then tval a else tval b

/-- Python `a or b or c` collapsed to a string, where `c` is already a
string. -/
def pyOr3 (a b : Option String) (c : String) : String :=
  if isT a then tval a else if isT b then tval b else c

/-- The friendly-name string read from a live state:
`str((st.get("attributes") or {}).get("friendly_name") or "")`. -/
def friendlyOf : Option StateR → String
  | none => ""
  | some s => tval s.friendly_name

/-! ## Actions and rules -/

/-- A planned action (`model.Action`).  The random `uuid4` id is omitted from
the planner embedding: it is an opaque fresh token none of the planner's
behaviour depends on; actions consumed by `apply` carry an explicit id
(`AAction` below). -/
structure PAction where
  type : String
  payload : Payload
  reason : String
  confidence : ℚ
  requires_approval : Bool
deriving DecidableEq, Repr

/-- An `area_renames` rule; `src`/`dst` are the `from`/`to` keys (named after
the local variables in the source). -/
structure AreaRenameRule where
  src : Option String := none
  dst : Option String := none
  requires_approval : Option Bool := none

/-- A regex entry of `entity_remove`/`entity_hide`. -/
structure RegexRule where
  pattern : Option String := none
  requires_approval : Option Bool := none

/-- The `entity_remove` / `entity_hide` rule documents.  Non-string members
of `ids` and non-dict members of `regex` are skipped by the source and not
modelled. -/
structure RemoveHideRules where
  ids : List String := []
  regex : List RegexRule := []

/-- An `entity_area` / `device_area` rule. -/
structure AreaAssignRule where
  pattern : Option String := none
  area : Option String := none
  overwrite : Option Bool := none
  requires_approval : Option Bool := none

/-- A `helper_area_rules` rule. -/
structure HelperRule where
  area : Option String := none
  keywords : List String := []
  requires_approval : Option Bool := none

/-- The whole ruleset returned by `load_rules` (missing keys default to
empty, as `rules.get(..., []) or []` does). -/
structure Rules where
  area_renames : List AreaRenameRule := []
  entity_remove : RemoveHideRules := {}
  entity_hide : RemoveHideRules := {}
  entity_area : List AreaAssignRule := []
  device_area : List AreaAssignRule := []
  helper_area_rules : List HelperRule := []

/-- Abstract regex facility standing for `_compile_regex` plus `rx.search`:
a pattern string compiles to `none` (invalid pattern, rule skipped) or to a
Boolean match predicate.  Claims never depend on the regex language itself,
only on how the engine uses match results. -/
abbrev Rxc := String → Option (String → Bool)

/-! ## Planner (`HousekeeperEngine.plan`)

The single long Python function is embedded as a sequence of pass functions
threaded over a `PlanSt` record holding the growing action list and the three
"already planned" marker sets.  Each pass mirrors one loop of the source, in
source order. -/

/-- The `area_tokens` list: `(area_id, name, tokenize(name))` for areas with
truthy id and name. -/
def areaTokensOf (areas : List AreaR) : List (String × String × Finset String) :=
  areas.filterMap fun a =>
    if isT a.area_id && isT a.name then some (tval a.area_id, tval a.name, tokenize (tval a.name))
    else none

/-- The `area_names` set, filled by the same guarded loop as `area_tokens`. -/
def areaNamesOf (areas : List AreaR) : Finset String :=
  (areas.filterMap fun a => if isT a.area_id && isT a.name then some (tval a.name) else none).toFinset

/-- The `area_name_by_id` dict (same guarded loop; last write wins). -/
def areaNameById (areas : List AreaR) (aid : String) : Option String :=
  ((areas.filter fun a => isT a.area_id && isT a.name && a.area_id == some aid).getLast?).map
    fun a => tval a.name

/-- The `device_by_id` dict. -/
def deviceById (devices : List DeviceR) : String → Option DeviceR :=
  dlast devices DeviceR.id

/-- The `entities_by_device_id` dict: entities with this truthy `device_id`,
in list order. -/
def entitiesByDev (entities : List EntityR) (did : String) : List EntityR :=
  entities.filter fun er => isT er.device_id && er.device_id == some did

/-- The `states_by_entity_id` dict. -/
def statesById (states : List StateR) : String → Option StateR :=
  dlast states StateR.entity_id

/-- The truthy entity ids, in order, deduplicated. -/
def entityIdListOf (entities : List EntityR) : List String :=
  (entities.filterMap fun e => if isT e.entity_id then some (tval e.entity_id) else none).dedup

/-- The `entity_ids` set of truthy entity ids. -/
def entityIdsOf (entities : List EntityR) : Finset String :=
  (entityIdListOf entities).toFinset

/-- The `area_by_name_ci` dict: areas grouped by case-insensitive stripped
name, in list order. -/
def areaByNameCi (areas : List AreaR) (k : String) : List AreaR :=
  areas.filter fun a => isT a.name && lowerStr (pyStrip (tval a.name)) == k

/-- The `area_id_by_name_lower` dict (truthy name and id; last write wins). -/
def areaIdByNameLower (areas : List AreaR) (k : String) : Option String :=
  ((areas.filter fun a =>
      isT a.name && isT a.area_id && lowerStr (pyStrip (tval a.name)) == k).getLast?).bind
    fun a => a.area_id

/-- Lexicographic comparison of character lists by code point, as Python
compares strings. -/
def lexLe : List Char → List Char → Bool
  | [], _ => true
  | _ :: _, [] => false
  | a :: as, b :: bs => if a < b then true else if b < a then false else lexLe as bs

/-- String comparison by code points (Python `<=` on `str`). -/
def strLe (a b : String) : Bool := lexLe a.data b.data

/-- Stable insertion into a list sorted by a string key (used to model
Python's stable `sorted`). -/
def insSortedBy {α : Type} (key : α → String) (x : α) : List α → List α
  | [] => [x]
  | y :: t => if strLe (key x) (key y) then x :: y :: t else y :: insSortedBy key x t

/-- Stable sort by a string key, modelling Python `sorted(l, key=...)`. -/
def sortByKey {α : Type} (key : α → String) (l : List α) : List α :=
  l.foldr (insSortedBy key) []

/-- Model of Python `sorted` on a list of strings. -/
def sortStr (l : List String) : List String := sortByKey id l

/-- Insertion-ordered grouping, modelling `dict.setdefault(k, []).append(v)`
followed by iteration over `dict.items()`. -/
def addGrp {κ ν : Type} [DecidableEq κ] : List (κ × List ν) → κ → ν → List (κ × List ν)
  | [], k, v => [(k, [v])]
  | (k0, vs) :: t, k, v =>
    if k0 = k then (k0, vs ++ [v]) :: t else (k0, vs) :: addGrp t k v

/-- Planner state: the action list plus the three marker sets
`planned_entity_area`, `planned_entity_remove`, `planned_entity_hide`. -/
structure PlanSt where
  actions : List PAction := []
  plannedArea : Finset String := ∅
  plannedRemove : Finset String := ∅
  plannedHide : Finset String := ∅
deriving DecidableEq

/-- Append one action. -/
def PlanSt.emit (st : PlanSt) (a : PAction) : PlanSt :=
  { st with actions := st.actions ++ [a] }

/-- Pass 1 body: one `area_renames` rule. -/
def renameAreaStep (areas : List AreaR) (st : PlanSt) (r : AreaRenameRule) : PlanSt :=
  let src := stripOf r.src
  let dst := stripOf r.dst
  if src.isEmpty || dst.isEmpty || src == dst then st
  else
    let req := r.requires_approval.getD true
    let srcAreas := areaByNameCi areas (lowerStr src)
    let dstAreas := areaByNameCi areas (lowerStr dst)
    if srcAreas.length ≠ 1 then st
    else if dstAreas.length ≠ 0 then st
    else
      match srcAreas.head? with
      | none => st
      | some a0 =>
        if !isT a0.area_id then st
        else
          st.emit
            { type := "rename_area"
              payload := { area_id := a0.area_id, name := some dst }
              reason := "Rule: rename area '" ++ src ++ "' -> '" ++ dst ++ "'."
              confidence := 0.9
              requires_approval := req }

/-- Pass 1: area renames from rules. -/
def renameAreasPass (areas : List AreaR) (rules : List AreaRenameRule) (st : PlanSt) : PlanSt :=
  rules.foldl (renameAreaStep areas) st

/-- Pass 2 body: one literal id of `entity_remove.ids`. -/
def removeIdStep (entityIds : Finset String) (st : PlanSt) (eid : String) : PlanSt :=
  if eid ∈ entityIds ∧ eid ∉ st.plannedRemove then
    { st with
      actions := st.actions ++
        [{ type := "remove_entity_registry_entry"
           payload := { entity_id := some eid }
           reason := "Rule: explicit entity removal."
           confidence := 1.0
           requires_approval := true }]
      plannedRemove := insert eid st.plannedRemove }
  else st

/-- Pass 3 inner body: one candidate entity id against a compiled
`entity_remove.regex` pattern. -/
def removeRegexEntityStep (pat : String) (req : Bool) (rx : String → Bool)
    (st : PlanSt) (eid : String) : PlanSt :=
  if eid ∈ st.plannedRemove then st
  else if rx eid then
    { st with
      actions := st.actions ++
        [{ type := "remove_entity_registry_entry"
           payload := { entity_id := some eid }
           reason := "Rule: entity_id matches /" ++ pat ++ "/."
           confidence := 0.95
           requires_approval := req }]
      plannedRemove := insert eid st.plannedRemove }
  else st

/-- Pass 3 body: one `entity_remove.regex` rule over the sorted entity ids. -/
def removeRegexRuleStep (rxc : Rxc) (sortedIds : List String) (st : PlanSt)
    (rr : RegexRule) : PlanSt :=
  let pat := tval rr.pattern
  match rxc pat with
  | none => st
  | some rx => sortedIds.foldl (removeRegexEntityStep pat (rr.requires_approval.getD true) rx) st

/-- Pass 4 body: one literal id of `entity_hide.ids`. -/
def hideIdStep (entityIds : Finset String) (st : PlanSt) (eid : String) : PlanSt :=
  if eid ∈ entityIds ∧ eid ∉ st.plannedHide then
    { st with
      actions := st.actions ++
        [{ type := "hide_entity"
           payload := { entity_id := some eid, hidden_by := some "user" }
           reason := "Rule: explicit entity hide."
           confidence := 1.0
           requires_approval := true }]
      plannedHide := insert eid st.plannedHide }
  else st

/-- Pass 5 inner body: one candidate entity id against a compiled
`entity_hide.regex` pattern. -/
def hideRegexEntityStep (pat : String) (req : Bool) (rx : String → Bool)
    (st : PlanSt) (eid : String) : PlanSt :=
  if eid ∈ st.plannedHide then st
  else if rx eid then
    { st with
      actions := st.actions ++
        [{ type := "hide_entity"
           payload := { entity_id := some eid, hidden_by := some "user" }
           reason := "Rule: entity_id matches /" ++ pat ++ "/."
           confidence := 0.95
           requires_approval := req }]
      plannedHide := insert eid st.plannedHide }
  else st

/-- Pass 5 body: one `entity_hide.regex` rule over the sorted entity ids. -/
def hideRegexRuleStep (rxc : Rxc) (sortedIds : List String) (st : PlanSt)
    (rr : RegexRule) : PlanSt :=
  let pat := tval rr.pattern
  match rxc pat with
  | none => st
  | some rx => sortedIds.foldl (hideRegexEntityStep pat (rr.requires_approval.getD true) rx) st

/-- Pass 6 body: deterministic entity-area inheritance from the device. -/
def inheritStep (devById : String → Option DeviceR) (statesBy : String → Option StateR)
    (st : PlanSt) (er : EntityR) : PlanSt :=
  if !isT er.entity_id then st
  else
    let eid := tval er.entity_id
    if eid ∈ st.plannedRemove then st
    else if !_is_active_state (statesBy eid) then st
    else if isT er.area_id then st
    else if !isT er.device_id then st
    else
      let devArea := (devById (tval er.device_id)).bind fun d => d.area_id
      if !isT devArea then st
      else
        { st with
          actions := st.actions ++
            [{ type := "set_entity_area"
               payload := { entity_id := some eid, area_id := devArea }
               reason := "Entity has no area_id; device has area_id, so entity can inherit deterministically."
               confidence := 1.0
               requires_approval := false }]
          plannedArea := insert eid st.plannedArea }

/-- Pass 7 body: device-area backfill when all linked active entities have
exactly one explicit area. -/
def backfillStep (entitiesByDev' : String → List EntityR) (statesBy : String → Option StateR)
    (st : PlanSt) (dv : DeviceR) : PlanSt :=
  if !isT dv.id || isT dv.area_id then st
  else
    let linked := entitiesByDev' (tval dv.id)
    let eff : List String :=
      (linked.filterMap fun er =>
        if isT er.entity_id && _is_active_state (statesBy (tval er.entity_id)) && isT er.area_id
        then some (tval er.area_id) else none).dedup
    match eff with
    | [area_id] =>
      st.emit
        { type := "set_device_area"
          payload := { device_id := dv.id, area_id := some area_id }
          reason := "Device has no area_id; all linked active entities have exactly 1 explicit area_id."
          confidence := 0.98
          requires_approval := false }
    | _ => st

/-- Candidate filter of the token-match pass: the grouping's token set must
be truthy (non-empty) and a subset of the haystack token set
(`if at and at <= ht`). -/
def tokenCandidates (areaTokens : List (String × String × Finset String)) (ht : Finset String) :
    List (String × String × Finset String) :=
  areaTokens.filter fun t => decide (t.2.2 ≠ ∅ ∧ t.2.2 ⊆ ht)

/-- The haystack string of the token-match pass. -/
def hayOf (eid : String) (er : EntityR) (stt : Option StateR) : String :=
  eid ++ " " ++ tval er.name ++ " " ++ tval er.original_name ++ " " ++ friendlyOf stt

/-- The action emitted by the token-match pass for one entity. -/
def tokenMatchActionFor (eid aid anm : String) : PAction :=
  { type := "set_entity_area"
    payload := { entity_id := some eid, area_id := some aid }
    reason := "Token match to area name '" ++ anm ++ "' from entity metadata."
    confidence := 0.95
    requires_approval := false }

/-- Pass 8 body: token-match area inference for one entity; the Boolean
accumulator component is the `needs_fallback_onbekend` flag. -/
def tokenMatchStep (areaTokens : List (String × String × Finset String))
    (devById : String → Option DeviceR) (statesBy : String → Option StateR)
    (includeFallback : Bool) (acc : PlanSt × Bool) (er : EntityR) : PlanSt × Bool :=
  let st := acc.1
  if !isT er.entity_id then acc
  else
    let eid := tval er.entity_id
    if eid ∈ st.plannedArea then acc
    else if eid ∈ st.plannedRemove then acc
    else
      let stt := statesBy eid
      if !_is_active_state stt then acc
      else if isT er.area_id then acc
      else if isT er.device_id && isT ((devById (tval er.device_id)).bind fun d => d.area_id) then acc
      else
        let ht := tokenize (hayOf eid er stt)
        match tokenCandidates areaTokens ht with
        | [(area_id, area_name, _)] =>
          ({ st with
             actions := st.actions ++ [tokenMatchActionFor eid area_id area_name]
             plannedArea := insert eid st.plannedArea }, acc.2)
        | _ => if includeFallback then (st, true) else acc

/-- Pass 9: emit `create_area` for the fallback grouping when requested,
needed, and not already existing. -/
def createFallbackPass (areaNames : Finset String) (onbekendName : String)
    (includeFallback needs : Bool) (st : PlanSt) : PlanSt :=
  if includeFallback ∧ needs ∧ onbekendName ∉ areaNames then
    st.emit
      { type := "create_area"
        payload := { name := some onbekendName }
        reason := "Fallback area requested to ensure everything has an effective area."
        confidence := 0.6
        requires_approval := true }
  else st

/-- The fallback grouping lookup of pass 10: the `area_id` of the first area
whose raw name equals the configured fallback name. -/
def onbekendAreaIdOf (areas : List AreaR) (nm : String) : Option String :=
  (areas.find? fun a => a.name == some nm).bind fun a => a.area_id

/-- The action emitted by the fallback-placement pass for one entity. -/
def fallbackActionFor (oid nm eid : String) : PAction :=
  { type := "set_entity_area"
    payload := { entity_id := some eid, area_id := some oid }
    reason := "Fallback: put entity into area '" ++ nm ++ "'."
    confidence := 0.6
    requires_approval := true }

/-- Pass 10 body: place one remaining entity into the fallback grouping. -/
def fallbackPlaceStep (devById : String → Option DeviceR) (statesBy : String → Option StateR)
    (oid nm : String) (st : PlanSt) (er : EntityR) : PlanSt :=
  if !isT er.entity_id then st
  else
    let eid := tval er.entity_id
    if eid ∈ st.plannedArea then st
    else if eid ∈ st.plannedRemove then st
    else if !_is_active_state (statesBy eid) then st
    else if isT (_effective_area_id er devById) then st
    else
      { st with
        actions := st.actions ++ [fallbackActionFor oid nm eid]
        plannedArea := insert eid st.plannedArea }

/-- Pass 10: fallback placement, only when the fallback grouping already
exists in the snapshot with a truthy id. -/
def fallbackPlacementPass (areas : List AreaR) (entities : List EntityR)
    (devById : String → Option DeviceR) (statesBy : String → Option StateR)
    (includeFallback : Bool) (nm : String) (st : PlanSt) : PlanSt :=
  if !includeFallback then st
  else
    match onbekendAreaIdOf areas nm with
    | some oid =>
      if oid.isEmpty then st
      else entities.foldl (fallbackPlaceStep devById statesBy oid nm) st
    | none => st

/-- The action emitted by the suffix-duplicate pass for one entity. -/
def suffixRemoveActionFor (eid base : String) : PAction :=
  { type := "remove_entity_registry_entry"
    payload := { entity_id := some eid }
    reason := "Entity id looks like a suffix duplicate of '" ++ base ++ "'."
    confidence := 0.9
    requires_approval := true }

/-- Pass 11 body: suffix-duplicate removal proposal for one entity. -/
def suffixDupStep (entityIds : Finset String) (st : PlanSt) (er : EntityR) : PlanSt :=
  if !isT er.entity_id then st
  else
    let eid := tval er.entity_id
    if eid ∈ st.plannedRemove then st
    else
      let r := is_suffix_duplicate_entity eid
      if r.1 ∧ r.2 ∈ entityIds then
        { st with
          actions := st.actions ++ [suffixRemoveActionFor eid r.2]
          plannedRemove := insert eid st.plannedRemove }
      else st

/-- The `by_unique_id` grouping (insertion-ordered, truthy keys and values). -/
def byUniqueId (entities : List EntityR) : List (String × List String) :=
  entities.foldl
    (fun acc er =>
      if isT er.unique_id && isT er.entity_id then
        addGrp acc (tval er.unique_id) (tval er.entity_id)
      else acc)
    []

/-- Pass 12 inner body: hide one non-kept duplicate of a `unique_id` group. -/
def uniqueHideStep (uid kept : String) (st : PlanSt) (eid : String) : PlanSt :=
  if eid ∈ st.plannedHide ∨ eid ∈ st.plannedRemove then st
  else
    { st with
      actions := st.actions ++
        [{ type := "hide_entity"
           payload := { entity_id := some eid, hidden_by := some "user" }
           reason := "Duplicate unique_id '" ++ uid ++ "'. Keeping '" ++ kept ++ "', hiding '" ++ eid ++ "'."
           confidence := 0.9
           requires_approval := true }]
      plannedHide := insert eid st.plannedHide }

/-- Pass 12 body: one `unique_id` group. -/
def uniqueGroupStep (st : PlanSt) (g : String × List String) : PlanSt :=
  if g.2.length ≤ 1 then st
  else
    match sortStr g.2 with
    | [] => st
    | kept :: rest => rest.foldl (uniqueHideStep g.1 kept) st
/-- Pass 13 inner body: one entity against a compiled `entity_area` rule. -/
def entityAreaRuleEntityStep (devById : String → Option DeviceR) (statesBy : String → Option StateR)
    (pat areaName target : String) (req overwrite : Bool) (rx : String → Bool)
    (st : PlanSt) (er : EntityR) : PlanSt :=
  let eid := tval er.entity_id
  if eid.isEmpty || decide (eid ∈ st.plannedRemove) then st
  else if !_is_active_state (statesBy eid) then st
  else if !overwrite && (isT (_effective_area_id er devById) || decide (eid ∈ st.plannedArea)) then st
  else if rx eid then
    { st with
      actions := st.actions ++
        [{ type := "set_entity_area"
           payload := { entity_id := some eid, area_id := some target }
           reason := "Rule: entity_id matches /" ++ pat ++ "/ -> area '" ++ areaName ++ "'."
           confidence := 0.9
           requires_approval := req }]
      plannedArea := insert eid st.plannedArea }
  else st

/-- Pass 13 body: one `entity_area` rule. -/
def entityAreaRuleStep (rxc : Rxc) (areas : List AreaR) (entities : List EntityR)
    (devById : String → Option DeviceR) (statesBy : String → Option StateR)
    (st : PlanSt) (rr : AreaAssignRule) : PlanSt :=
  let pat := tval rr.pattern
  let areaName := stripOf rr.area
  if pat.isEmpty || areaName.isEmpty then st
  else
    match rxc pat with
    | none => st
    | some rx =>
      match areaIdByNameLower areas (lowerStr areaName) with
      | none => st
      | some target =>
        if target.isEmpty then st
        else
          entities.foldl
            (entityAreaRuleEntityStep devById statesBy pat areaName target
              (rr.requires_approval.getD true) (rr.overwrite.getD false) rx)
            st

/-- Pass 14 inner body: one device against a compiled `device_area` rule.
Note: no marker set is consulted or updated here. -/
def deviceAreaRuleDeviceStep (pat areaName target : String) (req overwrite : Bool)
    (rx : String → Bool) (st : PlanSt) (dv : DeviceR) : PlanSt :=
  if !isT dv.id then st
  else if isT dv.area_id && !overwrite then st
  else
    let name := pyOr2 dv.name_by_user dv.name
    if name.isEmpty then st
    else if rx name then
      st.emit
        { type := "set_device_area"
          payload := { device_id := dv.id, area_id := some target }
          reason := "Rule: device name matches /" ++ pat ++ "/ -> area '" ++ areaName ++ "'."
          confidence := 0.9
          requires_approval := req }
    else st

/-- Pass 14 body: one `device_area` rule. -/
def deviceAreaRuleStep (rxc : Rxc) (areas : List AreaR) (devices : List DeviceR)
    (st : PlanSt) (rr : AreaAssignRule) : PlanSt :=
  let pat := tval rr.pattern
  let areaName := stripOf rr.area
  if pat.isEmpty || areaName.isEmpty then st
  else
    match rxc pat with
    | none => st
    | some rx =>
      match areaIdByNameLower areas (lowerStr areaName) with
      | none => st
      | some target =>
        if target.isEmpty then st
        else
          devices.foldl
            (deviceAreaRuleDeviceStep pat areaName target (rr.requires_approval.getD true)
              (rr.overwrite.getD false) rx)
            st

/-- The keyword set of a helper rule:
non-empty stripped lower-cased string keywords. -/
def helperKws (hr : HelperRule) : Finset String :=
  (hr.keywords.filterMap fun x =>
    let s := pyStrip x
    if s.isEmpty then none else some (lowerStr s)).toFinset

/-- Pass 15 rule scan with first-match-wins `break`: the action emitted for
an entity by the first applicable helper rule, if any. -/
def helperFindAction (areas : List AreaR) (eid : String) (tokens : Finset String) :
    List HelperRule → Option PAction
  | [] => none
  | hr :: rest =>
    let areaName := stripOf hr.area
    let kws := helperKws hr
    if areaName.isEmpty || decide (kws = ∅) then helperFindAction areas eid tokens rest
    else
      let req := hr.requires_approval.getD true
      if kws ∩ tokens = ∅ then helperFindAction areas eid tokens rest
      else
        match areaIdByNameLower areas (lowerStr (pyStrip areaName)) with
        | none => helperFindAction areas eid tokens rest
        | some target =>
          if target.isEmpty then helperFindAction areas eid tokens rest
          else
            some
              { type := "set_entity_area"
                payload := { entity_id := some eid, area_id := some target }
                reason := "Rule: keyword match suggests area '" ++ areaName ++ "'."
                confidence := 0.85
                requires_approval := req }

/-- Pass 15 body: helper keyword rules for one entity.  Note: the pass
checks `planned_entity_area` but does not update it. -/
def helperStep (areas : List AreaR) (devById : String → Option DeviceR)
    (statesBy : String → Option StateR) (hrules : List HelperRule)
    (st : PlanSt) (er : EntityR) : PlanSt :=
  let eid := tval er.entity_id
  if !_is_active_state (statesBy eid) then st
  else if eid.isEmpty then st
  else if eid ∈ st.plannedArea then st
  else if isT (_effective_area_id er devById) then st
  else
    let tokens := tokenize (eid ++ " " ++ tval er.original_name ++ " " ++ tval er.name)
    match helperFindAction areas eid tokens hrules with
    | some a => st.emit a
    | none => st

/-- Pass 16 candidate collection: active generic-named `media_player.*`
entities with an effective area, as
`(effective_area_id, base_label, entity_id, current_name)`. -/
def mediaCandidates (entities : List EntityR) (devById : String → Option DeviceR)
    (statesBy : String → Option StateR) : List (String × String × String × String) :=
  entities.filterMap fun er =>
    if !isT er.entity_id then none
    else
      let eid := tval er.entity_id
      if !("media_player.".data.isPrefixOf eid.data) then none
      else
        let stt := statesBy eid
        if !_is_active_state stt then none
        else
          let eff := _effective_area_id er devById
          if !isT eff then none
          else
            let current := pyOr3 er.name er.original_name (friendlyOf stt)
            if !_looks_generic_media_name current then none
            else some (tval eff, _media_base_label eid current, eid, current)

/-- Pass 16 grouping by `(area_id, base_label)`, insertion-ordered. -/
def mediaGrouped (cands : List (String × String × String × String)) :
    List ((String × String) × List (String × String)) :=
  cands.foldl (fun acc c => addGrp acc (c.1, c.2.1) (c.2.2.1, c.2.2.2)) []

/-- Pass 16 body: emit numbered renames for one `(area, base)` group. -/
def mediaEmitGroup (areaNameBy : String → Option String) (st : PlanSt)
    (g : (String × String) × List (String × String)) : PlanSt :=
  let items := sortByKey (fun p => p.1) g.2
  let areaName := pyOr2 (areaNameBy g.1.1) (some g.1.1)
  let needNumbers := decide (1 < items.length)
  (items.enum).foldl
    (fun st p =>
      let newName :=
        g.1.2 ++ " " ++ areaName ++ (if needNumbers then " " ++ toString (p.1 + 1) else "")
      st.emit
        { type := "rename_entity"
          payload := { entity_id := some p.2.1, name := some newName }
          reason := "Generic media player name '" ++ p.2.2 ++ "' -> '" ++ newName ++ "' based on effective area."
          confidence := 0.8
          requires_approval := true })
    st

/-- Embedding of the whole planning pipeline of `HousekeeperEngine.plan`
(before ignore filtering): all passes in source order, over one snapshot,
one ruleset, the abstract regex facility, the configured fallback-area name,
and the `include_onbekend_fallback` flag. -/
def planFinalSt (rxc : Rxc) (snap : Snapshot) (rules : Rules) (onbekendName : String)
    (includeFallback : Bool) : PlanSt :=
  let areas := snap.areas
  let entities := snap.entities
  let devById := deviceById snap.devices
  let statesBy := statesById snap.states
  let areaTokens := areaTokensOf areas
  let areaNames := areaNamesOf areas
  let entityIds := entityIdsOf entities
  let sortedIds := sortStr (entityIdListOf entities)
  let st1 := renameAreasPass areas rules.area_renames {}
  let st2 := rules.entity_remove.ids.foldl (removeIdStep entityIds) st1
  let st3 := rules.entity_remove.regex.foldl (removeRegexRuleStep rxc sortedIds) st2
  let st4 := rules.entity_hide.ids.foldl (hideIdStep entityIds) st3
  let st5 := rules.entity_hide.regex.foldl (hideRegexRuleStep rxc sortedIds) st4
  let st6 := entities.foldl (inheritStep devById statesBy) st5
  let st7 := snap.devices.foldl (backfillStep (entitiesByDev entities) statesBy) st6
  let p8 := entities.foldl (tokenMatchStep areaTokens devById statesBy includeFallback) (st7, false)
  let st9 := createFallbackPass areaNames onbekendName includeFallback p8.2 p8.1
  let st10 := fallbackPlacementPass areas entities devById statesBy includeFallback onbekendName st9
  let st11 := entities.foldl (suffixDupStep entityIds) st10
  let st12 := (byUniqueId entities).foldl uniqueGroupStep st11
  let st13 := rules.entity_area.foldl (entityAreaRuleStep rxc areas entities devById statesBy) st12
  let st14 := rules.device_area.foldl (deviceAreaRuleStep rxc areas snap.devices) st13
  let st15 := entities.foldl (helperStep areas devById statesBy rules.helper_area_rules) st14
  let st16 := (mediaGrouped (mediaCandidates entities devById statesBy)).foldl
    (mediaEmitGroup (areaNameById areas)) st15
  st16

/-- Embedding of the whole planning pipeline of `HousekeeperEngine.plan`
(before ignore filtering): the emitted action list, in emission order. -/
def planAll (rxc : Rxc) (snap : Snapshot) (rules : Rules) (onbekendName : String)
    (includeFallback : Bool) : List PAction :=
  (planFinalSt rxc snap rules onbekendName includeFallback).actions

/-- The ignore filtering applied at the end of `plan`: drop actions whose
fingerprint is in the persisted ignore set. -/
def planVisible (rxc : Rxc) (snap : Snapshot) (rules : Rules) (onbekendName : String)
    (includeFallback : Bool) (ignored : List String) : List PAction :=
  (planAll rxc snap rules onbekendName includeFallback).filter fun a =>
    !(ignored.contains (action_fingerprint a.type a.payload))

/-! ## Apply executor (`HousekeeperEngine.apply`)

Registry calls are mediated by an executor oracle `RegExec`: the `Nat` is a
per-run call counter, and the result is either the registry's reply (only
`area_create`'s returned `area_id` is ever read) or an exception string
standing for a transport error or registry rejection.  An uncaught exception
propagates — it aborts the loop and skips `save_rollback`, exactly as an
uncaught Python exception would. -/

/-- Field map passed as keyword arguments to a registry update call, or
captured as a rollback `before` map.  The outer `Option` is key presence;
the inner `Option` is the value, where `none` models an explicit `null`
(Python `None`, used to clear a field). -/
structure UpdFields where
  area_id : Option (Option String) := none
  name : Option (Option String) := none
  name_by_user : Option (Option String) := none
  hidden_by : Option (Option String) := none
  disabled_by : Option (Option String) := none
deriving DecidableEq, Repr

/-- A rollback step as written by `apply` into `rollback.json`. -/
inductive RStep where
  | note (message : String) (area_id : Option String) (name : String)
  | entity_update (entity_id : String) (before : UpdFields)
  | device_update (device_id : String) (before : UpdFields)
  | area_update (area_id : String) (before : UpdFields)
  | entity_restore_note (entity_id : String) (before : Option EntityR)
deriving DecidableEq, Repr

/-- A mutation request issued to the registry client. -/
inductive RegCall where
  | areaCreate (name : String)
  | entityUpdate (entity_id : String) (fields : UpdFields)
  | deviceUpdate (device_id : String) (fields : UpdFields)
  | areaUpdate (area_id : String) (fields : UpdFields)
  | entityRemove (entity_id : String)
deriving DecidableEq, Repr

/-- Executor oracle: outcome of the `n`-th registry call of a run. -/
abbrev RegExec := Nat → RegCall → Except String (Option String)

/-- An action as read back from the persisted plan by `apply`
(the only fields `apply` consults). -/
structure AAction where
  id : String
  type : String
  payload : Payload := {}
  requires_approval : Bool := false
deriving DecidableEq, Repr

/-- Membership test `name in area_by_name` against the fetched areas
(dict keyed by truthy name). -/
def areaNameMem (areas : List AreaR) (n : String) : Bool :=
  areas.any fun a => isT a.name && a.name == some n

/-- Accumulated effects of an apply run in progress. -/
structure ApplyAcc where
  applied : List String := []
  skipped : List (String × String) := []
  steps : List RStep := []
  trace : List RegCall := []
  k : Nat := 0
deriving DecidableEq, Repr

/-- Record a per-action skip. -/
def ApplyAcc.skip (acc : ApplyAcc) (aid reason : String) : ApplyAcc :=
  { acc with skipped := acc.skipped ++ [(aid, reason)] }

/-- Branch of `apply` for `create_area`. -/
def applyCreateArea (ex : RegExec) (snap : Snapshot) (acc : ApplyAcc) (aid : String)
    (payload : Payload) : Except (ApplyAcc × String) ApplyAcc :=
  if !isT payload.name then .ok (acc.skip aid "missing name")
  else
    let name := tval payload.name
    if areaNameMem snap.areas name then .ok { acc with applied := acc.applied ++ [aid] }
    else
      let c := RegCall.areaCreate name
      let acc1 := { acc with trace := acc.trace ++ [c], k := acc.k + 1 }
      match ex acc.k c with
      | .error e => .error (acc1, e)
      | .ok reply =>
        .ok { acc1 with
              steps := acc1.steps ++
                [RStep.note "Area created; rollback does not delete areas." reply name]
              applied := acc1.applied ++ [aid] }

/-- Branch of `apply` for `set_entity_area`. -/
def applySetEntityArea (ex : RegExec) (snap : Snapshot) (acc : ApplyAcc) (aid : String)
    (payload : Payload) : Except (ApplyAcc × String) ApplyAcc :=
  if !isT payload.entity_id || !isT payload.area_id then
    .ok (acc.skip aid "missing entity_id/area_id")
  else
    let eid := tval payload.entity_id
    let before := dlast snap.entities EntityR.entity_id eid
    let c := RegCall.entityUpdate eid { area_id := some payload.area_id }
    let acc1 := { acc with
      steps := acc.steps ++
        [RStep.entity_update eid { area_id := some (before.bind fun er => er.area_id) }]
      trace := acc.trace ++ [c], k := acc.k + 1 }
    match ex acc.k c with
    | .error e => .error (acc1, e)
    | .ok _ => .ok { acc1 with applied := acc1.applied ++ [aid] }

/-- Branch of `apply` for `set_device_area`. -/
def applySetDeviceArea (ex : RegExec) (snap : Snapshot) (acc : ApplyAcc) (aid : String)
    (payload : Payload) : Except (ApplyAcc × String) ApplyAcc :=
  if !isT payload.device_id || !isT payload.area_id then
    .ok (acc.skip aid "missing device_id/area_id")
  else
    let did := tval payload.device_id
    let before := dlast snap.devices DeviceR.id did
    let c := RegCall.deviceUpdate did { area_id := some payload.area_id }
    let acc1 := { acc with
      steps := acc.steps ++
        [RStep.device_update did { area_id := some (before.bind fun d => d.area_id) }]
      trace := acc.trace ++ [c], k := acc.k + 1 }
    match ex acc.k c with
    | .error e => .error (acc1, e)
    | .ok _ => .ok { acc1 with applied := acc1.applied ++ [aid] }

/-- Branch of `apply` for `rename_entity`. -/
def applyRenameEntity (ex : RegExec) (snap : Snapshot) (acc : ApplyAcc) (aid : String)
    (payload : Payload) : Except (ApplyAcc × String) ApplyAcc :=
  if !isT payload.entity_id || !isT payload.name then
    .ok (acc.skip aid "missing entity_id/name")
  else
    let eid := tval payload.entity_id
    let before := dlast snap.entities EntityR.entity_id eid
    let c := RegCall.entityUpdate eid { name := some payload.name }
    let acc1 := { acc with
      steps := acc.steps ++
        [RStep.entity_update eid { name := some (before.bind fun er => er.name) }]
      trace := acc.trace ++ [c], k := acc.k + 1 }
    match ex acc.k c with
    | .error e => .error (acc1, e)
    | .ok _ => .ok { acc1 with applied := acc1.applied ++ [aid] }

/-- Branch of `apply` for `hide_entity`: try `hidden_by` first, fall back to
`disabled_by` if the registry rejects it; both mechanisms share the same
captured `before` fields. -/
def applyHideEntity (ex : RegExec) (snap : Snapshot) (acc : ApplyAcc) (aid : String)
    (payload : Payload) : Except (ApplyAcc × String) ApplyAcc :=
  if !isT payload.entity_id then .ok (acc.skip aid "missing entity_id")
  else
    let eid := tval payload.entity_id
    let hb := payload.hidden_by.getD "user"
    let before := dlast snap.entities EntityR.entity_id eid
    let c := RegCall.entityUpdate eid { hidden_by := some (some hb) }
    let acc1 := { acc with
      steps := acc.steps ++
        [RStep.entity_update eid
          { hidden_by := some (before.bind fun er => er.hidden_by)
            disabled_by := some (before.bind fun er => er.disabled_by) }]
      trace := acc.trace ++ [c], k := acc.k + 1 }
    match ex acc.k c with
    | .ok _ => .ok { acc1 with applied := acc1.applied ++ [aid] }
    | .error _ =>
      let c2 := RegCall.entityUpdate eid { disabled_by := some (some hb) }
      let acc2 := { acc1 with trace := acc1.trace ++ [c2], k := acc1.k + 1 }
      match ex acc1.k c2 with
      | .error e2 => .error (acc2, e2)
      | .ok _ => .ok { acc2 with applied := acc2.applied ++ [aid] }

/-- Branch of `apply` for `remove_entity_registry_entry`. -/
def applyRemoveEntity (ex : RegExec) (snap : Snapshot) (acc : ApplyAcc) (aid : String)
    (payload : Payload) : Except (ApplyAcc × String) ApplyAcc :=
  if !isT payload.entity_id then .ok (acc.skip aid "missing entity_id")
  else
    let eid := tval payload.entity_id
    let before := dlast snap.entities EntityR.entity_id eid
    let c := RegCall.entityRemove eid
    let acc1 := { acc with
      steps := acc.steps ++ [RStep.entity_restore_note eid before]
      trace := acc.trace ++ [c], k := acc.k + 1 }
    match ex acc.k c with
    | .error e => .error (acc1, e)
    | .ok _ => .ok { acc1 with applied := acc1.applied ++ [aid] }

/-- Branch of `apply` for `rename_device`. -/
def applyRenameDevice (ex : RegExec) (snap : Snapshot) (acc : ApplyAcc) (aid : String)
    (payload : Payload) : Except (ApplyAcc × String) ApplyAcc :=
  if !isT payload.device_id || !isT payload.name then
    .ok (acc.skip aid "missing device_id/name")
  else
    let did := tval payload.device_id
    let before := dlast snap.devices DeviceR.id did
    let c := RegCall.deviceUpdate did { name_by_user := some payload.name }
    let acc1 := { acc with
      steps := acc.steps ++
        [RStep.device_update did { name_by_user := some (before.bind fun d => d.name_by_user) }]
      trace := acc.trace ++ [c], k := acc.k + 1 }
    match ex acc.k c with
    | .error e => .error (acc1, e)
    | .ok _ => .ok { acc1 with applied := acc1.applied ++ [aid] }

/-- Branch of `apply` for `rename_area`. -/
def applyRenameArea (ex : RegExec) (snap : Snapshot) (acc : ApplyAcc) (aid : String)
    (payload : Payload) : Except (ApplyAcc × String) ApplyAcc :=
  if !isT payload.area_id || !isT payload.name then
    .ok (acc.skip aid "missing area_id/name")
  else
    let arid := tval payload.area_id
    let before := dlast snap.areas AreaR.area_id arid
    let c := RegCall.areaUpdate arid { name := some payload.name }
    let acc1 := { acc with
      steps := acc.steps ++
        [RStep.area_update arid { name := some (before.bind fun ar => ar.name) }]
      trace := acc.trace ++ [c], k := acc.k + 1 }
    match ex acc.k c with
    | .error e => .error (acc1, e)
    | .ok _ => .ok { acc1 with applied := acc1.applied ++ [aid] }

/-- Loop body of `apply` for one action: the approval gate followed by the
type dispatch.  An `Except.error` result is a propagating exception carrying
the state accumulated so far. -/
def applyStep (ex : RegExec) (snap : Snapshot) (approved : List String)
    (acc : ApplyAcc) (a : AAction) : Except (ApplyAcc × String) ApplyAcc :=
  if a.requires_approval && !approved.contains a.id then
    .ok (acc.skip a.id "requires_approval")
  else if a.type == "create_area" then applyCreateArea ex snap acc a.id a.payload
  else if a.type == "set_entity_area" then applySetEntityArea ex snap acc a.id a.payload
  else if a.type == "set_device_area" then applySetDeviceArea ex snap acc a.id a.payload
  else if a.type == "rename_entity" then applyRenameEntity ex snap acc a.id a.payload
  else if a.type == "hide_entity" then applyHideEntity ex snap acc a.id a.payload
  else if a.type == "remove_entity_registry_entry" then applyRemoveEntity ex snap acc a.id a.payload
  else if a.type == "rename_device" then applyRenameDevice ex snap acc a.id a.payload
  else if a.type == "rename_area" then applyRenameArea ex snap acc a.id a.payload
  else .ok (acc.skip a.id ("unsupported action type " ++ a.type))

/-- The apply loop: processes actions until done or an exception
propagates. -/
def applyList (ex : RegExec) (snap : Snapshot) (approved : List String) :
    List AAction → ApplyAcc → ApplyAcc × Option String
  | [], acc => (acc, none)
  | a :: rest, acc =>
    match applyStep ex snap approved acc a with
    | .ok acc' => applyList ex snap approved rest acc'
    | .error (acc', e) => (acc', some e)

/-- Result of an apply run; `err = some e` means the run was aborted by a
propagating exception `e` (and nothing was persisted). -/
structure ApplyOut where
  applied : List String
  skipped : List (String × String)
  steps : List RStep
  trace : List RegCall
  err : Option String
deriving DecidableEq, Repr

/-- Embedding of `HousekeeperEngine.apply` given the pre-apply registry
snapshot (the `entity_list`/`area_list`/`device_list` fetched once before
the loop). -/
def applyRun (ex : RegExec) (snap : Snapshot) (approved : List String)
    (actions : List AAction) : ApplyOut :=
  let p := applyList ex snap approved actions {}
  { applied := p.1.applied, skipped := p.1.skipped, steps := p.1.steps,
    trace := p.1.trace, err := p.2 }

/-- The rollback record persisted by `save_rollback`: written only when the
loop finishes without a propagating exception. -/
def persistedRollback (o : ApplyOut) : Option (List RStep) :=
  if o.err.isSome then none else some o.steps

/-! ## Rollback executor (`HousekeeperEngine.rollback`) -/

/-- The `clean` filtering of `area_update` rollback:
keep only keys whose captured value is not `None`. -/
def cleanFields (f : UpdFields) : UpdFields :=
  let keep : Option (Option String) → Option (Option String) := fun o =>
    match o with
    | some (some v) => some (some v)
    | _ => none
  { area_id := keep f.area_id, name := keep f.name, name_by_user := keep f.name_by_user,
    hidden_by := keep f.hidden_by, disabled_by := keep f.disabled_by }

/-- Truthiness of a field map: `if clean:` is false exactly when no key is
present. -/
def UpdFields.isEmptyF (f : UpdFields) : Bool :=
  f.area_id.isNone && f.name.isNone && f.name_by_user.isNone &&
    f.hidden_by.isNone && f.disabled_by.isNone

/-- The registry call a rollback step gives rise to, if any: `note` steps
are informational, and an `area_update` step with no non-null captured field
issues no call. -/
def stepCall : RStep → Option RegCall
  | .entity_update eid before => some (.entityUpdate eid before)
  | .device_update did before => some (.deviceUpdate did before)
  | .area_update aid before =>
    let clean := cleanFields before
    if clean.isEmptyF then none else some (.areaUpdate aid clean)
  | .note _ _ _ => none
  | .entity_restore_note _ _ => none

/-- Accumulated effects of a rollback run in progress. -/
structure RbAcc where
  reverted : Nat := 0
  errors : List (RStep × String) := []
  trace : List RegCall := []
  k : Nat := 0
deriving DecidableEq, Repr

/-- Loop body of `rollback` for one step (steps are fed in reverse order):
the per-step `try`/`except` catches a failing call, records it in `errors`,
and continues. -/
def rollbackStep (ex : RegExec) (acc : RbAcc) (st : RStep) : RbAcc :=
  match st with
  | .note _ _ _ => acc
  | .entity_restore_note _ _ => acc
  | .area_update _ before =>
    if (cleanFields before).isEmptyF then { acc with reverted := acc.reverted + 1 }
    else
      match stepCall st with
      | none => acc
      | some c =>
        match ex acc.k c with
        | .ok _ =>
          { acc with reverted := acc.reverted + 1, trace := acc.trace ++ [c], k := acc.k + 1 }
        | .error e =>
          { acc with errors := acc.errors ++ [(st, e)], trace := acc.trace ++ [c], k := acc.k + 1 }
  | _ =>
    match stepCall st with
    | none => acc
    | some c =>
      match ex acc.k c with
      | .ok _ =>
        { acc with reverted := acc.reverted + 1, trace := acc.trace ++ [c], k := acc.k + 1 }
      | .error e =>
        { acc with errors := acc.errors ++ [(st, e)], trace := acc.trace ++ [c], k := acc.k + 1 }

/-- Result shape of `rollback` when a record exists. -/
structure RollbackResult where
  ok : Bool
  reverted : Nat
  errors : List (RStep × String)
  trace : List RegCall
deriving DecidableEq, Repr

/-- Embedding of the rollback loop over a persisted step list: iterate the
steps in reverse order, best effort. -/
def rollbackRun (ex : RegExec) (steps : List RStep) : RollbackResult :=
  let acc := (steps.reverse).foldl (rollbackStep ex) {}
  { ok := acc.errors.isEmpty, reverted := acc.reverted, errors := acc.errors, trace := acc.trace }

/-- Engine-level `rollback`: a missing persisted record yields the
"No rollback.json found" failure result. -/
inductive RollbackOut where
  | noRecord
  | result (r : RollbackResult)
deriving DecidableEq, Repr

/-- Embedding of `HousekeeperEngine.rollback` over the optional persisted
record. -/
def rollbackOp (ex : RegExec) (rb : Option (List RStep)) : RollbackOut :=
  match rb with
  | none => .noRecord
  | some steps => .result (rollbackRun ex steps)

/-! ## Registry state semantics

Success semantics of the registry calls, used to state reversibility: a
snapshot evolves by field updates keyed on ids.  (The id assigned by
`area_create` is chosen by the registry; creations are rollback-inert by
design and excluded from the reversibility claim, so the model leaves the
new area's id empty.) -/

/-- Apply an update field map to an entity record (unknown keys ignored by
the registry). -/
def applyFieldsE (f : UpdFields) (er : EntityR) : EntityR :=
  { er with
    area_id := f.area_id.getD er.area_id
    name := f.name.getD er.name
    hidden_by := f.hidden_by.getD er.hidden_by
    disabled_by := f.disabled_by.getD er.disabled_by }

/-- Apply an update field map to a device record. -/
def applyFieldsD (f : UpdFields) (d : DeviceR) : DeviceR :=
  { d with
    area_id := f.area_id.getD d.area_id
    name_by_user := f.name_by_user.getD d.name_by_user }

/-- Apply an update field map to an area record. -/
def applyFieldsA (f : UpdFields) (a : AreaR) : AreaR :=
  { a with name := f.name.getD a.name }

/-- Success semantics of one registry call on a snapshot. -/
def stateExec (s : Snapshot) : RegCall → Snapshot
  | .entityUpdate eid f =>
    { s with entities := s.entities.map fun er =>
        if er.entity_id == some eid then applyFieldsE f er else er }
  | .deviceUpdate did f =>
    { s with devices := s.devices.map fun d =>
        if d.id == some did then applyFieldsD f d else d }
  | .areaUpdate aid f =>
    { s with areas := s.areas.map fun a =>
        if a.area_id == some aid then applyFieldsA f a else a }
  | .entityRemove eid =>
    { s with entities := s.entities.filter fun er => !(er.entity_id == some eid) }
  | .areaCreate name =>
    { s with areas := s.areas ++ [{ area_id := none, name := some name }] }

/-- Run a list of registry calls on a snapshot. -/
def runCalls (s : Snapshot) (l : List RegCall) : Snapshot := l.foldl stateExec s

/-- The always-succeeding executor (no transport failures, no registry
rejections). -/
def okExec : RegExec := fun _ _ => .ok none

/-- Update calls: registry calls that modify fields of existing records
(everything except removal and creation). -/
def updCall : RegCall → Bool
  | .entityUpdate _ _ => true
  | .deviceUpdate _ _ => true
  | .areaUpdate _ _ => true
  | .entityRemove _ => false
  | .areaCreate _ => false

/-- Effect of one update call on one entity record. -/
def stepE (er : EntityR) (c : RegCall) : EntityR :=
  match c with
  | .entityUpdate eid f => if er.entity_id == some eid then applyFieldsE f er else er
  | _ => er

/-- Effect of a call list on one entity record. -/
def evE (L : List RegCall) (er : EntityR) : EntityR := L.foldl stepE er

/-- Effect of one update call on one device record. -/
def stepD (d : DeviceR) (c : RegCall) : DeviceR :=
  match c with
  | .deviceUpdate did f => if d.id == some did then applyFieldsD f d else d
  | _ => d

/-- Effect of a call list on one device record. -/
def evD (L : List RegCall) (d : DeviceR) : DeviceR := L.foldl stepD d

/-- Effect of one update call on one area record. -/
def stepA (a : AreaR) (c : RegCall) : AreaR :=
  match c with
  | .areaUpdate aid f => if a.area_id == some aid then applyFieldsA f a else a
  | _ => a

/-- Effect of a call list on one area record. -/
def evA (L : List RegCall) (a : AreaR) : AreaR := L.foldl stepA a

/-- The value a call writes into one field of one entity, if any. -/
def extractE (eid : String) (getF : UpdFields → Option (Option String)) :
    RegCall → Option (Option String)
  | .entityUpdate e f => if e == eid then getF f else none
  | _ => none

/-- The value a call writes into one field of one device, if any. -/
def extractD (did : String) (getF : UpdFields → Option (Option String)) :
    RegCall → Option (Option String)
  | .deviceUpdate e f => if e == did then getF f else none
  | _ => none

/-- The value a call writes into one field of one area, if any. -/
def extractA (aid : String) (getF : UpdFields → Option (Option String)) :
    RegCall → Option (Option String)
  | .areaUpdate e f => if e == aid then getF f else none
  | _ => none

/-- Last-write-wins evolution of a single field value under a call list,
through a write extractor. -/
def foldW (extract : RegCall → Option (Option String)) (L : List RegCall)
    (v : Option String) : Option String :=
  L.foldl (fun v c => (extract c).getD v) v

/-- A field of the entity the pre-apply snapshot associates with an id
(the `ent_by_id` dict of `apply`). -/
def ebind (snap : Snapshot) (eid : String) (g : EntityR → Option String) : Option String :=
  (dlast snap.entities EntityR.entity_id eid).bind g

/-- A field of the device the pre-apply snapshot associates with an id. -/
def dbind (snap : Snapshot) (did : String) (g : DeviceR → Option String) : Option String :=
  (dlast snap.devices DeviceR.id did).bind g

/-- A field of the area the pre-apply snapshot associates with an id. -/
def abind (snap : Snapshot) (aid : String) (g : AreaR → Option String) : Option String :=
  (dlast snap.areas AreaR.area_id aid).bind g

/-- Shape of one (mutation call, rollback step) pair emitted by `apply` for
the six update action types: the call writes one field (`hide_entity`: the
`hidden_by` field), and the paired step captures the values the pre-apply
snapshot holds for exactly the written fields (`hide_entity` additionally
captures `disabled_by`). -/
def PairOk (snap : Snapshot) (p : RegCall × RStep) : Prop :=
  (∃ eid w, eid ≠ "" ∧ p.1 = .entityUpdate eid { area_id := some w } ∧
    p.2 = .entity_update eid { area_id := some (ebind snap eid EntityR.area_id) }) ∨
  (∃ eid w, eid ≠ "" ∧ p.1 = .entityUpdate eid { name := some w } ∧
    p.2 = .entity_update eid { name := some (ebind snap eid EntityR.name) }) ∨
  (∃ eid w, eid ≠ "" ∧ p.1 = .entityUpdate eid { hidden_by := some w } ∧
    p.2 = .entity_update eid
      { hidden_by := some (ebind snap eid EntityR.hidden_by)
        disabled_by := some (ebind snap eid EntityR.disabled_by) }) ∨
  (∃ did w, did ≠ "" ∧ p.1 = .deviceUpdate did { area_id := some w } ∧
    p.2 = .device_update did { area_id := some (dbind snap did DeviceR.area_id) }) ∨
  (∃ did w, did ≠ "" ∧ p.1 = .deviceUpdate did { name_by_user := some w } ∧
    p.2 = .device_update did { name_by_user := some (dbind snap did DeviceR.name_by_user) }) ∨
  (∃ aid w, aid ≠ "" ∧ p.1 = .areaUpdate aid { name := some w } ∧
    p.2 = .area_update aid { name := some (abind snap aid AreaR.name) })

/-- Every field present in a rollback step's before map holds the value the
targeted id has in the given (pre-apply) snapshot; note steps carry the
snapshot's full record. -/
def stepFromSnap (snap : Snapshot) : RStep → Prop
  | .entity_update eid b =>
    (b.area_id = none ∨ b.area_id = some (ebind snap eid EntityR.area_id)) ∧
    (b.name = none ∨ b.name = some (ebind snap eid EntityR.name)) ∧
    b.name_by_user = none ∧
    (b.hidden_by = none ∨ b.hidden_by = some (ebind snap eid EntityR.hidden_by)) ∧
    (b.disabled_by = none ∨ b.disabled_by = some (ebind snap eid EntityR.disabled_by))
  | .device_update did b =>
    (b.area_id = none ∨ b.area_id = some (dbind snap did DeviceR.area_id)) ∧
    b.name = none ∧
    (b.name_by_user = none ∨ b.name_by_user = some (dbind snap did DeviceR.name_by_user)) ∧
    b.hidden_by = none ∧ b.disabled_by = none
  | .area_update aid b =>
    b.area_id = none ∧
    (b.name = none ∨ b.name = some (abind snap aid AreaR.name)) ∧
    b.name_by_user = none ∧ b.hidden_by = none ∧ b.disabled_by = none
  | .note _ _ _ => True
  | .entity_restore_note eid b => b = dlast snap.entities EntityR.entity_id eid

/-- Snapshot of the C9 witness scenario: one entity with an area, one
device, one named area. -/
def c9Snap : Snapshot :=
  { areas := [{ area_id := some "a1", name := some "Room" }],
    devices := [{ id := some "d1", name_by_user := some "old" }],
    entities := [{ entity_id := some "e1", area_id := some "a1" }] }

/-- Actions of the C9 witness scenario: the same entity field is modified
twice, then a device rename. -/
def c9Actions : List AAction :=
  [{ id := "i1", type := "set_entity_area", payload := { entity_id := some "e1", area_id := some "b" } },
   { id := "i2", type := "set_entity_area", payload := { entity_id := some "e1", area_id := some "c" } },
   { id := "i3", type := "rename_device", payload := { device_id := some "d1", name := some "new" } }]

/-! ## Claim-side definitions

Definitions in this section follow the words of the specification (for
refinement-style comparison with the code-derived definitions above). -/

/-- The fingerprint key as the specification words it: the value of the
first *present* key among `entity_id`, `device_id`, `area_id`, `name`
(presence alone, regardless of the value). -/
def fpKeyFirstPresent (p : Payload) : String :=
  if p.entity_id.isSome then tval p.entity_id
  else if p.device_id.isSome then tval p.device_id
  else if p.area_id.isSome then tval p.area_id
  else if p.name.isSome then tval p.name
  else ""

/-- First present-and-non-empty value in a key priority list. -/
def firstNonEmptyKey : List (Option String) → String
  | [] => ""
  | o :: rest =>
    match o with
    | some s => if s.isEmpty then firstNonEmptyKey rest else s
    | none => firstNonEmptyKey rest

/-- The fingerprint key as amended: the value of the first key among
`entity_id`, `device_id`, `area_id`, `name` that is present with a
non-empty value. -/
def fpKeyAmended (p : Payload) : String :=
  firstNonEmptyKey [p.entity_id, p.device_id, p.area_id, p.name]

/-- A payload containing none of the four fingerprint keys. -/
def lacksKeyFields (p : Payload) : Prop :=
  p.entity_id = none ∧ p.device_id = none ∧ p.area_id = none ∧ p.name = none

/-- The always-failing executor (every registry call raises). -/
def failExec : RegExec := fun _ _ => .error "boom"

/-- The calls a rollback run attempts, paired with their originating steps:
the non-informational steps in reverse order (this list does not depend on
call outcomes). -/
def rbAttempted (steps : List RStep) : List (RStep × RegCall) :=
  steps.reverse.filterMap fun st => (stepCall st).map fun c => (st, c)

/-- Closed form of the rollback error list: each attempted call is issued at
its own index, and a failure contributes one error entry without affecting
any other attempt. -/
def rbErrorsFrom (ex : RegExec) : Nat → List (RStep × RegCall) → List (RStep × String)
  | _, [] => []
  | k, p :: rest =>
    match ex k p.2 with
    | .ok _ => rbErrorsFrom ex (k + 1) rest
    | .error e => (p.1, e) :: rbErrorsFrom ex (k + 1) rest

/-- Snapshot of the C1 counterexample: two entities with prior areas. -/
def c1Snap : Snapshot :=
  { entities := [{ entity_id := some "e1", area_id := some "A" },
                 { entity_id := some "e2", area_id := some "B" }] }

/-- First action of the C1 counterexample plan. -/
def c1A1 : AAction :=
  { id := "id1", type := "set_entity_area",
    payload := { entity_id := some "e1", area_id := some "X" } }

/-- Second action of the C1 counterexample plan. -/
def c1A2 : AAction :=
  { id := "id2", type := "set_entity_area",
    payload := { entity_id := some "e2", area_id := some "Y" } }

/-- A matcher facility under which no pattern compiles (the scenarios using
it carry no regex rules, so it is immaterial there). -/
def noRx : Rxc := fun _ => none

/-- Snapshot of the C3 counterexample: one active entity with no effective
area, and no areas at all (so the fallback grouping does not pre-exist and
token matching finds no candidate). -/
def c3Snap : Snapshot :=
  { entities := [{ entity_id := some "sensor.x" }],
    states := [{ entity_id := some "sensor.x", state := some "on" }] }

/-- The decimal digit character for a digit value below ten. -/
def digitChar (d : Nat) : Char := Char.ofNat (48 + d)

/-- The decimal representation of a natural number as characters, most
significant digit first (via the base-ten digit expansion). -/
def decChars (n : Nat) : List Char := ((Nat.digits 10 n).map digitChar).reverse

/-- The decimal representation of a natural number as a string. -/
def decString (n : Nat) : String := ⟨decChars n⟩

/-- Snapshot for the C8 concrete scenario: the base id exists alongside the
`_2` and `_1` variants. -/
def c8Snap : Snapshot :=
  { entities := [{ entity_id := some "sensor.kitchen_temp" },
                 { entity_id := some "sensor.kitchen_temp_2" },
                 { entity_id := some "sensor.kitchen_temp_1" }] }

/-- Snapshot for the C8 negative scenario: the `_2` variant exists but the
base id does not. -/
def c8SnapNoBase : Snapshot :=
  { entities := [{ entity_id := some "sensor.kitchen_temp_2" }] }

/-- Snapshot for the C7 positive scenario: one area "Living Room" and one
active area-less entity whose name contains both tokens. -/
def c7Snap : Snapshot :=
  { areas := [{ area_id := some "a1", name := some "Living Room" }],
    entities := [{ entity_id := some "light.x", name := some "the living room lamp" }],
    states := [{ entity_id := some "light.x", state := some "on" }] }

/-- Snapshot for the C7 negative scenario: the entity's haystack contains
the token `living` but not `room`, so the grouping is not a candidate. -/
def c7bSnap : Snapshot :=
  { areas := [{ area_id := some "a1", name := some "Living Room" }],
    entities := [{ entity_id := some "light.x", name := some "living lamp" }],
    states := [{ entity_id := some "light.x", state := some "on" }] }

/-- Concrete regex oracle for counterexample scenarios: every pattern
compiles and matches by literal substring search.  On every `(pattern,
string)` pair actually queried in those scenarios this agrees with Python's
`re.search` (the only metacharacter occurring in the concrete patterns is
`.`, which matches the literal dot present at the same position). -/
def subRx : Rxc := fun pat => some fun s => strContains s pat

/-- Snapshot of the C4 counterexample: two active entities (`x`, also
targeted by remove and hide rules, and `light.y`, targeted twice by
overwrite `entity_area` rules) and one area-less device `d2` targeted twice
by `device_area` rules. -/
def snapC4 : Snapshot :=
  { areas := [{ area_id := some "a1", name := some "Room" }],
    devices := [{ id := some "d2", name := some "d2name" }],
    entities := [{ entity_id := some "x" },
                 { entity_id := some "light.y" }],
    states := [{ entity_id := some "x", state := some "on" },
               { entity_id := some "light.y", state := some "on" }] }

/-- Ruleset of the C4 counterexample. -/
def rulesC4 : Rules :=
  { entity_remove := { ids := ["x"] },
    entity_hide := { ids := ["x"] },
    entity_area := [{ pattern := some "light.y", area := some "Room", overwrite := some true },
                    { pattern := some "light.y", area := some "Room", overwrite := some true }],
    device_area := [{ pattern := some "d2name", area := some "Room" },
                    { pattern := some "d2name", area := some "Room" }] }

/-- The plan of the C4 counterexample scenario. -/
def planC4 : List PAction := planAll subRx snapC4 rulesC4 "Onbekend" false

/-- An action removing the given entity. -/
def isRemoveFor (eid : String) (a : PAction) : Bool :=
  a.type == "remove_entity_registry_entry" && a.payload.entity_id == some eid

/-- An action hiding the given entity. -/
def isHideFor (eid : String) (a : PAction) : Bool :=
  a.type == "hide_entity" && a.payload.entity_id == some eid

/-- An area assignment targeting the given entity. -/
def isEntityAreaFor (eid : String) (a : PAction) : Bool :=
  a.type == "set_entity_area" && a.payload.entity_id == some eid

/-- An area assignment targeting the given device. -/
def isDeviceAreaFor (did : String) (a : PAction) : Bool :=
  a.type == "set_device_area" && a.payload.device_id == some did

/-- Marker soundness for removals and hides in a planning state: no entity
is planned for removal twice or hidden twice, and every planned removal
(hide) is recorded in the corresponding marker set. -/
def MInv (st : PlanSt) : Prop :=
  ∀ eid : String,
    (st.actions.countP (isRemoveFor eid) ≤ 1 ∧
      (1 ≤ st.actions.countP (isRemoveFor eid) → eid ∈ st.plannedRemove)) ∧
    (st.actions.countP (isHideFor eid) ≤ 1 ∧
      (1 ≤ st.actions.countP (isHideFor eid) → eid ∈ st.plannedHide))

/-! ## Sanity examples for the concretely modelled regex -/

example : (is_suffix_duplicate_entity "sensor.kitchen_temp_2") = (true, "sensor.kitchen_temp") := by decide
example : (is_suffix_duplicate_entity "sensor.kitchen_temp_1").1 = false := by decide
example : (is_suffix_duplicate_entity "a_02") = (false, "a_02") := by decide
example : (is_suffix_duplicate_entity "a_0_2") = (true, "a_0") := by decide
example : (is_suffix_duplicate_entity "a_10") = (true, "a") := by decide
example : action_fingerprint "set_entity_area" {entity_id := some "", device_id := some "d"} = "set_entity_area:d" := by decide

/-! ## Claim C5: action fingerprints -/

/-- C5, counterexample: the claim's "first present" reading fails on a
payload whose `entity_id` key is present with the empty string — the Python
`or`-chain skips the falsy value and uses `device_id` instead. -/
theorem C5_counterexample :
    action_fingerprint "set_entity_area" { entity_id := some "", device_id := some "d" } =
        "set_entity_area:d" ∧
    "set_entity_area" ++ ":" ++
        fpKeyFirstPresent { entity_id := some "", device_id := some "d" } = "set_entity_area:" ∧
    action_fingerprint "set_entity_area" { entity_id := some "", device_id := some "d" } ≠
      "set_entity_area" ++ ":" ++
        fpKeyFirstPresent { entity_id := some "", device_id := some "d" } := by
  refine ⟨by decide, by decide, by decide⟩

/-- C5 (amended): the fingerprint is a pure function of the action's type
and payload — any two actions with equal type and equal payload get equal
fingerprint strings — and it equals `"{type}:{key}"` where `key` is the
first of `entity_id`, `device_id`, `area_id`, `name` that is present in the
payload with a non-empty value. -/
theorem C5_fingerprint_amended :
    (∀ a b : PAction, a.type = b.type → a.payload = b.payload →
      action_fingerprint a.type a.payload = action_fingerprint b.type b.payload) ∧
    (∀ (t : String) (p : Payload), action_fingerprint t p = t ++ ":" ++ fpKeyAmended p) := by
  constructor
  · intro a b ht hp
    rw [ht, hp]
  · intro t p
    obtain ⟨e, d, ar, n, hb⟩ := p
    cases e <;> cases d <;> cases ar <;> cases n <;>
      simp only [action_fingerprint, fpKeyAmended, firstNonEmptyKey, isT, tval,
        Bool.not_eq_true'] <;>
      repeat' split <;> simp_all

/-- C5, witness for the amended theorem at concrete inputs. -/
theorem C5_fingerprint_amended_witness :
    action_fingerprint
        (PAction.mk "hide_entity" { entity_id := some "e" } "r1" 1 true).type
        (PAction.mk "hide_entity" { entity_id := some "e" } "r1" 1 true).payload =
      action_fingerprint
        (PAction.mk "hide_entity" { entity_id := some "e" } "r2" 0.5 false).type
        (PAction.mk "hide_entity" { entity_id := some "e" } "r2" 0.5 false).payload ∧
    action_fingerprint "create_area" { name := some "Onbekend" } =
      "create_area" ++ ":" ++ fpKeyAmended { name := some "Onbekend" } :=
  ⟨C5_fingerprint_amended.1
      (PAction.mk "hide_entity" { entity_id := some "e" } "r1" 1 true)
      (PAction.mk "hide_entity" { entity_id := some "e" } "r2" 0.5 false) rfl rfl,
    C5_fingerprint_amended.2 "create_area" { name := some "Onbekend" }⟩

/-! ## Claim C10: fingerprint of key-less payloads and ignore suppression -/

/-- C10: a payload with none of `entity_id`, `device_id`, `area_id`, `name`
fingerprints to `"{type}:"`; any two same-type actions with such payloads
share that one fingerprint; and once that fingerprint is in the persisted
ignore set, no such action of that type survives the visible-plan filter of
any future planning run. -/
theorem C10_keyless_fingerprint_suppression :
    (∀ (t : String) (p : Payload), lacksKeyFields p → action_fingerprint t p = t ++ ":") ∧
    (∀ a b : PAction, a.type = b.type → lacksKeyFields a.payload → lacksKeyFields b.payload →
      action_fingerprint a.type a.payload = action_fingerprint b.type b.payload) ∧
    (∀ (rxc : Rxc) (snap : Snapshot) (rules : Rules) (onbekendName : String)
        (includeFallback : Bool) (ignored : List String) (t : String),
      (t ++ ":") ∈ ignored →
      ∀ a ∈ planVisible rxc snap rules onbekendName includeFallback ignored,
        a.type = t → ¬lacksKeyFields a.payload) := by
  have key : ∀ (t : String) (p : Payload), lacksKeyFields p → action_fingerprint t p = t ++ ":" := by
    intro t p hp
    obtain ⟨h1, h2, h3, h4⟩ := hp
    simp [action_fingerprint, h1, h2, h3, h4, isT]
  refine ⟨key, ?_, ?_⟩
  · intro a b ht ha hb
    rw [key _ _ ha, key _ _ hb, ht]
  · intro rxc snap rules onbekendName includeFallback ignored t hmem a hvis htype hlacks
    have hfp : action_fingerprint a.type a.payload = t ++ ":" := by
      rw [htype]
      exact key t a.payload hlacks
    have := (List.mem_filter.mp hvis).2
    rw [hfp] at this
    have hcontains : ignored.contains (t ++ ":") = true := by
      exact (List.elem_iff).mpr hmem
    rw [hcontains] at this
    simp at this

/-- C10, witness: a concrete keyless action is fingerprinted `"create_area:"`
and is suppressed from a concrete plan once that fingerprint is ignored. -/
theorem C10_keyless_fingerprint_suppression_witness :
    action_fingerprint "create_area" {} = "create_area" ++ ":" ∧
    (∀ a ∈ planVisible (fun _ => none)
        { entities := [{ entity_id := some "sensor.x" }],
          states := [{ entity_id := some "sensor.x", state := some "on" }] }
        {} "" true ["create_area:"],
      a.type = "create_area" → ¬lacksKeyFields a.payload) :=
  ⟨C10_keyless_fingerprint_suppression.1 "create_area" {} ⟨rfl, rfl, rfl, rfl⟩,
    C10_keyless_fingerprint_suppression.2.2 (fun _ => none)
      { entities := [{ entity_id := some "sensor.x" }],
        states := [{ entity_id := some "sensor.x", state := some "on" }] }
      {} "" true ["create_area:"] "create_area" (by decide)⟩

/-! ## Claim C6: `create_area` idempotence -/

/-- C6: applying a `create_area` action whose payload name already exists
among the fetched areas reports the action id as applied, issues no registry
mutation, and appends no rollback step. -/
theorem C6_create_area_idempotent (ex : RegExec) (snap : Snapshot) (approved : List String)
    (acc : ApplyAcc) (a : AAction) (n : String)
    (htype : a.type = "create_area") (hname : a.payload.name = some n) (hne : n ≠ "")
    (hmem : areaNameMem snap.areas n = true)
    (happr : a.requires_approval = false ∨ a.id ∈ approved) :
    applyStep ex snap approved acc a = .ok { acc with applied := acc.applied ++ [a.id] } := by
  have happr' : (a.requires_approval && !approved.contains a.id) = false := by
    rcases happr with h | h
    · simp [h]
    · have hc : approved.contains a.id = true := List.elem_iff.mpr h
      simp [hc, h]
  have hne' : n.isEmpty = false := by
    rw [Bool.eq_false_iff]
    intro h
    exact hne ((String.isEmpty_iff n).mp h)
  unfold applyStep
  rw [happr']
  simp [htype, hname, isT, tval, hne', hmem, applyCreateArea]

/-- C6, witness: a concrete `create_area` on an existing name is a pure
applied-report. -/
theorem C6_create_area_idempotent_witness :
    applyStep okExec { areas := [{ area_id := some "a1", name := some "Keuken" }] } [] {}
        { id := "id3", type := "create_area", payload := { name := some "Keuken" } } =
      .ok { applied := ["id3"] } :=
  C6_create_area_idempotent okExec { areas := [{ area_id := some "a1", name := some "Keuken" }] }
    [] {} { id := "id3", type := "create_area", payload := { name := some "Keuken" } } "Keuken"
    rfl rfl (by decide) (by decide) (Or.inl rfl)

/-! ## Claim C1: apply and partial failure -/

/-- Helper: under an executor that never fails, each loop iteration of
`apply` returns normally, only extends the applied/skipped lists, and files
the action under one of them. -/
theorem applyStep_ok_of_exOk (ex : RegExec) (snap : Snapshot) (approved : List String)
    (hok : ∀ i c, (ex i c).isOk = true) (acc : ApplyAcc) (a : AAction) :
    ∃ acc', applyStep ex snap approved acc a = .ok acc' ∧
      acc.applied <+: acc'.applied ∧ acc.skipped <+: acc'.skipped ∧
      (a.id ∈ acc'.applied ∨ a.id ∈ acc'.skipped.map Prod.fst) := by
  have hex2 : ∀ i c, ∃ v, ex i c = .ok v := by
    intro i c
    cases h : ex i c with
    | error e =>
      exfalso
      have := hok i c
      rw [h] at this
      simp [Except.isOk, Except.toBool] at this
    | ok v => exact ⟨v, rfl⟩
  choose r hr using hex2
  unfold applyStep
  repeat' split
  all_goals
    first
    | exact ⟨_, rfl, by simp [ApplyAcc.skip], by simp [ApplyAcc.skip], by simp [ApplyAcc.skip]⟩
    | (simp only [applyCreateArea, applySetEntityArea, applySetDeviceArea, applyRenameEntity,
         applyHideEntity, applyRemoveEntity, applyRenameDevice, applyRenameArea,
         ApplyAcc.skip, hr]
       repeat' split
       all_goals exact ⟨_, rfl, by simp, by simp, by simp⟩)

/-- Helper: under an executor that never fails, the whole apply loop returns
normally and every action ends up applied or skipped. -/
theorem applyList_ok_of_exOk (ex : RegExec) (snap : Snapshot) (approved : List String)
    (hok : ∀ i c, (ex i c).isOk = true) :
    ∀ (l : List AAction) (acc : ApplyAcc),
      (applyList ex snap approved l acc).2 = none ∧
      acc.applied <+: (applyList ex snap approved l acc).1.applied ∧
      acc.skipped <+: (applyList ex snap approved l acc).1.skipped ∧
      ∀ a ∈ l, a.id ∈ (applyList ex snap approved l acc).1.applied ∨
        a.id ∈ ((applyList ex snap approved l acc).1.skipped.map Prod.fst) := by
  intro l
  induction l with
  | nil => intro acc; simp [applyList]
  | cons a rest ih =>
    intro acc
    obtain ⟨acc', hstep, hpa, hps, hmem⟩ := applyStep_ok_of_exOk ex snap approved hok acc a
    obtain ⟨he, hpa', hps', hmem'⟩ := ih acc'
    rw [applyList, hstep]
    refine ⟨he, hpa.trans hpa', hps.trans hps', ?_⟩
    intro b hb
    rcases List.mem_cons.mp hb with hb | hb
    · subst hb
      rcases hmem with hm | hm
      · exact Or.inl (hpa'.subset hm)
      · exact Or.inr ((hps'.map Prod.fst).subset hm)
    · exact hmem' b hb

/-- C1, counterexample: with a transport failure on the first registry call,
the second action of the plan is neither applied nor skipped (its processing
is prevented), and the rollback record — although one step had already been
accumulated — is not persisted at all. -/
theorem C1_counterexample :
    (applyRun failExec c1Snap [] [c1A1, c1A2]).err = some "boom" ∧
    persistedRollback (applyRun failExec c1Snap [] [c1A1, c1A2]) = none ∧
    (applyRun failExec c1Snap [] [c1A1, c1A2]).steps ≠ [] ∧
    c1A2.id ∉ (applyRun failExec c1Snap [] [c1A1, c1A2]).applied ∧
    c1A2.id ∉ ((applyRun failExec c1Snap [] [c1A1, c1A2]).skipped.map Prod.fst) ∧
    ∀ c ∈ (applyRun failExec c1Snap [] [c1A1, c1A2]).trace,
      c ≠ .entityUpdate "e2" { area_id := some (some "Y") } := by
  refine ⟨by decide, by decide, by decide, by decide, by decide, by decide⟩

/-- C1 (amended): per-action skips (missing approval, missing payload
fields, unsupported types) never prevent the remaining actions from being
processed — whenever no registry call of the run raises, every action of the
plan ends up either applied or skipped and the rollback record accumulated
over the whole run is persisted; but a registry rejection or transport error
while executing an action (other than the primary `hide_entity` mechanism,
which falls back once) aborts the run, leaving later actions unprocessed and
the rollback record unpersisted. -/
theorem C1_apply_amended (ex : RegExec) (snap : Snapshot) (approved : List String)
    (actions : List AAction) (hok : ∀ i c, (ex i c).isOk = true) :
    (applyRun ex snap approved actions).err = none ∧
    persistedRollback (applyRun ex snap approved actions) =
      some (applyRun ex snap approved actions).steps ∧
    ∀ a ∈ actions, a.id ∈ (applyRun ex snap approved actions).applied ∨
      a.id ∈ ((applyRun ex snap approved actions).skipped.map Prod.fst) := by
  obtain ⟨he, _, _, hmem⟩ := applyList_ok_of_exOk ex snap approved hok actions {}
  refine ⟨he, ?_, hmem⟩
  simp [persistedRollback, applyRun] at he ⊢
  simp [he]

/-- C1, witness for the amended theorem: a concrete two-action run under the
always-succeeding executor processes both actions and persists its record. -/
theorem C1_apply_amended_witness :
    (applyRun okExec c1Snap [] [c1A1, c1A2]).err = none ∧
    persistedRollback (applyRun okExec c1Snap [] [c1A1, c1A2]) =
      some (applyRun okExec c1Snap [] [c1A1, c1A2]).steps ∧
    ∀ a ∈ [c1A1, c1A2], a.id ∈ (applyRun okExec c1Snap [] [c1A1, c1A2]).applied ∨
      a.id ∈ ((applyRun okExec c1Snap [] [c1A1, c1A2]).skipped.map Prod.fst) :=
  C1_apply_amended okExec c1Snap [] [c1A1, c1A2] (fun _ _ => rfl)

/-! ## Claim C2: rollback is reverse-order and best-effort -/

/-- Helper: the effect of one rollback loop iteration on trace, errors and
call counter, characterized by `stepCall` and the executor's answer. -/
theorem rollbackStep_char (ex : RegExec) (acc : RbAcc) (st : RStep) :
    (stepCall st = none ∧ (rollbackStep ex acc st).trace = acc.trace ∧
      (rollbackStep ex acc st).errors = acc.errors ∧ (rollbackStep ex acc st).k = acc.k) ∨
    ∃ c, stepCall st = some c ∧
      (rollbackStep ex acc st).trace = acc.trace ++ [c] ∧
      (rollbackStep ex acc st).k = acc.k + 1 ∧
      ((∃ v, ex acc.k c = .ok v ∧ (rollbackStep ex acc st).errors = acc.errors) ∨
        (∃ e, ex acc.k c = .error e ∧
          (rollbackStep ex acc st).errors = acc.errors ++ [(st, e)])) := by
  cases st with
  | note m a n => exact Or.inl ⟨rfl, rfl, rfl, rfl⟩
  | entity_restore_note e b => exact Or.inl ⟨rfl, rfl, rfl, rfl⟩
  | entity_update eid b =>
    cases h : ex acc.k (RegCall.entityUpdate eid b) with
    | ok v =>
      exact Or.inr ⟨_, rfl, by simp [rollbackStep, stepCall, h], by simp [rollbackStep, stepCall, h],
        Or.inl ⟨v, h, by simp [rollbackStep, stepCall, h]⟩⟩
    | error e =>
      exact Or.inr ⟨_, rfl, by simp [rollbackStep, stepCall, h], by simp [rollbackStep, stepCall, h],
        Or.inr ⟨e, h, by simp [rollbackStep, stepCall, h]⟩⟩
  | device_update did b =>
    cases h : ex acc.k (RegCall.deviceUpdate did b) with
    | ok v =>
      exact Or.inr ⟨_, rfl, by simp [rollbackStep, stepCall, h], by simp [rollbackStep, stepCall, h],
        Or.inl ⟨v, h, by simp [rollbackStep, stepCall, h]⟩⟩
    | error e =>
      exact Or.inr ⟨_, rfl, by simp [rollbackStep, stepCall, h], by simp [rollbackStep, stepCall, h],
        Or.inr ⟨e, h, by simp [rollbackStep, stepCall, h]⟩⟩
  | area_update aid b =>
    by_cases hemp : (cleanFields b).isEmptyF = true
    · refine Or.inl ⟨by simp [stepCall, hemp], ?_, ?_, ?_⟩ <;> simp [rollbackStep, hemp]
    · have hemp' : (cleanFields b).isEmptyF = false := Bool.eq_false_iff.mpr hemp
      cases h : ex acc.k (RegCall.areaUpdate aid (cleanFields b)) with
      | ok v =>
        exact Or.inr ⟨_, by simp [stepCall, hemp'],
          by simp [rollbackStep, stepCall, hemp', h], by simp [rollbackStep, stepCall, hemp', h],
          Or.inl ⟨v, h, by simp [rollbackStep, stepCall, hemp', h]⟩⟩
      | error e =>
        exact Or.inr ⟨_, by simp [stepCall, hemp'],
          by simp [rollbackStep, stepCall, hemp', h], by simp [rollbackStep, stepCall, hemp', h],
          Or.inr ⟨e, h, by simp [rollbackStep, stepCall, hemp', h]⟩⟩

/-- Helper: closed form of the rollback fold — the attempted calls are
exactly the non-informational steps in input order, independent of call
outcomes, and the error list collects exactly the failing attempts. -/
theorem rollbackFold_spec (ex : RegExec) :
    ∀ (l : List RStep) (acc : RbAcc),
      (l.foldl (rollbackStep ex) acc).trace =
        acc.trace ++ (l.filterMap fun st => (stepCall st).map fun c => (st, c)).map Prod.snd ∧
      (l.foldl (rollbackStep ex) acc).errors =
        acc.errors ++
          rbErrorsFrom ex acc.k (l.filterMap fun st => (stepCall st).map fun c => (st, c)) ∧
      (l.foldl (rollbackStep ex) acc).k =
        acc.k + (l.filterMap fun st => (stepCall st).map fun c => (st, c)).length := by
  intro l
  induction l with
  | nil => intro acc; simp [rbErrorsFrom]
  | cons st l ih =>
    intro acc
    obtain ⟨ht', he', hk'⟩ := ih (rollbackStep ex acc st)
    rcases rollbackStep_char ex acc st with ⟨hnone, h1, h2, h3⟩ | ⟨c, hsome, h1, h3, hout⟩
    · have hf : (fun st => (stepCall st).map fun c => (st, c)) st = none := by simp [hnone]
      simp only [List.foldl_cons, List.filterMap_cons, hf]
      rw [ht', he', hk', h1, h2, h3]
      exact ⟨rfl, rfl, rfl⟩
    · have hf : (fun st => (stepCall st).map fun c => (st, c)) st = some (st, c) := by
        simp [hsome]
      simp only [List.foldl_cons, List.filterMap_cons, hf]
      rw [ht', he', hk', h1, h3]
      refine ⟨by simp, ?_, by simp [Nat.add_comm, Nat.add_assoc, Nat.add_left_comm]⟩
      rcases hout with ⟨v, hex, herr⟩ | ⟨e, hex, herr⟩
      · rw [herr]
        simp [rbErrorsFrom, hex]
      · rw [herr]
        simp [rbErrorsFrom, hex]

/-- C2: the rollback executor processes the persisted record's steps in
reverse order — the attempted registry calls are exactly those of the
non-informational steps of the reversed list, regardless of any failures, so
an error on a later-applied step still leaves the earlier-applied steps'
undo attempted; informational `note`/`entity_restore_note` steps are skipped
(they contribute no call and no error); each attempted call's failure is
recorded in the returned error list without affecting any other attempt; and
the returned `ok` flag is true exactly when the error list is empty. -/
theorem C2_rollback_best_effort (ex : RegExec) (steps : List RStep) :
    (rollbackRun ex steps).trace = (rbAttempted steps).map Prod.snd ∧
    (rollbackRun ex steps).errors = rbErrorsFrom ex 0 (rbAttempted steps) ∧
    ((rollbackRun ex steps).ok = true ↔ (rollbackRun ex steps).errors = []) ∧
    rollbackOp ex (some steps) = .result (rollbackRun ex steps) := by
  obtain ⟨ht, he, hk⟩ := rollbackFold_spec ex steps.reverse {}
  refine ⟨?_, ?_, ?_, rfl⟩
  · simpa [rollbackRun, rbAttempted] using ht
  · simpa [rollbackRun, rbAttempted] using he
  · simp [rollbackRun, List.isEmpty_iff]

/-! ## Claim C3: fallback placement -/

/-- Helper: one fallback-placement iteration either leaves the state alone
or appends exactly the fallback action for a qualifying entity and marks its
id as area-planned. -/
theorem fallbackPlaceStep_char (devById : String → Option DeviceR)
    (statesBy : String → Option StateR) (oid nm : String) (st : PlanSt) (er : EntityR) :
    fallbackPlaceStep devById statesBy oid nm st er = st ∨
    (isT er.entity_id = true ∧ tval er.entity_id ∉ st.plannedArea ∧
      tval er.entity_id ∉ st.plannedRemove ∧
      fallbackPlaceStep devById statesBy oid nm st er =
        { st with
          actions := st.actions ++ [fallbackActionFor oid nm (tval er.entity_id)]
          plannedArea := insert (tval er.entity_id) st.plannedArea }) := by
  unfold fallbackPlaceStep
  dsimp only
  repeat' split
  all_goals
    first
    | exact Or.inl rfl
    | (refine Or.inr ⟨?_, ?_, ?_, rfl⟩ <;> simp_all)

/-- Helper: the fallback-placement fold only appends actions and never
touches the removal marker. -/
theorem fallbackFold_mono (devById : String → Option DeviceR)
    (statesBy : String → Option StateR) (oid nm : String) :
    ∀ (l : List EntityR) (st : PlanSt),
      st.actions <+: (l.foldl (fallbackPlaceStep devById statesBy oid nm) st).actions ∧
      (l.foldl (fallbackPlaceStep devById statesBy oid nm) st).plannedRemove =
        st.plannedRemove := by
  intro l
  induction l with
  | nil => intro st; exact ⟨List.prefix_rfl, rfl⟩
  | cons h0 t ih =>
    intro st
    rw [List.foldl_cons]
    rcases fallbackPlaceStep_char devById statesBy oid nm st h0 with heq | ⟨_, _, _, heq⟩ <;>
      rw [heq]
    · exact ih st
    · obtain ⟨hpre, hrem⟩ := ih
        { st with
          actions := st.actions ++ [fallbackActionFor oid nm (tval h0.entity_id)]
          plannedArea := insert (tval h0.entity_id) st.plannedArea }
      exact ⟨List.IsPrefix.trans (List.prefix_append _ _) hpre, hrem⟩

/-- Helper: once the fallback grouping's id is in hand, every qualifying
entity of the list ends up with its fallback action in the fold's output
(unless its id was already area-planned on entry). -/
theorem fallbackFold_mem (devById : String → Option DeviceR)
    (statesBy : String → Option StateR) (oid nm : String) :
    ∀ (l : List EntityR) (st : PlanSt) (er : EntityR), er ∈ l →
      isT er.entity_id = true →
      _is_active_state (statesBy (tval er.entity_id)) = true →
      isT (_effective_area_id er devById) = false →
      tval er.entity_id ∉ st.plannedRemove →
      fallbackActionFor oid nm (tval er.entity_id) ∈
          (l.foldl (fallbackPlaceStep devById statesBy oid nm) st).actions ∨
        tval er.entity_id ∈ st.plannedArea := by
  intro l
  induction l with
  | nil => intro st er h; cases h
  | cons h0 t ih =>
    intro st er hmem hid hact heff hrem
    rw [List.foldl_cons]
    rcases List.mem_cons.mp hmem with rfl | hmem'
    · by_cases hpa : tval er.entity_id ∈ st.plannedArea
      · exact Or.inr hpa
      · left
        have hstep : fallbackPlaceStep devById statesBy oid nm st er =
            { st with
              actions := st.actions ++ [fallbackActionFor oid nm (tval er.entity_id)]
              plannedArea := insert (tval er.entity_id) st.plannedArea } := by
          unfold fallbackPlaceStep
          simp [hid, hpa, hrem, hact, heff]
        rw [hstep]
        refine (fallbackFold_mono devById statesBy oid nm t _).1.subset ?_
        simp
    · have hrem' : tval er.entity_id ∉
          (fallbackPlaceStep devById statesBy oid nm st h0).plannedRemove := by
        rcases fallbackPlaceStep_char devById statesBy oid nm st h0 with heq | ⟨_, _, _, heq⟩ <;>
          rw [heq] <;> exact hrem
      rcases ih (fallbackPlaceStep devById statesBy oid nm st h0) er hmem' hid hact heff hrem'
        with h | h
      · exact Or.inl h
      · rcases fallbackPlaceStep_char devById statesBy oid nm st h0 with heq | ⟨_, _, _, heq⟩
        · rw [heq] at h
          exact Or.inr h
        · rw [heq] at h
          simp only [Finset.mem_insert] at h
          rcases h with h | h
          · left
            rw [heq]
            refine (fallbackFold_mono devById statesBy oid nm t _).1.subset ?_
            simp [h]
          · exact Or.inr h

/-- C3, counterexample: a snapshot with one active area-less entity and no
pre-existing fallback grouping.  The plan emits `create_area` for the
fallback grouping (it is "about to be created"), yet no `set_entity_area`
placement into it is emitted in the same run, contradicting the claim. -/
theorem C3_counterexample :
    (∃ a ∈ planAll noRx c3Snap {} "Onbekend" true,
      a.type = "create_area" ∧ a.payload.name = some "Onbekend") ∧
    ∀ a ∈ planAll noRx c3Snap {} "Onbekend" true, a.type ≠ "set_entity_area" := by
  constructor
  · decide
  · decide

/-- C3 (amended): fallback placement runs only when the fallback grouping
already exists in the fetched snapshot — when fallback is not requested, or
no area's name equals the configured fallback name, or the first such area
has a falsy id, the pass changes nothing (in particular a `create_area`
emitted earlier in the same run does not enable placement); when the
grouping pre-exists with truthy id `oid`, every remaining active entity with
no effective area (id truthy, not yet area-planned, not planned for
removal) receives `set_entity_area` into `oid` with confidence 0.6 and
approval required. -/
theorem C3_fallback_amended (areas : List AreaR) (entities : List EntityR)
    (devById : String → Option DeviceR) (statesBy : String → Option StateR) (nm : String) :
    (∀ st : PlanSt, fallbackPlacementPass areas entities devById statesBy false nm st = st) ∧
    (∀ st : PlanSt, onbekendAreaIdOf areas nm = none →
      fallbackPlacementPass areas entities devById statesBy true nm st = st) ∧
    (∀ st : PlanSt, onbekendAreaIdOf areas nm = some "" →
      fallbackPlacementPass areas entities devById statesBy true nm st = st) ∧
    (∀ (st : PlanSt) (oid : String), onbekendAreaIdOf areas nm = some oid → oid ≠ "" →
      ∀ er ∈ entities, isT er.entity_id = true →
        _is_active_state (statesBy (tval er.entity_id)) = true →
        isT (_effective_area_id er devById) = false →
        tval er.entity_id ∉ st.plannedRemove →
        tval er.entity_id ∉ st.plannedArea →
        fallbackActionFor oid nm (tval er.entity_id) ∈
          (fallbackPlacementPass areas entities devById statesBy true nm st).actions) ∧
    (∀ oid eid : String, (fallbackActionFor oid nm eid).type = "set_entity_area" ∧
      (fallbackActionFor oid nm eid).payload.entity_id = some eid ∧
      (fallbackActionFor oid nm eid).payload.area_id = some oid ∧
      (fallbackActionFor oid nm eid).confidence = 0.6 ∧
      (fallbackActionFor oid nm eid).requires_approval = true) := by
  refine ⟨fun st => rfl, ?_, ?_, ?_, fun oid eid => ⟨rfl, rfl, rfl, rfl, rfl⟩⟩
  · intro st h
    simp [fallbackPlacementPass, h]
  · intro st h
    simp only [fallbackPlacementPass, h]
    rfl
  · intro st oid hoid hne er hmem hid hact heff hrem hpa
    have hoe : oid.isEmpty = false := by
      rw [Bool.eq_false_iff]
      intro h
      exact hne ((String.isEmpty_iff oid).mp h)
    have hpass : fallbackPlacementPass areas entities devById statesBy true nm st =
        entities.foldl (fallbackPlaceStep devById statesBy oid nm) st := by
      simp [fallbackPlacementPass, hoid, hoe]
    rw [hpass]
    rcases fallbackFold_mem devById statesBy oid nm entities st er hmem hid hact heff hrem
      with h | h
    · exact h
    · exact absurd h hpa

/-- C3, witness for the amended theorem: with the fallback grouping
pre-existing, a concrete active area-less entity receives its placement. -/
theorem C3_fallback_amended_witness :
    fallbackActionFor "onb" "Onbekend" "sensor.x" ∈
      (fallbackPlacementPass [{ area_id := some "onb", name := some "Onbekend" }]
        [{ entity_id := some "sensor.x" }] (fun _ => none)
        (statesById [{ entity_id := some "sensor.x", state := some "on" }])
        true "Onbekend" {}).actions :=
  (C3_fallback_amended [{ area_id := some "onb", name := some "Onbekend" }]
    [{ entity_id := some "sensor.x" }] (fun _ => none)
    (statesById [{ entity_id := some "sensor.x", state := some "on" }])
    "Onbekend").2.2.2.1 {} "onb" (by decide) (by decide)
    { entity_id := some "sensor.x" } (by decide) (by decide) (by decide) (by decide)
    (by decide) (by decide)

/-! ## Claim C8: suffix duplicates -/

/-- Helper: value of a decimal digit character. -/
theorem digitChar_toNat : ∀ d, d < 10 → (digitChar d).toNat = 48 + d := by decide

/-- Helper: decimal digit characters are digits. -/
theorem digitChar_isDigit : ∀ d, d < 10 → (digitChar d).isDigit = true := by decide

/-- Helper: decimal digit characters are not underscores. -/
theorem digitChar_ne_underscore : ∀ d, d < 10 → digitChar d ≠ '_' := by decide

/-- Helper: decimal digit characters are not newlines. -/
theorem digitChar_ne_newline : ∀ d, d < 10 → digitChar d ≠ '\n' := by decide

/-- Helper: a digit character is `digitChar` of its value. -/
theorem isDigit_exists {c : Char} (h : c.isDigit = true) :
    ∃ d, d < 10 ∧ digitChar d = c := by
  have h1 : ('0' ≤ c ∧ c ≤ '9') := by
    have := of_decide_eq_true (by simpa [Char.isDigit] using h : decide ('0' ≤ c ∧ c ≤ '9') = true)
    exact this
  have hlo : (48 : Nat) ≤ c.toNat := h1.1
  have hhi : c.toNat ≤ 57 := h1.2
  refine ⟨c.toNat - 48, by omega, ?_⟩
  have ht : (digitChar (c.toNat - 48)).toNat = 48 + (c.toNat - 48) :=
    digitChar_toNat _ (by omega)
  apply Char.ext
  apply UInt32.ext
  show (digitChar (c.toNat - 48)).toNat = c.toNat
  omega

/-- Helper: all digits of a base-ten expansion are below ten. -/
theorem digits_mem_lt10 {n d : Nat} (h : d ∈ Nat.digits 10 n) : d < 10 :=
  Nat.digits_lt_base (by norm_num) h

/-- Helper: the decimal representation of `n ≥ 2` matches the suffix
alternation `[2-9]|[1-9][0-9]+`. -/
theorem decChars_suffixNum {n : Nat} (h2 : 2 ≤ n) : suffixNum (decChars n) = true := by
  have hn0 : n ≠ 0 := by omega
  by_cases hlt : n < 10
  · have hd : Nat.digits 10 n = [n] := Nat.digits_of_lt 10 n hn0 hlt
    rw [decChars, hd]
    simp only [List.map_cons, List.map_nil, List.reverse_cons, List.reverse_nil,
      List.nil_append]
    show (decide ('2' ≤ digitChar n) && decide (digitChar n ≤ '9')) = true
    have ht : (digitChar n).toNat = 48 + n := digitChar_toNat n hlt
    have hA : '2' ≤ digitChar n := show (50 : Nat) ≤ (digitChar n).toNat by omega
    have hB : digitChar n ≤ '9' := show (digitChar n).toNat ≤ 57 by omega
    simp [hA, hB]
  · have hne : Nat.digits 10 n ≠ [] := Nat.digits_ne_nil_iff_ne_zero.mpr hn0
    obtain ⟨ds, dl, hds⟩ := (List.eq_nil_or_concat (Nat.digits 10 n)).resolve_left hne
    rw [List.concat_eq_append] at hds
    have hlen2 : 2 ≤ (Nat.digits 10 n).length := by
      by_contra hc
      push_neg at hc
      have hlt' := Nat.lt_base_pow_length_digits (b := 10) (m := n) (by norm_num)
      have hle : (Nat.digits 10 n).length ≤ 1 := by omega
      have hp : (10 : Nat) ^ (Nat.digits 10 n).length ≤ 10 ^ 1 :=
        Nat.pow_le_pow_right (by norm_num) hle
      simp at hp
      omega
    have hds_ne : ds ≠ [] := by
      intro hnil
      rw [hds, hnil] at hlen2
      simp at hlen2
    have hdl10 : dl < 10 := digits_mem_lt10 (n := n) (by rw [hds]; simp)
    have hdl0 : dl ≠ 0 := by
      have hlast := Nat.getLast_digit_ne_zero 10 hn0
      have h1 : (Nat.digits 10 n).getLast? = some dl := by
        rw [hds]
        simp
      have h2' : (Nat.digits 10 n).getLast? =
          some ((Nat.digits 10 n).getLast (Nat.digits_ne_nil_iff_ne_zero.mpr hn0)) :=
        List.getLast?_eq_getLast _ _
      rw [h1] at h2'
      have : dl = (Nat.digits 10 n).getLast (Nat.digits_ne_nil_iff_ne_zero.mpr hn0) :=
        Option.some_injective _ h2'
      omega
    rw [decChars, hds]
    simp only [List.map_append, List.map_cons, List.map_nil, List.reverse_append,
      List.reverse_cons, List.reverse_nil, List.nil_append, List.singleton_append,
      List.cons_append]
    obtain ⟨c2, cs', hcs⟩ := List.exists_cons_of_ne_nil
      (show (List.map digitChar ds).reverse ≠ [] by
        simp [hds_ne])
    rw [hcs]
    show (decide ('1' ≤ digitChar dl) && decide (digitChar dl ≤ '9') &&
      (c2 :: cs').all Char.isDigit) = true
    have ht : (digitChar dl).toNat = 48 + dl := digitChar_toNat dl hdl10
    have hA : '1' ≤ digitChar dl := show (49 : Nat) ≤ (digitChar dl).toNat by omega
    have hB : digitChar dl ≤ '9' := show (digitChar dl).toNat ≤ 57 by omega
    have hall : (c2 :: cs').all Char.isDigit = true := by
      rw [← hcs]
      rw [List.all_eq_true]
      intro x hx
      rw [List.mem_reverse, List.mem_map] at hx
      obtain ⟨d, hd, rfl⟩ := hx
      exact digitChar_isDigit d (digits_mem_lt10 (n := n) (by rw [hds]; simp [hd]))
    simp [hA, hB, hall]

/-- Helper: a string in the suffix alternation is the decimal representation
of an integer at least two. -/
theorem suffixNum_decomp {s : List Char} (h : suffixNum s = true) :
    ∃ n, 2 ≤ n ∧ s = decChars n := by
  match s with
  | [] => simp [suffixNum] at h
  | [c] =>
    have h' : (decide ('2' ≤ c) && decide (c ≤ '9')) = true := h
    rw [Bool.and_eq_true, decide_eq_true_eq, decide_eq_true_eq] at h'
    obtain ⟨h2, h9⟩ := h'
    have hlo : (50 : Nat) ≤ c.toNat := h2
    have hhi : c.toNat ≤ 57 := h9
    refine ⟨c.toNat - 48, by omega, ?_⟩
    have hd : Nat.digits 10 (c.toNat - 48) = [c.toNat - 48] :=
      Nat.digits_of_lt 10 _ (by omega) (by omega)
    rw [decChars, hd]
    simp only [List.map_cons, List.map_nil, List.reverse_cons, List.reverse_nil,
      List.nil_append]
    have ht : (digitChar (c.toNat - 48)).toNat = 48 + (c.toNat - 48) :=
      digitChar_toNat _ (by omega)
    have hc : digitChar (c.toNat - 48) = c := by
      apply Char.ext
      apply UInt32.ext
      show (digitChar (c.toNat - 48)).toNat = c.toNat
      omega
    rw [hc]
  | c :: c2 :: cs' =>
    have h' : (decide ('1' ≤ c) && decide (c ≤ '9') && (c2 :: cs').all Char.isDigit) = true := h
    rw [Bool.and_eq_true, Bool.and_eq_true, decide_eq_true_eq, decide_eq_true_eq] at h'
    obtain ⟨⟨h1, h9⟩, hall⟩ := h'
    have hlo : (49 : Nat) ≤ c.toNat := h1
    have hhi : c.toNat ≤ 57 := h9
    have hrange : ∀ ch ∈ c :: c2 :: cs', 48 ≤ ch.toNat ∧ ch.toNat ≤ 57 := by
      intro ch hch
      rcases List.mem_cons.mp hch with rfl | hch'
      · exact ⟨by omega, hhi⟩
      · have hd : ch.isDigit = true := by
          rw [List.all_eq_true] at hall
          exact hall ch hch'
        obtain ⟨d, hd10, rfl⟩ := isDigit_exists hd
        have := digitChar_toNat d hd10
        omega
    refine ⟨Nat.ofDigits 10 (((c :: c2 :: cs').map fun ch => ch.toNat - 48).reverse), ?_, ?_⟩
    all_goals
      have w1 : ∀ d ∈ ((c :: c2 :: cs').map fun ch => ch.toNat - 48).reverse, d < 10 := by
        intro d hd
        rw [List.mem_reverse, List.mem_map] at hd
        obtain ⟨ch, hch, rfl⟩ := hd
        have := hrange ch hch
        omega
      have w2 : ∀ hne : ((c :: c2 :: cs').map fun ch => ch.toNat - 48).reverse ≠ [],
          (((c :: c2 :: cs').map fun ch => ch.toNat - 48).reverse).getLast hne ≠ 0 := by
        intro hne
        have hlast : (((c :: c2 :: cs').map fun ch => ch.toNat - 48).reverse).getLast? =
            some (c.toNat - 48) := by
          rw [List.getLast?_reverse]
          simp
        have h2' := List.getLast?_eq_getLast _ hne
        rw [hlast] at h2'
        have := Option.some_injective _ h2'
        omega
      have hdig : Nat.digits 10
            (Nat.ofDigits 10 (((c :: c2 :: cs').map fun ch => ch.toNat - 48).reverse)) =
          ((c :: c2 :: cs').map fun ch => ch.toNat - 48).reverse :=
        Nat.digits_ofDigits 10 (by norm_num) _ w1 w2
    · have hn0 : Nat.ofDigits 10 (((c :: c2 :: cs').map fun ch => ch.toNat - 48).reverse) ≠ 0 := by
        intro h0
        rw [h0] at hdig
        simp at hdig
      have hp := Nat.base_pow_length_digits_le 10 _ (by norm_num) hn0
      have hlen : (Nat.digits 10
          (Nat.ofDigits 10 (((c :: c2 :: cs').map fun ch => ch.toNat - 48).reverse))).length =
          cs'.length + 2 := by
        rw [hdig]
        simp
      have hpw : (10 : Nat) ^ 2 ≤ 10 ^ (Nat.digits 10
          (Nat.ofDigits 10 (((c :: c2 :: cs').map fun ch => ch.toNat - 48).reverse))).length :=
        Nat.pow_le_pow_right (by norm_num) (by omega)
      have h100 : (10 : Nat) ^ 2 = 100 := by norm_num
      omega
    · rw [decChars, hdig]
      have hmr : ((((c :: c2 :: cs').map fun ch => ch.toNat - 48).reverse).map digitChar).reverse =
          (c :: c2 :: cs').map fun ch => digitChar (ch.toNat - 48) := by
        rw [List.map_reverse, List.reverse_reverse, List.map_map]
        rfl
      rw [hmr]
      have : ∀ ch ∈ c :: c2 :: cs', digitChar (ch.toNat - 48) = ch := by
        intro ch hch
        have hr := hrange ch hch
        have ht : (digitChar (ch.toNat - 48)).toNat = 48 + (ch.toNat - 48) :=
          digitChar_toNat _ (by omega)
        apply Char.ext
        apply UInt32.ext
        show (digitChar (ch.toNat - 48)).toNat = ch.toNat
        omega
      have hmapid : ∀ l : List Char, (∀ ch ∈ l, digitChar (ch.toNat - 48) = ch) →
          (l.map fun ch => digitChar (ch.toNat - 48)) = l := by
        intro l
        induction l with
        | nil => intro _; rfl
        | cons x xs ih =>
          intro hx
          simp only [List.map_cons]
          rw [hx x (by simp), ih fun ch hch => hx ch (by simp [hch])]
      exact (hmapid _ this).symm

/-- Helper: `dropWhile` skips a prefix wholly satisfying the predicate. -/
theorem dropWhile_append_all {p : Char → Bool} {l1 l2 : List Char}
    (h : ∀ x ∈ l1, p x = true) : (l1 ++ l2).dropWhile p = l2.dropWhile p := by
  induction l1 with
  | nil => rfl
  | cons x xs ih =>
    rw [List.cons_append, List.dropWhile_cons, h x (by simp)]
    exact ih fun y hy => h y (by simp [hy])

/-- Helper: `takeWhile` keeps a prefix wholly satisfying the predicate. -/
theorem takeWhile_append_all {p : Char → Bool} {l1 l2 : List Char}
    (h : ∀ x ∈ l1, p x = true) : (l1 ++ l2).takeWhile p = l1 ++ l2.takeWhile p := by
  induction l1 with
  | nil => rfl
  | cons x xs ih =>
    rw [List.cons_append, List.takeWhile_cons, h x (by simp)]
    simp only [if_true]
    rw [ih fun y hy => h y (by simp [hy])]
    rfl

/-- Helper: the first element surviving `dropWhile` fails the predicate. -/
theorem dropWhile_head_false {p : Char → Bool} :
    ∀ {l : List Char} {x : Char} {rest : List Char},
      l.dropWhile p = x :: rest → p x = false := by
  intro l
  induction l with
  | nil =>
    intro x rest h
    simp [List.dropWhile] at h
  | cons y ys ih =>
    intro x rest h
    rw [List.dropWhile_cons] at h
    by_cases hp : p y = true
    · rw [hp] at h
      simp only [if_true] at h
      exact ih h
    · have hp' : p y = false := Bool.eq_false_iff.mpr hp
      rw [hp'] at h
      simp only [Bool.false_eq_true, if_false, List.cons.injEq] at h
      obtain ⟨rfl, -⟩ := h
      exact hp'

/-- Helper: `splitLastU` recovers a decomposition at the last underscore. -/
theorem splitLastU_append {b s : List Char} (hs : '_' ∉ s) :
    splitLastU (b ++ '_' :: s) = some (b, s) := by
  unfold splitLastU
  have hrev : (b ++ '_' :: s).reverse = s.reverse ++ '_' :: b.reverse := by simp
  have hall : ∀ x ∈ s.reverse, (fun c => decide (c ≠ '_')) x = true := by
    intro x hx
    rw [List.mem_reverse] at hx
    simp only [decide_eq_true_eq]
    intro hx'
    exact hs (hx' ▸ hx)
  have hdrop : ((b ++ '_' :: s).reverse).dropWhile (fun c => decide (c ≠ '_')) =
      '_' :: b.reverse := by
    rw [hrev, dropWhile_append_all hall, List.dropWhile_cons]
    simp
  have htake : ((b ++ '_' :: s).reverse).takeWhile (fun c => decide (c ≠ '_')) = s.reverse := by
    rw [hrev, takeWhile_append_all hall, List.takeWhile_cons]
    simp
  rw [hdrop, htake]
  simp

/-- Helper: a successful `splitLastU` decomposes its input at an underscore
that does not occur in the suffix part. -/
theorem splitLastU_eq {cs b s : List Char} (h : splitLastU cs = some (b, s)) :
    cs = b ++ '_' :: s ∧ '_' ∉ s := by
  unfold splitLastU at h
  cases hd : cs.reverse.dropWhile (fun c => decide (c ≠ '_')) with
  | nil => rw [hd] at h; exact absurd h (by simp)
  | cons x restRev =>
    rw [hd] at h
    simp only [Option.some.injEq, Prod.mk.injEq] at h
    obtain ⟨hb, hs⟩ := h
    have hx : (fun c => decide (c ≠ '_')) x = false := dropWhile_head_false hd
    have hx' : x = '_' := by simpa using hx
    subst hx'
    have hsplit := List.takeWhile_append_dropWhile
      (p := fun c => decide (c ≠ '_')) (l := cs.reverse)
    rw [hd] at hsplit
    have hcs : cs = b ++ '_' :: s := by
      have : cs.reverse.reverse =
          (cs.reverse.takeWhile (fun c => decide (c ≠ '_')) ++ '_' :: restRev).reverse := by
        rw [hsplit]
      rw [List.reverse_reverse] at this
      rw [this]
      simp [← hb, ← hs]
    refine ⟨hcs, ?_⟩
    intro hmem
    rw [← hs, List.mem_reverse] at hmem
    have := List.mem_takeWhile_imp hmem
    simp at this

/-- Helper: on a newline-free id, the Python-regex `$`-newline tolerance and
the `.`-excludes-newline guard are inert. -/
theorem is_suffix_dup_form {e : String} (hnl : ∀ ch ∈ e.data, ch ≠ '\n') :
    is_suffix_duplicate_entity e =
      (match splitLastU e.data with
       | some (base, suf) =>
         if base ≠ [] && suffixNum suf then (true, (⟨base⟩ : String)) else (false, e)
       | none => (false, e)) := by
  have hstrip : stripFinalNL e.data = e.data := by
    unfold stripFinalNL
    cases hgl : e.data.getLast? with
    | none => simp
    | some c =>
      have hc : c ∈ e.data := by
        obtain ⟨hne, heq⟩ := List.mem_getLast?_eq_getLast
          (show c ∈ e.data.getLast? by rw [hgl]; rfl)
        rw [heq]
        exact List.getLast_mem hne
      simp [hnl c hc]
  have hany : (e.data.any fun c => decide (c = '\n')) = false := by
    rw [List.any_eq_false]
    intro x hx
    simpa using hnl x hx
  unfold is_suffix_duplicate_entity
  dsimp only
  rw [hstrip, hany]
  simp

/-- Helper: full characterization of the suffix-duplicate classifier on
newline-free ids. -/
theorem is_suffix_dup_char {e : String} (hnl : ∀ ch ∈ e.data, ch ≠ '\n') :
    ((is_suffix_duplicate_entity e).1 = true ↔
      ∃ (b : String) (n : Nat), b ≠ "" ∧ 2 ≤ n ∧ e = b ++ "_" ++ decString n) ∧
    ∀ (b : String) (n : Nat), b ≠ "" → 2 ≤ n → e = b ++ "_" ++ decString n →
      is_suffix_duplicate_entity e = (true, b) := by
  have hform := is_suffix_dup_form hnl
  have hbk : ∀ (b : String) (n : Nat), b ≠ "" → 2 ≤ n → e = b ++ "_" ++ decString n →
      is_suffix_duplicate_entity e = (true, b) := by
    intro b n hb h2 he
    have hdata : e.data = b.data ++ '_' :: decChars n := by
      rw [he]
      show ((b ++ "_") ++ decString n).data = _
      rw [String.data_append, String.data_append, List.append_assoc]
      rfl
    have hnu : '_' ∉ decChars n := by
      intro hmem
      rw [decChars, List.mem_reverse, List.mem_map] at hmem
      obtain ⟨d, hd, hdc⟩ := hmem
      exact digitChar_ne_underscore d (digits_mem_lt10 hd) hdc
    have hsplit : splitLastU e.data = some (b.data, decChars n) := by
      rw [hdata]
      exact splitLastU_append hnu
    have hbne : b.data ≠ [] := by
      intro h0
      exact hb (String.ext h0)
    rw [hform, hsplit]
    have hcond : (decide (b.data ≠ []) && suffixNum (decChars n)) = true := by
      simp [hbne, decChars_suffixNum h2]
    simp only [hcond, if_true]
  refine ⟨⟨?_, ?_⟩, hbk⟩
  · intro h1
    rw [hform] at h1
    cases hsp : splitLastU e.data with
    | none =>
      rw [hsp] at h1
      simp at h1
    | some p =>
      obtain ⟨bl, sl⟩ := p
      rw [hsp] at h1
      by_cases hcond : (decide (bl ≠ []) && suffixNum sl) = true
      · have hcond' := hcond
        rw [Bool.and_eq_true] at hcond'
        obtain ⟨hbl, hsn⟩ := hcond'
        obtain ⟨hdecomp, hnu⟩ := splitLastU_eq hsp
        obtain ⟨n, h2, rfl⟩ := suffixNum_decomp hsn
        refine ⟨⟨bl⟩, n, ?_, h2, ?_⟩
        · intro hb0
          have : bl = [] := congrArg String.data hb0
          exact (of_decide_eq_true hbl) this
        · apply String.ext
          show e.data = (((⟨bl⟩ : String) ++ "_") ++ decString n).data
          rw [String.data_append, String.data_append, List.append_assoc]
          exact hdecomp
      · dsimp only at h1
        rw [if_neg hcond] at h1
        simp at h1
  · rintro ⟨b, n, hb, h2, he⟩
    rw [hbk b n hb h2 he]

/-- Helper: one suffix-duplicate iteration either leaves the state alone
(and some condition fails) or all conditions hold and it emits exactly the
removal proposal, marking the id as removal-planned. -/
theorem suffixDupStep_char (entityIds : Finset String) (st : PlanSt) (er : EntityR) :
    (suffixDupStep entityIds st er = st ∧
      ¬(isT er.entity_id = true ∧ tval er.entity_id ∉ st.plannedRemove ∧
        (is_suffix_duplicate_entity (tval er.entity_id)).1 = true ∧
        (is_suffix_duplicate_entity (tval er.entity_id)).2 ∈ entityIds)) ∨
    (isT er.entity_id = true ∧ tval er.entity_id ∉ st.plannedRemove ∧
      (is_suffix_duplicate_entity (tval er.entity_id)).1 = true ∧
      (is_suffix_duplicate_entity (tval er.entity_id)).2 ∈ entityIds ∧
      suffixDupStep entityIds st er =
        { st with
          actions := st.actions ++
            [suffixRemoveActionFor (tval er.entity_id)
              (is_suffix_duplicate_entity (tval er.entity_id)).2]
          plannedRemove := insert (tval er.entity_id) st.plannedRemove }) := by
  unfold suffixDupStep
  dsimp only
  repeat' split
  all_goals
    first
    | (refine Or.inl ⟨rfl, ?_⟩; simp_all)
    | (refine Or.inr ⟨by simp_all, by simp_all, by simp_all, by simp_all, rfl⟩)

/-- C8: an entity id (newline-free, as real ids are) is classified as a
suffix duplicate exactly when it is some non-empty base id followed by `_`
and the decimal representation of an integer at least 2, with that base id
reported; the suffix-duplicate pass emits a removal proposal with confidence
0.9 and approval required exactly for entities so classified whose base id
is also in the registry and that are not already marked removed; in
particular `sensor.kitchen_temp_2` is flagged (yielding exactly one removal
proposal) when `sensor.kitchen_temp` exists, no removal is proposed when the
base id is absent, and `sensor.kitchen_temp_1` is never flagged. -/
theorem C8_suffix_duplicates (e : String) (hnl : ∀ ch ∈ e.data, ch ≠ '\n') :
    ((is_suffix_duplicate_entity e).1 = true ↔
      ∃ (b : String) (n : Nat), b ≠ "" ∧ 2 ≤ n ∧ e = b ++ "_" ++ decString n) ∧
    (∀ (b : String) (n : Nat), b ≠ "" → 2 ≤ n → e = b ++ "_" ++ decString n →
      is_suffix_duplicate_entity e = (true, b)) ∧
    (∀ (entityIds : Finset String) (st : PlanSt) (er : EntityR),
      (isT er.entity_id = true → tval er.entity_id ∉ st.plannedRemove →
        (is_suffix_duplicate_entity (tval er.entity_id)).1 = true →
        (is_suffix_duplicate_entity (tval er.entity_id)).2 ∈ entityIds →
        suffixDupStep entityIds st er =
          { st with
            actions := st.actions ++
              [suffixRemoveActionFor (tval er.entity_id)
                (is_suffix_duplicate_entity (tval er.entity_id)).2]
            plannedRemove := insert (tval er.entity_id) st.plannedRemove }) ∧
      (¬(isT er.entity_id = true ∧ tval er.entity_id ∉ st.plannedRemove ∧
          (is_suffix_duplicate_entity (tval er.entity_id)).1 = true ∧
          (is_suffix_duplicate_entity (tval er.entity_id)).2 ∈ entityIds) →
        suffixDupStep entityIds st er = st)) ∧
    (∀ eid base : String, (suffixRemoveActionFor eid base).type =
        "remove_entity_registry_entry" ∧
      (suffixRemoveActionFor eid base).confidence = 0.9 ∧
      (suffixRemoveActionFor eid base).requires_approval = true) ∧
    planAll noRx c8Snap {} "Onbekend" false =
      [suffixRemoveActionFor "sensor.kitchen_temp_2" "sensor.kitchen_temp"] ∧
    planAll noRx c8SnapNoBase {} "Onbekend" false = [] ∧
    (is_suffix_duplicate_entity "sensor.kitchen_temp_1").1 = false := by
  refine ⟨(is_suffix_dup_char hnl).1, (is_suffix_dup_char hnl).2, ?_, ?_, ?_, ?_, ?_⟩
  · intro entityIds st er
    constructor
    · intro h1 h2 h3 h4
      rcases suffixDupStep_char entityIds st er with ⟨_, hn⟩ | ⟨_, _, _, _, heq⟩
      · exact absurd ⟨h1, h2, h3, h4⟩ hn
      · exact heq
    · intro hn
      rcases suffixDupStep_char entityIds st er with ⟨heq, _⟩ | ⟨h1, h2, h3, h4, _⟩
      · exact heq
      · exact absurd ⟨h1, h2, h3, h4⟩ hn
  · exact fun eid base => ⟨rfl, rfl, rfl⟩
  · rfl
  · rfl
  · decide

/-- C8, witness: the characterization applied at the concrete id
`sensor.kitchen_temp_2`. -/
theorem C8_suffix_duplicates_witness :
    (is_suffix_duplicate_entity "sensor.kitchen_temp_2").1 = true ↔
      ∃ (b : String) (n : Nat), b ≠ "" ∧ 2 ≤ n ∧
        "sensor.kitchen_temp_2" = b ++ "_" ++ decString n :=
  (C8_suffix_duplicates "sensor.kitchen_temp_2" (by decide)).1

/-! ## Claim C7: token-match area inference -/

theorem tokenCandidates_mem (areaTokens : List (String × String × Finset String))
    (ht : Finset String) (t : String × String × Finset String) :
    t ∈ tokenCandidates areaTokens ht ↔ t ∈ areaTokens ∧ t.2.2 ≠ ∅ ∧ t.2.2 ⊆ ht := by
  simp [tokenCandidates, List.mem_filter]

theorem tokenMatchStep_emit
    (areaTokens : List (String × String × Finset String))
    (devById : String → Option DeviceR) (statesBy : String → Option StateR)
    (incF : Bool) (acc : PlanSt × Bool) (er : EntityR)
    (aid anm : String) (ts : Finset String)
    (h1 : isT er.entity_id = true)
    (h2 : tval er.entity_id ∉ acc.1.plannedArea)
    (h3 : tval er.entity_id ∉ acc.1.plannedRemove)
    (h4 : _is_active_state (statesBy (tval er.entity_id)) = true)
    (h5 : isT er.area_id = false)
    (h6 : (isT er.device_id &&
        isT ((devById (tval er.device_id)).bind fun d => d.area_id)) = false)
    (h7 : tokenCandidates areaTokens
        (tokenize (hayOf (tval er.entity_id) er (statesBy (tval er.entity_id)))) =
      [(aid, anm, ts)]) :
    tokenMatchStep areaTokens devById statesBy incF acc er =
      ({ acc.1 with
         actions := acc.1.actions ++ [tokenMatchActionFor (tval er.entity_id) aid anm]
         plannedArea := insert (tval er.entity_id) acc.1.plannedArea }, acc.2) := by
  unfold tokenMatchStep
  dsimp only
  rw [h1, h4, h5, h6]
  simp only [Bool.not_true, Bool.not_false, if_neg h2, if_neg h3, h7]
  rfl

/-- C7: a grouping is a candidate for an entity exactly when the grouping
name's token set (lower-cased, split on runs of characters outside
`[a-z0-9]`) is non-empty and a subset of the entity's haystack token set;
`"Living Room"` tokenizes to `{living, room}`, a haystack containing both
tokens admits it and a haystack with only `living` does not; whenever the
candidate list for an entity that survives the pass's guards is a single
grouping, the planner emits `set_entity_area` into it with confidence 0.95
and no approval required, and on concrete snapshots the whole plan consists
of exactly that action (resp. no action when the tokens do not all occur). -/
theorem C7_token_match :
    tokenize "Living Room" = {"living", "room"} ∧
    (∀ (areaTokens : List (String × String × Finset String)) (ht : Finset String)
      (t : String × String × Finset String),
      t ∈ tokenCandidates areaTokens ht ↔ t ∈ areaTokens ∧ t.2.2 ≠ ∅ ∧ t.2.2 ⊆ ht) ∧
    tokenize "Living Room" ⊆ tokenize "the living room lamp" ∧
    ¬ tokenize "Living Room" ⊆ tokenize "living lamp" ∧
    (∀ (areaTokens : List (String × String × Finset String))
      (devById : String → Option DeviceR) (statesBy : String → Option StateR)
      (incF : Bool) (acc : PlanSt × Bool) (er : EntityR)
      (aid anm : String) (ts : Finset String),
      isT er.entity_id = true →
      tval er.entity_id ∉ acc.1.plannedArea →
      tval er.entity_id ∉ acc.1.plannedRemove →
      _is_active_state (statesBy (tval er.entity_id)) = true →
      isT er.area_id = false →
      (isT er.device_id &&
        isT ((devById (tval er.device_id)).bind fun d => d.area_id)) = false →
      tokenCandidates areaTokens
          (tokenize (hayOf (tval er.entity_id) er (statesBy (tval er.entity_id)))) =
        [(aid, anm, ts)] →
      tokenMatchStep areaTokens devById statesBy incF acc er =
        ({ acc.1 with
           actions := acc.1.actions ++ [tokenMatchActionFor (tval er.entity_id) aid anm]
           plannedArea := insert (tval er.entity_id) acc.1.plannedArea }, acc.2)) ∧
    (∀ eid aid anm : String,
      (tokenMatchActionFor eid aid anm).type = "set_entity_area" ∧
      (tokenMatchActionFor eid aid anm).confidence = 0.95 ∧
      (tokenMatchActionFor eid aid anm).requires_approval = false) ∧
    planAll noRx c7Snap {} "Onbekend" false =
      [tokenMatchActionFor "light.x" "a1" "Living Room"] ∧
    planAll noRx c7bSnap {} "Onbekend" false = [] := by
  refine ⟨by decide, tokenCandidates_mem, by decide, by decide, ?_, ?_, rfl, rfl⟩
  · intro areaTokens devById statesBy incF acc er aid anm ts h1 h2 h3 h4 h5 h6 h7
    exact tokenMatchStep_emit areaTokens devById statesBy incF acc er aid anm ts
      h1 h2 h3 h4 h5 h6 h7
  · exact fun eid aid anm => ⟨rfl, rfl, rfl⟩

/-- C7, witness: the single-candidate emission applied at the concrete
entity `light.x` against the single grouping `Living Room`. -/
theorem C7_token_match_witness :
    tokenMatchStep [("a1", "Living Room", tokenize "Living Room")]
        (fun _ => none) (statesById c7Snap.states) false ({}, false)
        { entity_id := some "light.x", name := some "the living room lamp" } =
      ({ ({} : PlanSt) with
         actions := ([] : List PAction) ++ [tokenMatchActionFor "light.x" "a1" "Living Room"]
         plannedArea := insert "light.x" (∅ : Finset String) }, false) :=
  C7_token_match.2.2.2.2.1 [("a1", "Living Room", tokenize "Living Room")]
    (fun _ => none) (statesById c7Snap.states) false ({}, false)
    { entity_id := some "light.x", name := some "the living room lamp" }
    "a1" "Living Room" (tokenize "Living Room")
    (by decide) (by decide) (by decide) (by decide) (by decide) (by decide) (by decide)

/-! ## Claim C4: already-planned marker sets -/

theorem MInv_empty : MInv {} := by
  intro eid
  simp [MInv, List.countP_nil]

theorem MInv_other {st : PlanSt} {a : PAction} {A : Finset String}
    (hr : (a.type == "remove_entity_registry_entry") = false)
    (hh : (a.type == "hide_entity") = false)
    (h : MInv st) :
    MInv { st with actions := st.actions ++ [a], plannedArea := A } := by
  intro eid
  obtain ⟨⟨hr1, hr2⟩, ⟨hh1, hh2⟩⟩ := h eid
  have hra : isRemoveFor eid a = false := by simp [isRemoveFor, hr]
  have hha : isHideFor eid a = false := by simp [isHideFor, hh]
  refine ⟨⟨?_, ?_⟩, ⟨?_, ?_⟩⟩ <;>
    simp only [List.countP_append, List.countP_cons, List.countP_nil, hra, hha,
      if_false, Bool.false_eq_true, Nat.add_zero, Nat.zero_add]
  · exact hr1
  · exact hr2
  · exact hh1
  · exact hh2

theorem MInv_remove {st : PlanSt} {a : PAction} {eid0 : String} {A : Finset String}
    (ht : a.type = "remove_entity_registry_entry")
    (hp : a.payload.entity_id = some eid0)
    (hnotin : eid0 ∉ st.plannedRemove)
    (h : MInv st) :
    MInv { st with actions := st.actions ++ [a],
                   plannedArea := A,
                   plannedRemove := insert eid0 st.plannedRemove } := by
  intro eid
  obtain ⟨⟨hr1, hr2⟩, ⟨hh1, hh2⟩⟩ := h eid
  have hha : isHideFor eid a = false := by simp [isHideFor, ht]
  refine ⟨⟨?_, ?_⟩, ⟨?_, ?_⟩⟩
  · by_cases he : eid = eid0
    · subst he
      have hzero : st.actions.countP (isRemoveFor eid) = 0 := by
        by_contra hne
        exact hnotin (hr2 (Nat.one_le_iff_ne_zero.mpr hne))
      simp only [List.countP_append, List.countP_cons, List.countP_nil, hzero]
      split <;> simp
    · have hra : isRemoveFor eid a = false := by
        simp only [isRemoveFor, ht, hp]
        simp [Ne.symm he]
      simpa [List.countP_append, List.countP_cons, hra] using hr1
  · intro hge
    by_cases he : eid = eid0
    · subst he; exact Finset.mem_insert_self _ _
    · have hra : isRemoveFor eid a = false := by
        simp only [isRemoveFor, ht, hp]
        simp [Ne.symm he]
      simp only [List.countP_append, List.countP_cons, List.countP_nil, hra] at hge
      exact Finset.mem_insert_of_mem (hr2 (by simpa using hge))
  · simpa [List.countP_append, List.countP_cons, hha] using hh1
  · intro hge
    simp only [List.countP_append, List.countP_cons, List.countP_nil, hha] at hge
    exact hh2 (by simpa using hge)

theorem MInv_hide {st : PlanSt} {a : PAction} {eid0 : String}
    (ht : a.type = "hide_entity")
    (hp : a.payload.entity_id = some eid0)
    (hnotin : eid0 ∉ st.plannedHide)
    (h : MInv st) :
    MInv { st with actions := st.actions ++ [a],
                   plannedHide := insert eid0 st.plannedHide } := by
  intro eid
  obtain ⟨⟨hr1, hr2⟩, ⟨hh1, hh2⟩⟩ := h eid
  have hra : isRemoveFor eid a = false := by simp [isRemoveFor, ht]
  refine ⟨⟨?_, ?_⟩, ⟨?_, ?_⟩⟩
  · simpa [List.countP_append, List.countP_cons, hra] using hr1
  · intro hge
    simp only [List.countP_append, List.countP_cons, List.countP_nil, hra] at hge
    exact hr2 (by simpa using hge)
  · by_cases he : eid = eid0
    · subst he
      have hzero : st.actions.countP (isHideFor eid) = 0 := by
        by_contra hne
        exact hnotin (hh2 (Nat.one_le_iff_ne_zero.mpr hne))
      simp only [List.countP_append, List.countP_cons, List.countP_nil, hzero]
      split <;> simp
    · have hha : isHideFor eid a = false := by
        simp only [isHideFor, ht, hp]
        simp [Ne.symm he]
      simpa [List.countP_append, List.countP_cons, hha] using hh1
  · intro hge
    by_cases he : eid = eid0
    · subst he; exact Finset.mem_insert_self _ _
    · have hha : isHideFor eid a = false := by
        simp only [isHideFor, ht, hp]
        simp [Ne.symm he]
      simp only [List.countP_append, List.countP_cons, List.countP_nil, hha] at hge
      exact Finset.mem_insert_of_mem (hh2 (by simpa using hge))

theorem MInv_foldl {α : Type} {f : PlanSt → α → PlanSt}
    (hf : ∀ st x, MInv st → MInv (f st x)) :
    ∀ (l : List α) (st : PlanSt), MInv st → MInv (l.foldl f st) := by
  intro l
  induction l with
  | nil => intro st h; exact h
  | cons x t ih => intro st h; exact ih (f st x) (hf st x h)

theorem MInv_foldl_pair {α : Type} {f : PlanSt × Bool → α → PlanSt × Bool}
    (hf : ∀ p x, MInv p.1 → MInv (f p x).1) :
    ∀ (l : List α) (p : PlanSt × Bool), MInv p.1 → MInv (l.foldl f p).1 := by
  intro l
  induction l with
  | nil => intro p h; exact h
  | cons x t ih => intro p h; exact ih (f p x) (hf p x h)

theorem MInv_renameAreaStep (areas : List AreaR) :
    ∀ (st : PlanSt) (r : AreaRenameRule), MInv st → MInv (renameAreaStep areas st r) := by
  intro st r h
  unfold renameAreaStep PlanSt.emit
  dsimp only
  repeat' split
  all_goals first
    | exact h
    | exact MInv_other rfl rfl h

theorem MInv_removeIdStep (entityIds : Finset String) :
    ∀ (st : PlanSt) (eid : String), MInv st → MInv (removeIdStep entityIds st eid) := by
  intro st eid h
  unfold removeIdStep
  split
  · rename_i hc
    exact MInv_remove rfl rfl hc.2 h
  · exact h

theorem MInv_removeRegexEntityStep (pat : String) (req : Bool) (rx : String → Bool) :
    ∀ (st : PlanSt) (eid : String), MInv st → MInv (removeRegexEntityStep pat req rx st eid) := by
  intro st eid h
  unfold removeRegexEntityStep
  split
  · exact h
  · rename_i hnot
    split
    · exact MInv_remove rfl rfl hnot h
    · exact h

theorem MInv_removeRegexRuleStep (rxc : Rxc) (sortedIds : List String) :
    ∀ (st : PlanSt) (rr : RegexRule), MInv st → MInv (removeRegexRuleStep rxc sortedIds st rr) := by
  intro st rr h
  unfold removeRegexRuleStep
  dsimp only
  split
  · exact h
  · exact MInv_foldl (MInv_removeRegexEntityStep _ _ _) _ _ h

theorem MInv_hideIdStep (entityIds : Finset String) :
    ∀ (st : PlanSt) (eid : String), MInv st → MInv (hideIdStep entityIds st eid) := by
  intro st eid h
  unfold hideIdStep
  split
  · rename_i hc
    exact MInv_hide rfl rfl hc.2 h
  · exact h

theorem MInv_hideRegexEntityStep (pat : String) (req : Bool) (rx : String → Bool) :
    ∀ (st : PlanSt) (eid : String), MInv st → MInv (hideRegexEntityStep pat req rx st eid) := by
  intro st eid h
  unfold hideRegexEntityStep
  split
  · exact h
  · rename_i hnot
    split
    · exact MInv_hide rfl rfl hnot h
    · exact h

theorem MInv_hideRegexRuleStep (rxc : Rxc) (sortedIds : List String) :
    ∀ (st : PlanSt) (rr : RegexRule), MInv st → MInv (hideRegexRuleStep rxc sortedIds st rr) := by
  intro st rr h
  unfold hideRegexRuleStep
  dsimp only
  split
  · exact h
  · exact MInv_foldl (MInv_hideRegexEntityStep _ _ _) _ _ h

theorem MInv_inheritStep (devById : String → Option DeviceR) (statesBy : String → Option StateR) :
    ∀ (st : PlanSt) (er : EntityR), MInv st → MInv (inheritStep devById statesBy st er) := by
  intro st er h
  unfold inheritStep
  dsimp only
  repeat' split
  all_goals first
    | exact h
    | exact MInv_other rfl rfl h

theorem MInv_backfillStep (ebd : String → List EntityR) (statesBy : String → Option StateR) :
    ∀ (st : PlanSt) (dv : DeviceR), MInv st → MInv (backfillStep ebd statesBy st dv) := by
  intro st dv h
  unfold backfillStep PlanSt.emit
  dsimp only
  repeat' split
  all_goals first
    | exact h
    | exact MInv_other rfl rfl h

theorem MInv_tokenMatchStep (areaTokens : List (String × String × Finset String))
    (devById : String → Option DeviceR) (statesBy : String → Option StateR) (incF : Bool) :
    ∀ (acc : PlanSt × Bool) (er : EntityR), MInv acc.1 →
      MInv (tokenMatchStep areaTokens devById statesBy incF acc er).1 := by
  intro acc er h
  unfold tokenMatchStep
  dsimp only
  repeat' split
  all_goals try dsimp only
  all_goals first
    | exact h
    | exact MInv_other rfl rfl h

theorem MInv_createFallbackPass (areaNames : Finset String) (nm : String)
    (incF needs : Bool) (st : PlanSt) (h : MInv st) :
    MInv (createFallbackPass areaNames nm incF needs st) := by
  unfold createFallbackPass PlanSt.emit
  split
  · exact MInv_other rfl rfl h
  · exact h

theorem MInv_fallbackPlaceStep (devById : String → Option DeviceR)
    (statesBy : String → Option StateR) (oid nm : String) :
    ∀ (st : PlanSt) (er : EntityR), MInv st → MInv (fallbackPlaceStep devById statesBy oid nm st er) := by
  intro st er h
  unfold fallbackPlaceStep
  dsimp only
  repeat' split
  all_goals first
    | exact h
    | exact MInv_other rfl rfl h

theorem MInv_fallbackPlacementPass (areas : List AreaR) (entities : List EntityR)
    (devById : String → Option DeviceR) (statesBy : String → Option StateR)
    (incF : Bool) (nm : String) (st : PlanSt) (h : MInv st) :
    MInv (fallbackPlacementPass areas entities devById statesBy incF nm st) := by
  unfold fallbackPlacementPass
  repeat' split
  all_goals first
    | exact h
    | exact MInv_foldl (MInv_fallbackPlaceStep _ _ _ _) _ _ h

theorem MInv_suffixDupStep (entityIds : Finset String) :
    ∀ (st : PlanSt) (er : EntityR), MInv st → MInv (suffixDupStep entityIds st er) := by
  intro st er h
  unfold suffixDupStep
  dsimp only
  split
  · exact h
  · split
    · exact h
    · rename_i hnot
      split
      · exact MInv_remove rfl rfl hnot h
      · exact h

theorem MInv_uniqueHideStep (uid kept : String) :
    ∀ (st : PlanSt) (eid : String), MInv st → MInv (uniqueHideStep uid kept st eid) := by
  intro st eid h
  unfold uniqueHideStep
  split
  · exact h
  · rename_i hno
    exact MInv_hide rfl rfl (fun hm => hno (Or.inl hm)) h

theorem MInv_uniqueGroupStep :
    ∀ (st : PlanSt) (g : String × List String), MInv st → MInv (uniqueGroupStep st g) := by
  intro st g h
  unfold uniqueGroupStep
  repeat' split
  all_goals first
    | exact h
    | exact MInv_foldl (MInv_uniqueHideStep _ _) _ _ h

theorem MInv_entityAreaRuleEntityStep (devById : String → Option DeviceR)
    (statesBy : String → Option StateR) (pat areaName target : String)
    (req overwrite : Bool) (rx : String → Bool) :
    ∀ (st : PlanSt) (er : EntityR), MInv st →
      MInv (entityAreaRuleEntityStep devById statesBy pat areaName target req overwrite rx st er) := by
  intro st er h
  unfold entityAreaRuleEntityStep
  dsimp only
  repeat' split
  all_goals first
    | exact h
    | exact MInv_other rfl rfl h

theorem MInv_entityAreaRuleStep (rxc : Rxc) (areas : List AreaR) (entities : List EntityR)
    (devById : String → Option DeviceR) (statesBy : String → Option StateR) :
    ∀ (st : PlanSt) (rr : AreaAssignRule), MInv st →
      MInv (entityAreaRuleStep rxc areas entities devById statesBy st rr) := by
  intro st rr h
  unfold entityAreaRuleStep
  dsimp only
  repeat' split
  all_goals first
    | exact h
    | exact MInv_foldl (MInv_entityAreaRuleEntityStep _ _ _ _ _ _ _ _) _ _ h

theorem MInv_deviceAreaRuleDeviceStep (pat areaName target : String)
    (req overwrite : Bool) (rx : String → Bool) :
    ∀ (st : PlanSt) (dv : DeviceR), MInv st →
      MInv (deviceAreaRuleDeviceStep pat areaName target req overwrite rx st dv) := by
  intro st dv h
  unfold deviceAreaRuleDeviceStep PlanSt.emit
  dsimp only
  repeat' split
  all_goals first
    | exact h
    | exact MInv_other rfl rfl h

theorem MInv_deviceAreaRuleStep (rxc : Rxc) (areas : List AreaR) (devices : List DeviceR) :
    ∀ (st : PlanSt) (rr : AreaAssignRule), MInv st →
      MInv (deviceAreaRuleStep rxc areas devices st rr) := by
  intro st rr h
  unfold deviceAreaRuleStep
  dsimp only
  repeat' split
  all_goals first
    | exact h
    | exact MInv_foldl (MInv_deviceAreaRuleDeviceStep _ _ _ _ _ _) _ _ h

theorem helperFindAction_type (areas : List AreaR) (eid : String) (tokens : Finset String) :
    ∀ (l : List HelperRule) (a : PAction), helperFindAction areas eid tokens l = some a →
      a.type = "set_entity_area" := by
  intro l
  induction l with
  | nil => intro a ha; simp [helperFindAction] at ha
  | cons hr rest ih =>
    intro a ha
    unfold helperFindAction at ha
    dsimp only at ha
    repeat' split at ha
    all_goals first
      | exact ih a ha
      | exact Option.noConfusion ha
      | (rw [Option.some.injEq] at ha; subst ha; rfl)

theorem MInv_helperStep (areas : List AreaR) (devById : String → Option DeviceR)
    (statesBy : String → Option StateR) (hrules : List HelperRule) :
    ∀ (st : PlanSt) (er : EntityR), MInv st →
      MInv (helperStep areas devById statesBy hrules st er) := by
  intro st er h
  unfold helperStep PlanSt.emit
  dsimp only
  repeat' split
  all_goals try exact h
  rename_i a heq
  have hty := helperFindAction_type areas _ _ _ a heq
  exact MInv_other (by simp [hty]) (by simp [hty]) h

theorem MInv_mediaEmitGroup (areaNameBy : String → Option String) :
    ∀ (st : PlanSt) (g : (String × String) × List (String × String)), MInv st →
      MInv (mediaEmitGroup areaNameBy st g) := by
  intro st g h
  unfold mediaEmitGroup PlanSt.emit
  dsimp only
  apply MInv_foldl ?_ _ _ h
  intro st' p h'
  dsimp only
  exact MInv_other rfl rfl h'

theorem MInv_planFinalSt (rxc : Rxc) (snap : Snapshot) (rules : Rules)
    (nm : String) (incF : Bool) : MInv (planFinalSt rxc snap rules nm incF) := by
  unfold planFinalSt renameAreasPass
  dsimp only
  exact MInv_foldl (MInv_mediaEmitGroup _) _ _
    (MInv_foldl (MInv_helperStep _ _ _ _) _ _
      (MInv_foldl (MInv_deviceAreaRuleStep _ _ _) _ _
        (MInv_foldl (MInv_entityAreaRuleStep _ _ _ _ _) _ _
          (MInv_foldl MInv_uniqueGroupStep _ _
            (MInv_foldl (MInv_suffixDupStep _) _ _
              (MInv_fallbackPlacementPass _ _ _ _ _ _ _
                (MInv_createFallbackPass _ _ _ _ _
                  (MInv_foldl_pair (MInv_tokenMatchStep _ _ _ _) _ _
                    (MInv_foldl (MInv_backfillStep _ _) _ _
                      (MInv_foldl (MInv_inheritStep _ _) _ _
                        (MInv_foldl (MInv_hideRegexRuleStep _ _) _ _
                          (MInv_foldl (MInv_hideIdStep _) _ _
                            (MInv_foldl (MInv_removeRegexRuleStep _ _) _ _
                              (MInv_foldl (MInv_removeIdStep _) _ _
                                (MInv_foldl (MInv_renameAreaStep _) _ _
                                  MInv_empty)))))))))))))))

/-- C4, counterexample: the markers do not protect every pass.  In the
concrete scenario `snapC4`/`rulesC4`, entity `x` is planned for removal and
nevertheless also hidden (the hide passes never consult the removal
marker), entity `light.y` receives two area assignments (overwrite
`entity_area` rules skip the planned-area marker), and device `d2` receives
two area assignments (the device passes maintain no marker at all). -/
theorem C4_counterexample :
    planC4.countP (isRemoveFor "x") = 1 ∧
    planC4.countP (isHideFor "x") = 1 ∧
    planC4.countP (isEntityAreaFor "light.y") = 2 ∧
    planC4.countP (isDeviceAreaFor "d2") = 2 := by
  refine ⟨?_, ?_, ?_, ?_⟩ <;> decide

/-- C4 (amended): the removal and hide marker sets are consulted before and
updated after every emission of a removal or hide, so for every snapshot,
ruleset, regex behaviour and configuration the plan contains at most one
removal action and at most one hide action per entity id; the claimed
protection does not extend to area assignments or to actions targeting
entities already planned for removal (see the counterexample). -/
theorem C4_markers_amended (rxc : Rxc) (snap : Snapshot) (rules : Rules)
    (nm : String) (incF : Bool) (eid : String) :
    (planAll rxc snap rules nm incF).countP (isRemoveFor eid) ≤ 1 ∧
    (planAll rxc snap rules nm incF).countP (isHideFor eid) ≤ 1 :=
  ⟨(MInv_planFinalSt rxc snap rules nm incF eid).1.1,
   (MInv_planFinalSt rxc snap rules nm incF eid).2.1⟩

/-- C4, witness for the amended theorem at the concrete counterexample
scenario. -/
theorem C4_markers_amended_witness :
    planC4.countP (isRemoveFor "x") ≤ 1 ∧ planC4.countP (isHideFor "x") ≤ 1 :=
  C4_markers_amended subRx snapC4 rulesC4 "Onbekend" false "x"

/-! ## Claim C9: rollback before-maps and reversibility -/

theorem dlast_unique {α : Type} (key : α → Option String) (k : String) (hk : k ≠ "") :
    ∀ (l : List α), (l.filterMap key).Nodup → ∀ x ∈ l, key x = some k →
      dlast l key k = some x := by
  intro l
  induction l with
  | nil => intro _ x hx; exact absurd hx (List.not_mem_nil x)
  | cons y t ih =>
    intro hnd x hx hkey
    have hke : k.isEmpty = false := by
      rw [Bool.eq_false_iff]
      intro hemp
      exact hk ((String.isEmpty_iff k).mp hemp)
    have hisT : isT (some k) = true := by
      simp [isT, hke]
    rcases List.mem_cons.mp hx with hxy | hxt
    · subst hxy
      have hfilt : (t.filter fun z => isT (key z) && key z == some k) = [] := by
        rw [List.eq_nil_iff_forall_not_mem]
        intro z hz
        have hz' := List.mem_filter.mp hz
        have hzk : key z = some k := by
          have := hz'.2
          rw [Bool.and_eq_true] at this
          exact eq_of_beq this.2
        have hkmem : k ∈ t.filterMap key := List.mem_filterMap.mpr ⟨z, hz'.1, hzk⟩
        simp only [List.filterMap_cons, hkey] at hnd
        exact (List.nodup_cons.mp hnd).1 hkmem
      unfold dlast
      rw [List.filter_cons]
      have hcond : (isT (key x) && key x == some k) = true := by
        rw [hkey]; simp [hisT]
      rw [if_pos hcond, hfilt]
      rfl
    · have hky : key y ≠ some k := by
        intro hyk
        have hkmem : k ∈ t.filterMap key := List.mem_filterMap.mpr ⟨x, hxt, hkey⟩
        simp only [List.filterMap_cons, hyk] at hnd
        exact (List.nodup_cons.mp hnd).1 hkmem
      have hnd' : (t.filterMap key).Nodup := by
        cases hky' : key y with
        | none => simpa only [List.filterMap_cons, hky'] using hnd
        | some v =>
          simp only [List.filterMap_cons, hky'] at hnd
          exact (List.nodup_cons.mp hnd).2
      have := ih hnd' x hxt hkey
      unfold dlast at this ⊢
      rw [List.filter_cons]
      have hcond : (isT (key y) && key y == some k) = false := by
        cases hky' : key y with
        | none => simp [isT]
        | some v =>
          have hvk : v ≠ k := fun h => hky (by rw [hky', h])
          simp [hvk]
      rw [if_neg (by rw [hcond]; exact Bool.false_ne_true), this]

theorem foldW_none (extract : RegCall → Option (Option String)) :
    ∀ (L : List RegCall) (v : Option String), (∀ c ∈ L, extract c = none) →
      foldW extract L v = v := by
  intro L
  induction L with
  | nil => intro v _; rfl
  | cons c t ih =>
    intro v h
    unfold foldW
    rw [List.foldl_cons, h c (by simp)]
    exact ih v fun c hc => h c (by simp [hc])

theorem foldW_keep (extract : RegCall → Option (Option String)) (orig : Option String) :
    ∀ (L : List RegCall), (∀ c ∈ L, ∀ w, extract c = some w → w = orig) →
      foldW extract L orig = orig := by
  intro L
  induction L with
  | nil => intro _; rfl
  | cons c t ih =>
    intro h
    unfold foldW
    rw [List.foldl_cons]
    have ih' := ih fun c hc => h c (by simp [hc])
    cases hc : extract c with
    | none => simpa [hc] using ih'
    | some w =>
      have hw := h c (by simp) w hc
      subst hw
      simpa [hc] using ih'

theorem foldW_const (extract : RegCall → Option (Option String)) (orig : Option String) :
    ∀ (L : List RegCall) (v : Option String),
      (∀ c ∈ L, ∀ w, extract c = some w → w = orig) →
      (∃ c ∈ L, (extract c).isSome) → foldW extract L v = orig := by
  intro L
  induction L with
  | nil =>
    intro v _ hex
    obtain ⟨c, hc, _⟩ := hex
    exact absurd hc (List.not_mem_nil c)
  | cons c t ih =>
    intro v h hex
    unfold foldW
    rw [List.foldl_cons]
    cases hc : extract c with
    | none =>
      obtain ⟨c', hc', hs⟩ := hex
      rcases List.mem_cons.mp hc' with rfl | hct
      · rw [hc] at hs; exact absurd hs (by simp)
      · simp only [hc, Option.getD_none]
        exact ih v (fun c hcm => h c (by simp [hcm])) ⟨c', hct, hs⟩
    | some w =>
      have hw := h c (by simp) w hc
      subst hw
      simp only [hc, Option.getD_some]
      exact foldW_keep extract w t fun c hcm => h c (by simp [hcm])

theorem foldW_restore (extract : RegCall → Option (Option String)) (orig : Option String)
    (A U : List RegCall)
    (hval : ∀ c ∈ U, ∀ w, extract c = some w → w = orig)
    (hcov : (∃ c ∈ A, (extract c).isSome) → ∃ c ∈ U, (extract c).isSome) :
    foldW extract (A ++ U) orig = orig := by
  have hsplit : foldW extract (A ++ U) orig = foldW extract U (foldW extract A orig) := by
    unfold foldW
    exact List.foldl_append _ _ _ _
  rw [hsplit]
  by_cases hex : ∃ c ∈ A, (extract c).isSome
  · exact foldW_const extract orig U _ hval (hcov hex)
  · have hAnone : ∀ c ∈ A, extract c = none := by
      intro c hc
      by_contra hne
      exact hex ⟨c, hc, Option.isSome_iff_ne_none.mpr hne⟩
    rw [foldW_none extract A orig hAnone]
    exact foldW_keep extract orig U hval

theorem map_ext_fun {α β : Type} (f g : α → β) (l : List α) (h : ∀ a, f a = g a) :
    l.map f = l.map g := by
  induction l with
  | nil => rfl
  | cons x t ih => simp [h, ih]

theorem map_eq_self {α : Type} (f : α → α) (l : List α) (h : ∀ a ∈ l, f a = a) :
    l.map f = l := by
  induction l with
  | nil => rfl
  | cons x t ih =>
    rw [List.map_cons, h x (by simp), ih fun a ha => h a (by simp [ha])]

theorem entityR_ext {a b : EntityR} (h1 : a.entity_id = b.entity_id)
    (h2 : a.unique_id = b.unique_id) (h3 : a.name = b.name)
    (h4 : a.original_name = b.original_name) (h5 : a.device_id = b.device_id)
    (h6 : a.area_id = b.area_id) (h7 : a.hidden_by = b.hidden_by)
    (h8 : a.disabled_by = b.disabled_by) : a = b := by
  cases a; cases b; simp_all

theorem deviceR_ext {a b : DeviceR} (h1 : a.id = b.id) (h2 : a.name = b.name)
    (h3 : a.name_by_user = b.name_by_user) (h4 : a.area_id = b.area_id) : a = b := by
  cases a; cases b; simp_all

theorem areaR_ext {a b : AreaR} (h1 : a.area_id = b.area_id) (h2 : a.name = b.name) : a = b := by
  cases a; cases b; simp_all

theorem evE_fixed : ∀ (L : List RegCall) (er : EntityR),
    (evE L er).entity_id = er.entity_id ∧ (evE L er).unique_id = er.unique_id ∧
    (evE L er).original_name = er.original_name ∧ (evE L er).device_id = er.device_id := by
  intro L
  induction L with
  | nil => intro er; exact ⟨rfl, rfl, rfl, rfl⟩
  | cons c t ih =>
    intro er
    have hstep : (stepE er c).entity_id = er.entity_id ∧ (stepE er c).unique_id = er.unique_id ∧
        (stepE er c).original_name = er.original_name ∧
        (stepE er c).device_id = er.device_id := by
      cases c <;> simp only [stepE]
      all_goals try trivial
      split <;> trivial
    have hih := ih (stepE er c)
    unfold evE at hih ⊢
    rw [List.foldl_cons]
    exact ⟨hih.1.trans hstep.1, hih.2.1.trans hstep.2.1,
      hih.2.2.1.trans hstep.2.2.1, hih.2.2.2.trans hstep.2.2.2⟩

theorem evD_fixed : ∀ (L : List RegCall) (d : DeviceR),
    (evD L d).id = d.id ∧ (evD L d).name = d.name := by
  intro L
  induction L with
  | nil => intro d; exact ⟨rfl, rfl⟩
  | cons c t ih =>
    intro d
    have hstep : (stepD d c).id = d.id ∧ (stepD d c).name = d.name := by
      cases c <;> simp only [stepD]
      all_goals try trivial
      split <;> trivial
    have hih := ih (stepD d c)
    unfold evD at hih ⊢
    rw [List.foldl_cons]
    exact ⟨hih.1.trans hstep.1, hih.2.trans hstep.2⟩

theorem evA_fixed : ∀ (L : List RegCall) (a : AreaR), (evA L a).area_id = a.area_id := by
  intro L
  induction L with
  | nil => intro a; rfl
  | cons c t ih =>
    intro a
    have hstep : (stepA a c).area_id = a.area_id := by
      cases c <;> simp only [stepA]
      all_goals try trivial
      split <;> trivial
    have hih := ih (stepA a c)
    unfold evA at hih ⊢
    rw [List.foldl_cons]
    exact hih.trans hstep

theorem evE_none : ∀ (L : List RegCall) (er : EntityR), er.entity_id = none →
    evE L er = er := by
  intro L
  induction L with
  | nil => intro er _; rfl
  | cons c t ih =>
    intro er h
    have hstep : stepE er c = er := by
      cases c <;> simp only [stepE]
      all_goals try rfl
      rw [h]
      simp
    unfold evE
    rw [List.foldl_cons, hstep]
    exact ih er h

theorem evD_none : ∀ (L : List RegCall) (d : DeviceR), d.id = none → evD L d = d := by
  intro L
  induction L with
  | nil => intro d _; rfl
  | cons c t ih =>
    intro d h
    have hstep : stepD d c = d := by
      cases c <;> simp only [stepD]
      all_goals try rfl
      rw [h]
      simp
    unfold evD
    rw [List.foldl_cons, hstep]
    exact ih d h

theorem evA_none : ∀ (L : List RegCall) (a : AreaR), a.area_id = none → evA L a = a := by
  intro L
  induction L with
  | nil => intro a _; rfl
  | cons c t ih =>
    intro a h
    have hstep : stepA a c = a := by
      cases c <;> simp only [stepA]
      all_goals try rfl
      rw [h]
      simp
    unfold evA
    rw [List.foldl_cons, hstep]
    exact ih a h

theorem evE_cons (c : RegCall) (t : List RegCall) (r : EntityR) :
    evE (c :: t) r = evE t (stepE r c) := rfl

theorem evD_cons (c : RegCall) (t : List RegCall) (r : DeviceR) :
    evD (c :: t) r = evD t (stepD r c) := rfl

theorem evA_cons (c : RegCall) (t : List RegCall) (r : AreaR) :
    evA (c :: t) r = evA t (stepA r c) := rfl

theorem foldW_cons (extract : RegCall → Option (Option String)) (c : RegCall)
    (t : List RegCall) (v : Option String) :
    foldW extract (c :: t) v = foldW extract t ((extract c).getD v) := rfl

theorem evE_proj (eid : String) (get : EntityR → Option String)
    (getF : UpdFields → Option (Option String))
    (hco : ∀ f r, get (applyFieldsE f r) = (getF f).getD (get r)) :
    ∀ (L : List RegCall) (r : EntityR), r.entity_id = some eid →
      get (evE L r) = foldW (extractE eid getF) L (get r) := by
  intro L
  induction L with
  | nil => intro r _; rfl
  | cons c t ih =>
    intro r hr
    rw [evE_cons, foldW_cons]
    cases c with
    | entityUpdate e f =>
      have hex : extractE eid getF (RegCall.entityUpdate e f) =
          if e == eid then getF f else none := rfl
      by_cases he : e = eid
      · subst he
        have hcond : (r.entity_id == some e) = true := by rw [hr]; simp
        have hstep : stepE r (RegCall.entityUpdate e f) = applyFieldsE f r := by
          simp only [stepE, hcond, if_true]
        rw [hstep, hex]
        simp only [beq_self_eq_true, if_true]
        rw [← hco f r]
        exact ih (applyFieldsE f r) (by rw [← hr]; rfl)
      · have hcond : (r.entity_id == some e) = false := by
          rw [hr]
          simp
          exact fun hh => he hh.symm
        have hstep : stepE r (RegCall.entityUpdate e f) = r := by
          simp [stepE, hcond]
        have hcond2 : (e == eid) = false := by simp [he]
        rw [hstep, hex, hcond2]
        simp only [Bool.false_eq_true, if_false, Option.getD_none]
        exact ih r hr
    | deviceUpdate e f => exact ih r hr
    | areaUpdate e f => exact ih r hr
    | entityRemove e => exact ih r hr
    | areaCreate n => exact ih r hr

theorem evD_proj (did : String) (get : DeviceR → Option String)
    (getF : UpdFields → Option (Option String))
    (hco : ∀ f r, get (applyFieldsD f r) = (getF f).getD (get r)) :
    ∀ (L : List RegCall) (r : DeviceR), r.id = some did →
      get (evD L r) = foldW (extractD did getF) L (get r) := by
  intro L
  induction L with
  | nil => intro r _; rfl
  | cons c t ih =>
    intro r hr
    rw [evD_cons, foldW_cons]
    cases c with
    | deviceUpdate e f =>
      have hex : extractD did getF (RegCall.deviceUpdate e f) =
          if e == did then getF f else none := rfl
      by_cases he : e = did
      · subst he
        have hcond : (r.id == some e) = true := by rw [hr]; simp
        have hstep : stepD r (RegCall.deviceUpdate e f) = applyFieldsD f r := by
          simp only [stepD, hcond, if_true]
        rw [hstep, hex]
        simp only [beq_self_eq_true, if_true]
        rw [← hco f r]
        exact ih (applyFieldsD f r) (by rw [← hr]; rfl)
      · have hcond : (r.id == some e) = false := by
          rw [hr]
          simp
          exact fun hh => he hh.symm
        have hstep : stepD r (RegCall.deviceUpdate e f) = r := by
          simp [stepD, hcond]
        have hcond2 : (e == did) = false := by simp [he]
        rw [hstep, hex, hcond2]
        simp only [Bool.false_eq_true, if_false, Option.getD_none]
        exact ih r hr
    | entityUpdate e f => exact ih r hr
    | areaUpdate e f => exact ih r hr
    | entityRemove e => exact ih r hr
    | areaCreate n => exact ih r hr

theorem evA_proj (aid : String) (get : AreaR → Option String)
    (getF : UpdFields → Option (Option String))
    (hco : ∀ f r, get (applyFieldsA f r) = (getF f).getD (get r)) :
    ∀ (L : List RegCall) (r : AreaR), r.area_id = some aid →
      get (evA L r) = foldW (extractA aid getF) L (get r) := by
  intro L
  induction L with
  | nil => intro r _; rfl
  | cons c t ih =>
    intro r hr
    rw [evA_cons, foldW_cons]
    cases c with
    | areaUpdate e f =>
      have hex : extractA aid getF (RegCall.areaUpdate e f) =
          if e == aid then getF f else none := rfl
      by_cases he : e = aid
      · subst he
        have hcond : (r.area_id == some e) = true := by rw [hr]; simp
        have hstep : stepA r (RegCall.areaUpdate e f) = applyFieldsA f r := by
          simp only [stepA, hcond, if_true]
        rw [hstep, hex]
        simp only [beq_self_eq_true, if_true]
        rw [← hco f r]
        exact ih (applyFieldsA f r) (by rw [← hr]; rfl)
      · have hcond : (r.area_id == some e) = false := by
          rw [hr]
          simp
          exact fun hh => he hh.symm
        have hstep : stepA r (RegCall.areaUpdate e f) = r := by
          simp [stepA, hcond]
        have hcond2 : (e == aid) = false := by simp [he]
        rw [hstep, hex, hcond2]
        simp only [Bool.false_eq_true, if_false, Option.getD_none]
        exact ih r hr
    | entityUpdate e f => exact ih r hr
    | deviceUpdate e f => exact ih r hr
    | entityRemove e => exact ih r hr
    | areaCreate n => exact ih r hr

theorem runCalls_upd : ∀ (L : List RegCall), (∀ c ∈ L, updCall c = true) → ∀ (s : Snapshot),
    runCalls s L = { areas := s.areas.map (evA L), devices := s.devices.map (evD L),
                     entities := s.entities.map (evE L), states := s.states } := by
  intro L
  induction L with
  | nil =>
    intro _ s
    show s = _
    rw [map_eq_self (evA []) _ (fun a _ => rfl), map_eq_self (evD []) _ (fun a _ => rfl),
      map_eq_self (evE []) _ (fun a _ => rfl)]
  | cons c t ih =>
    intro hL s
    show runCalls (stateExec s c) t = _
    rw [ih (fun c hc => hL c (by simp [hc])) (stateExec s c)]
    cases c with
    | entityUpdate e f =>
      simp only [stateExec]
      rw [List.map_map]
      congr 1 <;> exact map_ext_fun _ _ _ fun x => rfl
    | deviceUpdate e f =>
      simp only [stateExec]
      rw [List.map_map]
      congr 1 <;> exact map_ext_fun _ _ _ fun x => rfl
    | areaUpdate e f =>
      simp only [stateExec]
      rw [List.map_map]
      congr 1 <;> exact map_ext_fun _ _ _ fun x => rfl
    | entityRemove e =>
      exact absurd (hL (RegCall.entityRemove e) (by simp)) (by simp [updCall])
    | areaCreate n =>
      exact absurd (hL (RegCall.areaCreate n) (by simp)) (by simp [updCall])

theorem evE_noop : ∀ (L : List RegCall) (er : EntityR), (∀ c ∈ L, stepE er c = er) →
    evE L er = er := by
  intro L
  induction L with
  | nil => intro er _; rfl
  | cons c t ih =>
    intro er h
    rw [evE_cons, h c (by simp)]
    exact ih er fun c hc => h c (by simp [hc])

theorem evD_noop : ∀ (L : List RegCall) (d : DeviceR), (∀ c ∈ L, stepD d c = d) →
    evD L d = d := by
  intro L
  induction L with
  | nil => intro d _; rfl
  | cons c t ih =>
    intro d h
    rw [evD_cons, h c (by simp)]
    exact ih d fun c hc => h c (by simp [hc])

theorem evA_noop : ∀ (L : List RegCall) (a : AreaR), (∀ c ∈ L, stepA a c = a) →
    evA L a = a := by
  intro L
  induction L with
  | nil => intro a _; rfl
  | cons c t ih =>
    intro a h
    rw [evA_cons, h c (by simp)]
    exact ih a fun c hc => h c (by simp [hc])

theorem U_mem (ps : List (RegCall × RStep)) {p : RegCall × RStep} (hp : p ∈ ps)
    {c : RegCall} (hsc : stepCall p.2 = some c) :
    c ∈ (ps.map Prod.snd).reverse.filterMap stepCall :=
  List.mem_filterMap.mpr ⟨p.2, List.mem_reverse.mpr (List.mem_map_of_mem Prod.snd hp), hsc⟩

theorem U_shapes (snap : Snapshot) (ps : List (RegCall × RStep))
    (hps : ∀ p ∈ ps, PairOk snap p) :
    ∀ c ∈ (ps.map Prod.snd).reverse.filterMap stepCall,
      (∃ e', e' ≠ "" ∧
        (c = RegCall.entityUpdate e' { area_id := some (ebind snap e' EntityR.area_id) } ∨
         c = RegCall.entityUpdate e' { name := some (ebind snap e' EntityR.name) } ∨
         c = RegCall.entityUpdate e'
           { hidden_by := some (ebind snap e' EntityR.hidden_by)
             disabled_by := some (ebind snap e' EntityR.disabled_by) })) ∨
      (∃ d', d' ≠ "" ∧
        (c = RegCall.deviceUpdate d' { area_id := some (dbind snap d' DeviceR.area_id) } ∨
         c = RegCall.deviceUpdate d'
           { name_by_user := some (dbind snap d' DeviceR.name_by_user) })) ∨
      (∃ a' b, a' ≠ "" ∧ c = RegCall.areaUpdate a' b ∧
        (b.name = none ∨ b.name = some (abind snap a' AreaR.name)) ∧ b.area_id = none ∧
        b.name_by_user = none ∧ b.hidden_by = none ∧ b.disabled_by = none) := by
  intro c hc
  obtain ⟨st, hst, hsc⟩ := List.mem_filterMap.mp hc
  obtain ⟨p, hp, hpe⟩ := List.mem_map.mp (List.mem_reverse.mp hst)
  rw [← hpe] at hsc
  clear hpe hst hc
  rcases hps p hp with ⟨e', w, hne, _, hst2⟩ | ⟨e', w, hne, _, hst2⟩ | ⟨e', w, hne, _, hst2⟩ |
    ⟨d', w, hne, _, hst2⟩ | ⟨d', w, hne, _, hst2⟩ | ⟨a', w, hne, _, hst2⟩
  · rw [hst2] at hsc
    rw [show stepCall (RStep.entity_update e'
        { area_id := some (ebind snap e' EntityR.area_id) }) = some (RegCall.entityUpdate e'
        { area_id := some (ebind snap e' EntityR.area_id) }) from rfl, Option.some.injEq] at hsc
    exact Or.inl ⟨e', hne, Or.inl hsc.symm⟩
  · rw [hst2] at hsc
    rw [show stepCall (RStep.entity_update e'
        { name := some (ebind snap e' EntityR.name) }) = some (RegCall.entityUpdate e'
        { name := some (ebind snap e' EntityR.name) }) from rfl, Option.some.injEq] at hsc
    exact Or.inl ⟨e', hne, Or.inr (Or.inl hsc.symm)⟩
  · rw [hst2] at hsc
    rw [show stepCall (RStep.entity_update e'
        { hidden_by := some (ebind snap e' EntityR.hidden_by)
          disabled_by := some (ebind snap e' EntityR.disabled_by) }) =
        some (RegCall.entityUpdate e'
        { hidden_by := some (ebind snap e' EntityR.hidden_by)
          disabled_by := some (ebind snap e' EntityR.disabled_by) }) from rfl,
      Option.some.injEq] at hsc
    exact Or.inl ⟨e', hne, Or.inr (Or.inr hsc.symm)⟩
  · rw [hst2] at hsc
    rw [show stepCall (RStep.device_update d'
        { area_id := some (dbind snap d' DeviceR.area_id) }) = some (RegCall.deviceUpdate d'
        { area_id := some (dbind snap d' DeviceR.area_id) }) from rfl,
      Option.some.injEq] at hsc
    exact Or.inr (Or.inl ⟨d', hne, Or.inl hsc.symm⟩)
  · rw [hst2] at hsc
    rw [show stepCall (RStep.device_update d'
        { name_by_user := some (dbind snap d' DeviceR.name_by_user) }) =
        some (RegCall.deviceUpdate d'
        { name_by_user := some (dbind snap d' DeviceR.name_by_user) }) from rfl,
      Option.some.injEq] at hsc
    exact Or.inr (Or.inl ⟨d', hne, Or.inr hsc.symm⟩)
  · rw [hst2] at hsc
    unfold stepCall at hsc
    dsimp only at hsc
    split at hsc
    · exact Option.noConfusion hsc
    · rw [Option.some.injEq] at hsc
      subst hsc
      refine Or.inr (Or.inr ⟨a', _, hne, rfl, ?_, rfl, rfl, rfl, rfl⟩)
      unfold cleanFields
      dsimp only
      cases habind : abind snap a' AreaR.name with
      | none => exact Or.inl rfl
      | some v => exact Or.inr rfl

theorem A_shapes (snap : Snapshot) (ps : List (RegCall × RStep))
    (hps : ∀ p ∈ ps, PairOk snap p) :
    ∀ c ∈ ps.map Prod.fst,
      (∃ e' w, e' ≠ "" ∧ c = RegCall.entityUpdate e' { area_id := some w } ∧
        RegCall.entityUpdate e' { area_id := some (ebind snap e' EntityR.area_id) } ∈
          (ps.map Prod.snd).reverse.filterMap stepCall) ∨
      (∃ e' w, e' ≠ "" ∧ c = RegCall.entityUpdate e' { name := some w } ∧
        RegCall.entityUpdate e' { name := some (ebind snap e' EntityR.name) } ∈
          (ps.map Prod.snd).reverse.filterMap stepCall) ∨
      (∃ e' w, e' ≠ "" ∧ c = RegCall.entityUpdate e' { hidden_by := some w } ∧
        RegCall.entityUpdate e'
          { hidden_by := some (ebind snap e' EntityR.hidden_by)
            disabled_by := some (ebind snap e' EntityR.disabled_by) } ∈
          (ps.map Prod.snd).reverse.filterMap stepCall) ∨
      (∃ d' w, d' ≠ "" ∧ c = RegCall.deviceUpdate d' { area_id := some w } ∧
        RegCall.deviceUpdate d' { area_id := some (dbind snap d' DeviceR.area_id) } ∈
          (ps.map Prod.snd).reverse.filterMap stepCall) ∨
      (∃ d' w, d' ≠ "" ∧ c = RegCall.deviceUpdate d' { name_by_user := some w } ∧
        RegCall.deviceUpdate d' { name_by_user := some (dbind snap d' DeviceR.name_by_user) } ∈
          (ps.map Prod.snd).reverse.filterMap stepCall) ∨
      (∃ a' w, a' ≠ "" ∧ c = RegCall.areaUpdate a' { name := some w } ∧
        (abind snap a' AreaR.name = none ∨
          ∀ v, abind snap a' AreaR.name = some v →
            RegCall.areaUpdate a' { name := some (some v) } ∈
              (ps.map Prod.snd).reverse.filterMap stepCall)) := by
  intro c hc
  obtain ⟨p, hp, hpc⟩ := List.mem_map.mp hc
  rw [← hpc]
  clear hpc hc
  rcases hps p hp with ⟨e', w, hne, hc1, hst2⟩ | ⟨e', w, hne, hc1, hst2⟩ |
    ⟨e', w, hne, hc1, hst2⟩ | ⟨d', w, hne, hc1, hst2⟩ | ⟨d', w, hne, hc1, hst2⟩ |
    ⟨a', w, hne, hc1, hst2⟩
  · exact Or.inl ⟨e', w, hne, hc1, U_mem ps hp (by rw [hst2]; rfl)⟩
  · exact Or.inr (Or.inl ⟨e', w, hne, hc1, U_mem ps hp (by rw [hst2]; rfl)⟩)
  · exact Or.inr (Or.inr (Or.inl ⟨e', w, hne, hc1, U_mem ps hp (by rw [hst2]; rfl)⟩))
  · exact Or.inr (Or.inr (Or.inr (Or.inl ⟨d', w, hne, hc1, U_mem ps hp (by rw [hst2]; rfl)⟩)))
  · exact Or.inr (Or.inr (Or.inr (Or.inr (Or.inl
      ⟨d', w, hne, hc1, U_mem ps hp (by rw [hst2]; rfl)⟩))))
  · refine Or.inr (Or.inr (Or.inr (Or.inr (Or.inr ⟨a', w, hne, hc1, Or.inr ?_⟩))))
    intro v hv
    refine U_mem ps hp ?_
    rw [hst2, hv]
    unfold stepCall cleanFields UpdFields.isEmptyF
    dsimp only
    rfl

theorem entity_restore (snap : Snapshot) (ps : List (RegCall × RStep))
    (hps : ∀ p ∈ ps, PairOk snap p)
    (hE : (snap.entities.filterMap EntityR.entity_id).Nodup)
    (er : EntityR) (her : er ∈ snap.entities) :
    evE (ps.map Prod.fst ++ (ps.map Prod.snd).reverse.filterMap stepCall) er = er := by
  have hUs := U_shapes snap ps hps
  have hAs := A_shapes snap ps hps
  cases hid : er.entity_id with
  | none => exact evE_none _ er hid
  | some eid =>
    by_cases he0 : eid = ""
    · subst he0
      apply evE_noop
      intro c hc
      have hshape : ∀ e' f, c = RegCall.entityUpdate e' f → e' ≠ "" := by
        rcases List.mem_append.mp hc with hca | hcu
        · rcases hAs c hca with ⟨e', w, hne, hc1, _⟩ | ⟨e', w, hne, hc1, _⟩ |
            ⟨e', w, hne, hc1, _⟩ | ⟨d', w, hne, hc1, _⟩ | ⟨d', w, hne, hc1, _⟩ |
            ⟨a', w, hne, hc1, _⟩ <;>
            (intro e f hcf; rw [hc1] at hcf; cases hcf <;> exact hne)
        · rcases hUs c hcu with ⟨e', hne, hc1 | hc1 | hc1⟩ | ⟨d', hne, hc1 | hc1⟩ |
            ⟨a', b, hne, hc1, _⟩ <;>
            (intro e f hcf; rw [hc1] at hcf; cases hcf <;> exact hne)
      cases c with
      | entityUpdate e f =>
        have hne := hshape e f rfl
        show stepE er (RegCall.entityUpdate e f) = er
        simp only [stepE, hid]
        have hcond : (some "" == some e) = false := by
          simp
          exact fun h => hne h.symm
        rw [hcond]
        simp
      | deviceUpdate e f => rfl
      | areaUpdate e f => rfl
      | entityRemove e => rfl
      | areaCreate n => rfl
    · have hdl : dlast snap.entities EntityR.entity_id eid = some er :=
        dlast_unique EntityR.entity_id eid he0 snap.entities hE er her hid
      have horig : ∀ g : EntityR → Option String, ebind snap eid g = g er := by
        intro g
        unfold ebind
        rw [hdl]
        rfl
      have hfield : ∀ (get : EntityR → Option String)
          (getF : UpdFields → Option (Option String)),
          (∀ f r, get (applyFieldsE f r) = (getF f).getD (get r)) →
          (∀ e', getF { area_id := some (ebind snap e' EntityR.area_id) } = none ∨
            getF { area_id := some (ebind snap e' EntityR.area_id) } =
              some (ebind snap e' get)) →
          (∀ e', getF { name := some (ebind snap e' EntityR.name) } = none ∨
            getF { name := some (ebind snap e' EntityR.name) } = some (ebind snap e' get)) →
          (∀ e', getF { hidden_by := some (ebind snap e' EntityR.hidden_by)
                        disabled_by := some (ebind snap e' EntityR.disabled_by) } = none ∨
            getF { hidden_by := some (ebind snap e' EntityR.hidden_by)
                   disabled_by := some (ebind snap e' EntityR.disabled_by) } =
              some (ebind snap e' get)) →
          (∀ w, (getF ({ area_id := some w } : UpdFields)).isSome →
            (getF { area_id := some (ebind snap eid EntityR.area_id) }).isSome) →
          (∀ w, (getF ({ name := some w } : UpdFields)).isSome →
            (getF { name := some (ebind snap eid EntityR.name) }).isSome) →
          (∀ w, (getF ({ hidden_by := some w } : UpdFields)).isSome →
            (getF { hidden_by := some (ebind snap eid EntityR.hidden_by)
                    disabled_by := some (ebind snap eid EntityR.disabled_by) }).isSome) →
          get (evE (ps.map Prod.fst ++ (ps.map Prod.snd).reverse.filterMap stepCall) er) =
            get er := by
        intro get getF hco hv1 hv2 hv3 hc1 hc2 hc3
        rw [evE_proj eid get getF hco _ er hid]
        apply foldW_restore
        · intro c hcu w hw
          rcases hUs c hcu with ⟨e', hne, hc | hc | hc⟩ | ⟨d', hne, hc | hc⟩ |
            ⟨a', b, hne, hc, _⟩
          · subst hc
            rw [show extractE eid getF (RegCall.entityUpdate e'
                { area_id := some (ebind snap e' EntityR.area_id) }) =
                (if e' == eid then getF { area_id := some (ebind snap e' EntityR.area_id) }
                 else none) from rfl] at hw
            by_cases hee : (e' == eid) = true
            · rw [if_pos hee] at hw
              rcases hv1 e' with hnone | hval
              · rw [hnone] at hw
                exact Option.noConfusion hw
              · rw [hval, Option.some.injEq] at hw
                rw [← hw, eq_of_beq hee, horig]
            · rw [if_neg hee] at hw
              exact Option.noConfusion hw
          · subst hc
            rw [show extractE eid getF (RegCall.entityUpdate e'
                { name := some (ebind snap e' EntityR.name) }) =
                (if e' == eid then getF { name := some (ebind snap e' EntityR.name) }
                 else none) from rfl] at hw
            by_cases hee : (e' == eid) = true
            · rw [if_pos hee] at hw
              rcases hv2 e' with hnone | hval
              · rw [hnone] at hw
                exact Option.noConfusion hw
              · rw [hval, Option.some.injEq] at hw
                rw [← hw, eq_of_beq hee, horig]
            · rw [if_neg hee] at hw
              exact Option.noConfusion hw
          · subst hc
            rw [show extractE eid getF (RegCall.entityUpdate e'
                { hidden_by := some (ebind snap e' EntityR.hidden_by)
                  disabled_by := some (ebind snap e' EntityR.disabled_by) }) =
                (if e' == eid then
                  getF { hidden_by := some (ebind snap e' EntityR.hidden_by)
                         disabled_by := some (ebind snap e' EntityR.disabled_by) }
                 else none) from rfl] at hw
            by_cases hee : (e' == eid) = true
            · rw [if_pos hee] at hw
              rcases hv3 e' with hnone | hval
              · rw [hnone] at hw
                exact Option.noConfusion hw
              · rw [hval, Option.some.injEq] at hw
                rw [← hw, eq_of_beq hee, horig]
            · rw [if_neg hee] at hw
              exact Option.noConfusion hw
          · subst hc
            exact Option.noConfusion hw
          · subst hc
            exact Option.noConfusion hw
          · subst hc
            exact Option.noConfusion hw
        · intro hex
          obtain ⟨c, hca, hcs⟩ := hex
          rcases hAs c hca with ⟨e', w, hne, hc, hu⟩ | ⟨e', w, hne, hc, hu⟩ |
            ⟨e', w, hne, hc, hu⟩ | ⟨d', w, hne, hc, hu⟩ | ⟨d', w, hne, hc, hu⟩ |
            ⟨a', w, hne, hc, hu⟩
          · subst hc
            rw [show extractE eid getF (RegCall.entityUpdate e' { area_id := some w }) =
                (if e' == eid then getF { area_id := some w } else none) from rfl] at hcs
            by_cases hee : (e' == eid) = true
            · rw [if_pos hee] at hcs
              refine ⟨RegCall.entityUpdate e'
                { area_id := some (ebind snap e' EntityR.area_id) }, hu, ?_⟩
              rw [show extractE eid getF (RegCall.entityUpdate e'
                  { area_id := some (ebind snap e' EntityR.area_id) }) =
                  (if e' == eid then
                    getF { area_id := some (ebind snap e' EntityR.area_id) }
                   else none) from rfl, if_pos hee]
              rw [eq_of_beq hee]
              exact hc1 w hcs
            · rw [if_neg hee] at hcs
              exact absurd hcs (by simp)
          · subst hc
            rw [show extractE eid getF (RegCall.entityUpdate e' { name := some w }) =
                (if e' == eid then getF { name := some w } else none) from rfl] at hcs
            by_cases hee : (e' == eid) = true
            · rw [if_pos hee] at hcs
              refine ⟨RegCall.entityUpdate e'
                { name := some (ebind snap e' EntityR.name) }, hu, ?_⟩
              rw [show extractE eid getF (RegCall.entityUpdate e'
                  { name := some (ebind snap e' EntityR.name) }) =
                  (if e' == eid then getF { name := some (ebind snap e' EntityR.name) }
                   else none) from rfl, if_pos hee]
              rw [eq_of_beq hee]
              exact hc2 w hcs
            · rw [if_neg hee] at hcs
              exact absurd hcs (by simp)
          · subst hc
            rw [show extractE eid getF (RegCall.entityUpdate e' { hidden_by := some w }) =
                (if e' == eid then getF { hidden_by := some w } else none) from rfl] at hcs
            by_cases hee : (e' == eid) = true
            · rw [if_pos hee] at hcs
              refine ⟨RegCall.entityUpdate e'
                { hidden_by := some (ebind snap e' EntityR.hidden_by)
                  disabled_by := some (ebind snap e' EntityR.disabled_by) }, hu, ?_⟩
              rw [show extractE eid getF (RegCall.entityUpdate e'
                  { hidden_by := some (ebind snap e' EntityR.hidden_by)
                    disabled_by := some (ebind snap e' EntityR.disabled_by) }) =
                  (if e' == eid then
                    getF { hidden_by := some (ebind snap e' EntityR.hidden_by)
                           disabled_by := some (ebind snap e' EntityR.disabled_by) }
                   else none) from rfl, if_pos hee]
              rw [eq_of_beq hee]
              exact hc3 w hcs
            · rw [if_neg hee] at hcs
              exact absurd hcs (by simp)
          · subst hc
            exact absurd hcs (by simp [extractE])
          · subst hc
            exact absurd hcs (by simp [extractE])
          · subst hc
            exact absurd hcs (by simp [extractE])
      have hfix := evE_fixed
        (ps.map Prod.fst ++ (ps.map Prod.snd).reverse.filterMap stepCall) er
      exact entityR_ext hfix.1 hfix.2.1
        (hfield EntityR.name UpdFields.name (fun f r => rfl)
          (fun e' => Or.inl rfl) (fun e' => Or.inr rfl) (fun e' => Or.inl rfl)
          (fun w h => absurd h (by simp)) (fun w _ => by simp)
          (fun w h => absurd h (by simp)))
        hfix.2.2.1 hfix.2.2.2
        (hfield EntityR.area_id UpdFields.area_id (fun f r => rfl)
          (fun e' => Or.inr rfl) (fun e' => Or.inl rfl) (fun e' => Or.inl rfl)
          (fun w _ => by simp) (fun w h => absurd h (by simp))
          (fun w h => absurd h (by simp)))
        (hfield EntityR.hidden_by UpdFields.hidden_by (fun f r => rfl)
          (fun e' => Or.inl rfl) (fun e' => Or.inl rfl) (fun e' => Or.inr rfl)
          (fun w h => absurd h (by simp)) (fun w h => absurd h (by simp))
          (fun w _ => by simp))
        (hfield EntityR.disabled_by UpdFields.disabled_by (fun f r => rfl)
          (fun e' => Or.inl rfl) (fun e' => Or.inl rfl) (fun e' => Or.inr rfl)
          (fun w h => absurd h (by simp)) (fun w h => absurd h (by simp))
          (fun w _ => by simp))

theorem device_restore (snap : Snapshot) (ps : List (RegCall × RStep))
    (hps : ∀ p ∈ ps, PairOk snap p)
    (hD : (snap.devices.filterMap DeviceR.id).Nodup)
    (d : DeviceR) (hd : d ∈ snap.devices) :
    evD (ps.map Prod.fst ++ (ps.map Prod.snd).reverse.filterMap stepCall) d = d := by
  have hUs := U_shapes snap ps hps
  have hAs := A_shapes snap ps hps
  cases hid : d.id with
  | none => exact evD_none _ d hid
  | some did =>
    by_cases he0 : did = ""
    · subst he0
      apply evD_noop
      intro c hc
      have hshape : ∀ d' f, c = RegCall.deviceUpdate d' f → d' ≠ "" := by
        rcases List.mem_append.mp hc with hca | hcu
        · rcases hAs c hca with ⟨e', w, hne, hc1, _⟩ | ⟨e', w, hne, hc1, _⟩ |
            ⟨e', w, hne, hc1, _⟩ | ⟨d', w, hne, hc1, _⟩ | ⟨d', w, hne, hc1, _⟩ |
            ⟨a', w, hne, hc1, _⟩ <;>
            (intro e f hcf; rw [hc1] at hcf; cases hcf <;> exact hne)
        · rcases hUs c hcu with ⟨e', hne, hc1 | hc1 | hc1⟩ | ⟨d', hne, hc1 | hc1⟩ |
            ⟨a', b, hne, hc1, _⟩ <;>
            (intro e f hcf; rw [hc1] at hcf; cases hcf <;> exact hne)
      cases c with
      | deviceUpdate e f =>
        have hne := hshape e f rfl
        show stepD d (RegCall.deviceUpdate e f) = d
        simp only [stepD, hid]
        have hcond : (some "" == some e) = false := by
          simp
          exact fun h => hne h.symm
        rw [hcond]
        simp
      | entityUpdate e f => rfl
      | areaUpdate e f => rfl
      | entityRemove e => rfl
      | areaCreate n => rfl
    · have hdl : dlast snap.devices DeviceR.id did = some d :=
        dlast_unique DeviceR.id did he0 snap.devices hD d hd hid
      have horig : ∀ g : DeviceR → Option String, dbind snap did g = g d := by
        intro g
        unfold dbind
        rw [hdl]
        rfl
      have hfield : ∀ (get : DeviceR → Option String)
          (getF : UpdFields → Option (Option String)),
          (∀ f r, get (applyFieldsD f r) = (getF f).getD (get r)) →
          (∀ d', getF { area_id := some (dbind snap d' DeviceR.area_id) } = none ∨
            getF { area_id := some (dbind snap d' DeviceR.area_id) } =
              some (dbind snap d' get)) →
          (∀ d', getF { name_by_user := some (dbind snap d' DeviceR.name_by_user) } = none ∨
            getF { name_by_user := some (dbind snap d' DeviceR.name_by_user) } =
              some (dbind snap d' get)) →
          (∀ w, (getF ({ area_id := some w } : UpdFields)).isSome →
            (getF { area_id := some (dbind snap did DeviceR.area_id) }).isSome) →
          (∀ w, (getF ({ name_by_user := some w } : UpdFields)).isSome →
            (getF { name_by_user := some (dbind snap did DeviceR.name_by_user) }).isSome) →
          get (evD (ps.map Prod.fst ++ (ps.map Prod.snd).reverse.filterMap stepCall) d) =
            get d := by
        intro get getF hco hv1 hv2 hc1 hc2
        rw [evD_proj did get getF hco _ d hid]
        apply foldW_restore
        · intro c hcu w hw
          rcases hUs c hcu with ⟨e', hne, hc | hc | hc⟩ | ⟨d', hne, hc | hc⟩ |
            ⟨a', b, hne, hc, _⟩
          · subst hc
            exact Option.noConfusion hw
          · subst hc
            exact Option.noConfusion hw
          · subst hc
            exact Option.noConfusion hw
          · subst hc
            rw [show extractD did getF (RegCall.deviceUpdate d'
                { area_id := some (dbind snap d' DeviceR.area_id) }) =
                (if d' == did then getF { area_id := some (dbind snap d' DeviceR.area_id) }
                 else none) from rfl] at hw
            by_cases hee : (d' == did) = true
            · rw [if_pos hee] at hw
              rcases hv1 d' with hnone | hval
              · rw [hnone] at hw
                exact Option.noConfusion hw
              · rw [hval, Option.some.injEq] at hw
                rw [← hw, eq_of_beq hee, horig]
            · rw [if_neg hee] at hw
              exact Option.noConfusion hw
          · subst hc
            rw [show extractD did getF (RegCall.deviceUpdate d'
                { name_by_user := some (dbind snap d' DeviceR.name_by_user) }) =
                (if d' == did then
                  getF { name_by_user := some (dbind snap d' DeviceR.name_by_user) }
                 else none) from rfl] at hw
            by_cases hee : (d' == did) = true
            · rw [if_pos hee] at hw
              rcases hv2 d' with hnone | hval
              · rw [hnone] at hw
                exact Option.noConfusion hw
              · rw [hval, Option.some.injEq] at hw
                rw [← hw, eq_of_beq hee, horig]
            · rw [if_neg hee] at hw
              exact Option.noConfusion hw
          · subst hc
            exact Option.noConfusion hw
        · intro hex
          obtain ⟨c, hca, hcs⟩ := hex
          rcases hAs c hca with ⟨e', w, hne, hc, hu⟩ | ⟨e', w, hne, hc, hu⟩ |
            ⟨e', w, hne, hc, hu⟩ | ⟨d', w, hne, hc, hu⟩ | ⟨d', w, hne, hc, hu⟩ |
            ⟨a', w, hne, hc, hu⟩
          · subst hc
            exact absurd hcs (by simp [extractD])
          · subst hc
            exact absurd hcs (by simp [extractD])
          · subst hc
            exact absurd hcs (by simp [extractD])
          · subst hc
            rw [show extractD did getF (RegCall.deviceUpdate d' { area_id := some w }) =
                (if d' == did then getF { area_id := some w } else none) from rfl] at hcs
            by_cases hee : (d' == did) = true
            · rw [if_pos hee] at hcs
              refine ⟨RegCall.deviceUpdate d'
                { area_id := some (dbind snap d' DeviceR.area_id) }, hu, ?_⟩
              rw [show extractD did getF (RegCall.deviceUpdate d'
                  { area_id := some (dbind snap d' DeviceR.area_id) }) =
                  (if d' == did then
                    getF { area_id := some (dbind snap d' DeviceR.area_id) }
                   else none) from rfl, if_pos hee]
              rw [eq_of_beq hee]
              exact hc1 w hcs
            · rw [if_neg hee] at hcs
              exact absurd hcs (by simp)
          · subst hc
            rw [show extractD did getF
                (RegCall.deviceUpdate d' { name_by_user := some w }) =
                (if d' == did then getF { name_by_user := some w } else none) from rfl] at hcs
            by_cases hee : (d' == did) = true
            · rw [if_pos hee] at hcs
              refine ⟨RegCall.deviceUpdate d'
                { name_by_user := some (dbind snap d' DeviceR.name_by_user) }, hu, ?_⟩
              rw [show extractD did getF (RegCall.deviceUpdate d'
                  { name_by_user := some (dbind snap d' DeviceR.name_by_user) }) =
                  (if d' == did then
                    getF { name_by_user := some (dbind snap d' DeviceR.name_by_user) }
                   else none) from rfl, if_pos hee]
              rw [eq_of_beq hee]
              exact hc2 w hcs
            · rw [if_neg hee] at hcs
              exact absurd hcs (by simp)
          · subst hc
            exact absurd hcs (by simp [extractD])
      have hfix := evD_fixed
        (ps.map Prod.fst ++ (ps.map Prod.snd).reverse.filterMap stepCall) d
      exact deviceR_ext hfix.1 hfix.2
        (hfield DeviceR.name_by_user UpdFields.name_by_user (fun f r => rfl)
          (fun d' => Or.inl rfl) (fun d' => Or.inr rfl)
          (fun w h => absurd h (by simp)) (fun w _ => by simp))
        (hfield DeviceR.area_id UpdFields.area_id (fun f r => rfl)
          (fun d' => Or.inr rfl) (fun d' => Or.inl rfl)
          (fun w _ => by simp) (fun w h => absurd h (by simp)))

theorem area_restore (snap : Snapshot) (ps : List (RegCall × RStep))
    (hps : ∀ p ∈ ps, PairOk snap p)
    (hA : (snap.areas.filterMap AreaR.area_id).Nodup)
    (hAname : ∀ a ∈ snap.areas, a.name.isSome)
    (a : AreaR) (ha : a ∈ snap.areas) :
    evA (ps.map Prod.fst ++ (ps.map Prod.snd).reverse.filterMap stepCall) a = a := by
  have hUs := U_shapes snap ps hps
  have hAs := A_shapes snap ps hps
  cases hid : a.area_id with
  | none => exact evA_none _ a hid
  | some aid =>
    by_cases he0 : aid = ""
    · subst he0
      apply evA_noop
      intro c hc
      have hshape : ∀ a' f, c = RegCall.areaUpdate a' f → a' ≠ "" := by
        rcases List.mem_append.mp hc with hca | hcu
        · rcases hAs c hca with ⟨e', w, hne, hc1, _⟩ | ⟨e', w, hne, hc1, _⟩ |
            ⟨e', w, hne, hc1, _⟩ | ⟨d', w, hne, hc1, _⟩ | ⟨d', w, hne, hc1, _⟩ |
            ⟨a', w, hne, hc1, _⟩ <;>
            (intro e f hcf; rw [hc1] at hcf; cases hcf <;> exact hne)
        · rcases hUs c hcu with ⟨e', hne, hc1 | hc1 | hc1⟩ | ⟨d', hne, hc1 | hc1⟩ |
            ⟨a', b, hne, hc1, _⟩ <;>
            (intro e f hcf; rw [hc1] at hcf; cases hcf <;> exact hne)
      cases c with
      | areaUpdate e f =>
        have hne := hshape e f rfl
        show stepA a (RegCall.areaUpdate e f) = a
        simp only [stepA, hid]
        have hcond : (some "" == some e) = false := by
          simp
          exact fun h => hne h.symm
        rw [hcond]
        simp
      | entityUpdate e f => rfl
      | deviceUpdate e f => rfl
      | entityRemove e => rfl
      | areaCreate n => rfl
    · have hdl : dlast snap.areas AreaR.area_id aid = some a :=
        dlast_unique AreaR.area_id aid he0 snap.areas hA a ha hid
      have horig : ∀ g : AreaR → Option String, abind snap aid g = g a := by
        intro g
        unfold abind
        rw [hdl]
        rfl
      have hname : (evA (ps.map Prod.fst ++
          (ps.map Prod.snd).reverse.filterMap stepCall) a).name = a.name := by
        rw [evA_proj aid AreaR.name UpdFields.name (fun f r => rfl) _ a hid]
        apply foldW_restore
        · intro c hcu w hw
          rcases hUs c hcu with ⟨e', hne, hc | hc | hc⟩ | ⟨d', hne, hc | hc⟩ |
            ⟨a', b, hne, hc, hbn, _⟩
          · subst hc
            exact Option.noConfusion hw
          · subst hc
            exact Option.noConfusion hw
          · subst hc
            exact Option.noConfusion hw
          · subst hc
            exact Option.noConfusion hw
          · subst hc
            exact Option.noConfusion hw
          · subst hc
            rw [show extractA aid UpdFields.name (RegCall.areaUpdate a' b) =
                (if a' == aid then b.name else none) from rfl] at hw
            by_cases hee : (a' == aid) = true
            · rw [if_pos hee] at hw
              rcases hbn with hbnone | hbval
              · rw [hbnone] at hw
                exact Option.noConfusion hw
              · rw [hbval, Option.some.injEq] at hw
                rw [← hw, eq_of_beq hee, horig]
            · rw [if_neg hee] at hw
              exact Option.noConfusion hw
        · intro hex
          obtain ⟨c, hca, hcs⟩ := hex
          rcases hAs c hca with ⟨e', w, hne, hc, hu⟩ | ⟨e', w, hne, hc, hu⟩ |
            ⟨e', w, hne, hc, hu⟩ | ⟨d', w, hne, hc, hu⟩ | ⟨d', w, hne, hc, hu⟩ |
            ⟨a', w, hne, hc, hu⟩
          · subst hc
            exact absurd hcs (by simp [extractA])
          · subst hc
            exact absurd hcs (by simp [extractA])
          · subst hc
            exact absurd hcs (by simp [extractA])
          · subst hc
            exact absurd hcs (by simp [extractA])
          · subst hc
            exact absurd hcs (by simp [extractA])
          · subst hc
            rw [show extractA aid UpdFields.name (RegCall.areaUpdate a' { name := some w }) =
                (if a' == aid then some w else none) from rfl] at hcs
            by_cases hee : (a' == aid) = true
            · have haa : a' = aid := eq_of_beq hee
              subst haa
              obtain ⟨v, hv⟩ := Option.isSome_iff_exists.mp (hAname a ha)
              have habind : abind snap a' AreaR.name = some v := by
                rw [horig AreaR.name, hv]
              rcases hu with hnone | hall
              · rw [habind] at hnone
                exact Option.noConfusion hnone
              · refine ⟨RegCall.areaUpdate a' { name := some (some v) }, hall v habind, ?_⟩
                rw [show extractA a' UpdFields.name
                    (RegCall.areaUpdate a' { name := some (some v) }) =
                    (if a' == a' then some (some v) else none) from rfl,
                  if_pos (by simp)]
                rfl
            · rw [if_neg hee] at hcs
              exact absurd hcs (by simp)
      have hfix := evA_fixed
        (ps.map Prod.fst ++ (ps.map Prod.snd).reverse.filterMap stepCall) a
      exact areaR_ext hfix hname

theorem isT_tval_ne {o : Option String} (h : isT o = true) : tval o ≠ "" := by
  cases o with
  | none => exact absurd h (by decide)
  | some s =>
    intro hs
    rw [show tval (some s) = s from rfl] at hs
    subst hs
    exact absurd h (by decide)

theorem applySetEntityArea_char (snap : Snapshot) (acc : ApplyAcc) (aid : String)
    (payload : Payload) :
    ∃ acc', applySetEntityArea okExec snap acc aid payload = .ok acc' ∧
      ((acc'.trace = acc.trace ∧ acc'.steps = acc.steps) ∨
       ∃ p, PairOk snap p ∧ acc'.trace = acc.trace ++ [p.1] ∧
         acc'.steps = acc.steps ++ [p.2]) := by
  unfold applySetEntityArea
  dsimp only
  split
  · exact ⟨_, rfl, Or.inl ⟨rfl, rfl⟩⟩
  · rename_i hg
    simp only [Bool.or_eq_true, Bool.not_eq_true'] at hg
    push_neg at hg
    refine ⟨_, rfl, Or.inr ⟨(RegCall.entityUpdate (tval payload.entity_id)
      { area_id := some payload.area_id },
      RStep.entity_update (tval payload.entity_id)
      { area_id := some (ebind snap (tval payload.entity_id) EntityR.area_id) }),
      Or.inl ⟨tval payload.entity_id, payload.area_id,
        isT_tval_ne (Bool.ne_false_iff.mp hg.1), rfl, rfl⟩, rfl, rfl⟩⟩

theorem applySetDeviceArea_char (snap : Snapshot) (acc : ApplyAcc) (aid : String)
    (payload : Payload) :
    ∃ acc', applySetDeviceArea okExec snap acc aid payload = .ok acc' ∧
      ((acc'.trace = acc.trace ∧ acc'.steps = acc.steps) ∨
       ∃ p, PairOk snap p ∧ acc'.trace = acc.trace ++ [p.1] ∧
         acc'.steps = acc.steps ++ [p.2]) := by
  unfold applySetDeviceArea
  dsimp only
  split
  · exact ⟨_, rfl, Or.inl ⟨rfl, rfl⟩⟩
  · rename_i hg
    simp only [Bool.or_eq_true, Bool.not_eq_true'] at hg
    push_neg at hg
    refine ⟨_, rfl, Or.inr ⟨(RegCall.deviceUpdate (tval payload.device_id)
      { area_id := some payload.area_id },
      RStep.device_update (tval payload.device_id)
      { area_id := some (dbind snap (tval payload.device_id) DeviceR.area_id) }),
      Or.inr (Or.inr (Or.inr (Or.inl ⟨tval payload.device_id, payload.area_id,
        isT_tval_ne (Bool.ne_false_iff.mp hg.1), rfl, rfl⟩))), rfl, rfl⟩⟩

theorem applyRenameEntity_char (snap : Snapshot) (acc : ApplyAcc) (aid : String)
    (payload : Payload) :
    ∃ acc', applyRenameEntity okExec snap acc aid payload = .ok acc' ∧
      ((acc'.trace = acc.trace ∧ acc'.steps = acc.steps) ∨
       ∃ p, PairOk snap p ∧ acc'.trace = acc.trace ++ [p.1] ∧
         acc'.steps = acc.steps ++ [p.2]) := by
  unfold applyRenameEntity
  dsimp only
  split
  · exact ⟨_, rfl, Or.inl ⟨rfl, rfl⟩⟩
  · rename_i hg
    simp only [Bool.or_eq_true, Bool.not_eq_true'] at hg
    push_neg at hg
    refine ⟨_, rfl, Or.inr ⟨(RegCall.entityUpdate (tval payload.entity_id)
      { name := some payload.name },
      RStep.entity_update (tval payload.entity_id)
      { name := some (ebind snap (tval payload.entity_id) EntityR.name) }),
      Or.inr (Or.inl ⟨tval payload.entity_id, payload.name,
        isT_tval_ne (Bool.ne_false_iff.mp hg.1), rfl, rfl⟩), rfl, rfl⟩⟩

theorem applyHideEntity_char (snap : Snapshot) (acc : ApplyAcc) (aid : String)
    (payload : Payload) :
    ∃ acc', applyHideEntity okExec snap acc aid payload = .ok acc' ∧
      ((acc'.trace = acc.trace ∧ acc'.steps = acc.steps) ∨
       ∃ p, PairOk snap p ∧ acc'.trace = acc.trace ++ [p.1] ∧
         acc'.steps = acc.steps ++ [p.2]) := by
  unfold applyHideEntity
  dsimp only
  split
  · exact ⟨_, rfl, Or.inl ⟨rfl, rfl⟩⟩
  · rename_i hg
    simp only [Bool.not_eq_true'] at hg
    refine ⟨_, rfl, Or.inr ⟨(RegCall.entityUpdate (tval payload.entity_id)
      { hidden_by := some (some (payload.hidden_by.getD "user")) },
      RStep.entity_update (tval payload.entity_id)
      { hidden_by := some (ebind snap (tval payload.entity_id) EntityR.hidden_by)
        disabled_by := some (ebind snap (tval payload.entity_id) EntityR.disabled_by) }),
      Or.inr (Or.inr (Or.inl ⟨tval payload.entity_id,
        some (payload.hidden_by.getD "user"), isT_tval_ne (Bool.ne_false_iff.mp hg), rfl, rfl⟩)), rfl, rfl⟩⟩

theorem applyRenameDevice_char (snap : Snapshot) (acc : ApplyAcc) (aid : String)
    (payload : Payload) :
    ∃ acc', applyRenameDevice okExec snap acc aid payload = .ok acc' ∧
      ((acc'.trace = acc.trace ∧ acc'.steps = acc.steps) ∨
       ∃ p, PairOk snap p ∧ acc'.trace = acc.trace ++ [p.1] ∧
         acc'.steps = acc.steps ++ [p.2]) := by
  unfold applyRenameDevice
  dsimp only
  split
  · exact ⟨_, rfl, Or.inl ⟨rfl, rfl⟩⟩
  · rename_i hg
    simp only [Bool.or_eq_true, Bool.not_eq_true'] at hg
    push_neg at hg
    refine ⟨_, rfl, Or.inr ⟨(RegCall.deviceUpdate (tval payload.device_id)
      { name_by_user := some payload.name },
      RStep.device_update (tval payload.device_id)
      { name_by_user := some (dbind snap (tval payload.device_id) DeviceR.name_by_user) }),
      Or.inr (Or.inr (Or.inr (Or.inr (Or.inl ⟨tval payload.device_id, payload.name,
        isT_tval_ne (Bool.ne_false_iff.mp hg.1), rfl, rfl⟩)))), rfl, rfl⟩⟩

theorem applyRenameArea_char (snap : Snapshot) (acc : ApplyAcc) (aid : String)
    (payload : Payload) :
    ∃ acc', applyRenameArea okExec snap acc aid payload = .ok acc' ∧
      ((acc'.trace = acc.trace ∧ acc'.steps = acc.steps) ∨
       ∃ p, PairOk snap p ∧ acc'.trace = acc.trace ++ [p.1] ∧
         acc'.steps = acc.steps ++ [p.2]) := by
  unfold applyRenameArea
  dsimp only
  split
  · exact ⟨_, rfl, Or.inl ⟨rfl, rfl⟩⟩
  · rename_i hg
    simp only [Bool.or_eq_true, Bool.not_eq_true'] at hg
    push_neg at hg
    refine ⟨_, rfl, Or.inr ⟨(RegCall.areaUpdate (tval payload.area_id)
      { name := some payload.name },
      RStep.area_update (tval payload.area_id)
      { name := some (abind snap (tval payload.area_id) AreaR.name) }),
      Or.inr (Or.inr (Or.inr (Or.inr (Or.inr ⟨tval payload.area_id, payload.name,
        isT_tval_ne (Bool.ne_false_iff.mp hg.1), rfl, rfl⟩)))), rfl, rfl⟩⟩

theorem applyStep_okExec_char (snap : Snapshot) (approved : List String) (acc : ApplyAcc)
    (a : AAction)
    (hty : a.type = "set_entity_area" ∨ a.type = "set_device_area" ∨
      a.type = "rename_entity" ∨ a.type = "hide_entity" ∨ a.type = "rename_device" ∨
      a.type = "rename_area") :
    ∃ acc', applyStep okExec snap approved acc a = .ok acc' ∧
      ((acc'.trace = acc.trace ∧ acc'.steps = acc.steps) ∨
       ∃ p, PairOk snap p ∧ acc'.trace = acc.trace ++ [p.1] ∧
         acc'.steps = acc.steps ++ [p.2]) := by
  unfold applyStep
  by_cases happ : (a.requires_approval && !approved.contains a.id) = true
  · rw [if_pos happ]
    exact ⟨_, rfl, Or.inl ⟨rfl, rfl⟩⟩
  · rw [if_neg happ]
    rcases hty with h | h | h | h | h | h <;> rw [h]
    · exact applySetEntityArea_char snap acc a.id a.payload
    · exact applySetDeviceArea_char snap acc a.id a.payload
    · exact applyRenameEntity_char snap acc a.id a.payload
    · exact applyHideEntity_char snap acc a.id a.payload
    · exact applyRenameDevice_char snap acc a.id a.payload
    · exact applyRenameArea_char snap acc a.id a.payload

theorem applyList_okExec_char (snap : Snapshot) (approved : List String) :
    ∀ (actions : List AAction) (acc : ApplyAcc),
      (∀ a ∈ actions, a.type = "set_entity_area" ∨ a.type = "set_device_area" ∨
        a.type = "rename_entity" ∨ a.type = "hide_entity" ∨ a.type = "rename_device" ∨
        a.type = "rename_area") →
      ∃ (ps : List (RegCall × RStep)) (acc' : ApplyAcc),
        applyList okExec snap approved actions acc = (acc', none) ∧
        (∀ p ∈ ps, PairOk snap p) ∧
        acc'.trace = acc.trace ++ ps.map Prod.fst ∧
        acc'.steps = acc.steps ++ ps.map Prod.snd := by
  intro actions
  induction actions with
  | nil =>
    intro acc _
    exact ⟨[], acc, rfl, fun p hp => absurd hp (List.not_mem_nil p), by simp, by simp⟩
  | cons a rest ih =>
    intro acc hty
    obtain ⟨acc1, hstep, hshape⟩ :=
      applyStep_okExec_char snap approved acc a (hty a (by simp))
    obtain ⟨ps, acc', hlist, hps, htr, hst⟩ :=
      ih acc1 fun a ha => hty a (by simp [ha])
    rcases hshape with ⟨htr1, hst1⟩ | ⟨p, hpok, htr1, hst1⟩
    · refine ⟨ps, acc', ?_, hps, ?_, ?_⟩
      · show applyList okExec snap approved (a :: rest) acc = (acc', none)
        unfold applyList
        rw [hstep]
        exact hlist
      · rw [htr, htr1]
      · rw [hst, hst1]
    · refine ⟨p :: ps, acc', ?_, ?_, ?_, ?_⟩
      · show applyList okExec snap approved (a :: rest) acc = (acc', none)
        unfold applyList
        rw [hstep]
        exact hlist
      · intro q hq
        rcases List.mem_cons.mp hq with rfl | hq'
        · exact hpok
        · exact hps q hq'
      · rw [htr, htr1, List.map_cons, List.append_assoc]
        rfl
      · rw [hst, hst1, List.map_cons, List.append_assoc]
        rfl

theorem map_snd_attempted : ∀ (l : List RStep),
    (l.filterMap fun st => (stepCall st).map fun c => (st, c)).map Prod.snd =
      l.filterMap stepCall := by
  intro l
  induction l with
  | nil => rfl
  | cons st t ih =>
    cases hsc : stepCall st with
    | none => simp [List.filterMap_cons, hsc, ih]
    | some c => simp [List.filterMap_cons, hsc, ih]

theorem rollbackRun_okExec_trace (steps : List RStep) :
    (rollbackRun okExec steps).trace = steps.reverse.filterMap stepCall := by
  unfold rollbackRun
  dsimp only
  rw [(rollbackFold_spec okExec steps.reverse ({} : RbAcc)).1]
  rw [show ({} : RbAcc).trace = [] from rfl, List.nil_append, map_snd_attempted]

theorem stepCall_upd : ∀ (st : RStep) (c : RegCall), stepCall st = some c →
    updCall c = true := by
  intro st c h
  cases st with
  | entity_update eid b =>
    rw [show stepCall (RStep.entity_update eid b) = some (RegCall.entityUpdate eid b)
      from rfl, Option.some.injEq] at h
    subst h
    rfl
  | device_update did b =>
    rw [show stepCall (RStep.device_update did b) = some (RegCall.deviceUpdate did b)
      from rfl, Option.some.injEq] at h
    subst h
    rfl
  | area_update aid b =>
    unfold stepCall at h
    dsimp only at h
    split at h
    · exact Option.noConfusion h
    · rw [Option.some.injEq] at h
      subst h
      rfl
  | note m a n => exact Option.noConfusion h
  | entity_restore_note e b => exact Option.noConfusion h

theorem PairOk_updCall {snap : Snapshot} {p : RegCall × RStep} (h : PairOk snap p) :
    updCall p.1 = true := by
  rcases h with ⟨e', w, _, hc, _⟩ | ⟨e', w, _, hc, _⟩ | ⟨e', w, _, hc, _⟩ |
    ⟨d', w, _, hc, _⟩ | ⟨d', w, _, hc, _⟩ | ⟨a', w, _, hc, _⟩ <;> rw [hc] <;> rfl

theorem PairOk_stepFromSnap {snap : Snapshot} {p : RegCall × RStep} (h : PairOk snap p) :
    stepFromSnap snap p.2 := by
  rcases h with ⟨e', w, _, _, hst⟩ | ⟨e', w, _, _, hst⟩ | ⟨e', w, _, _, hst⟩ |
    ⟨d', w, _, _, hst⟩ | ⟨d', w, _, _, hst⟩ | ⟨a', w, _, _, hst⟩ <;> rw [hst]
  · exact ⟨Or.inr rfl, Or.inl rfl, rfl, Or.inl rfl, Or.inl rfl⟩
  · exact ⟨Or.inl rfl, Or.inr rfl, rfl, Or.inl rfl, Or.inl rfl⟩
  · exact ⟨Or.inl rfl, Or.inl rfl, rfl, Or.inr rfl, Or.inr rfl⟩
  · exact ⟨Or.inr rfl, rfl, Or.inl rfl, rfl, rfl⟩
  · exact ⟨Or.inl rfl, rfl, Or.inr rfl, rfl, rfl⟩
  · exact ⟨rfl, Or.inr rfl, rfl, rfl, rfl⟩

/-- C9: under a registry that accepts every call, for a plan of update
actions (area assignment, renames, hide — the action types whose rollback
steps capture `before` maps), the run completes without a propagating
exception and persists its rollback record; every field captured in a
rollback step's before map holds the value the targeted id has in the single
pre-apply snapshot, even when several actions modify the same field of the
same object; and replaying the run's mutation calls followed by the
reverse-order rollback calls restores the pre-apply snapshot exactly,
provided registry ids are unique and every area record has a name (the
`clean` filtering of `area_update` rollback drops null captures). -/
theorem C9_snapshot_rollback (snap : Snapshot) (approved : List String)
    (actions : List AAction)
    (htypes : ∀ a ∈ actions, a.type = "set_entity_area" ∨ a.type = "set_device_area" ∨
      a.type = "rename_entity" ∨ a.type = "hide_entity" ∨ a.type = "rename_device" ∨
      a.type = "rename_area")
    (hE : (snap.entities.filterMap EntityR.entity_id).Nodup)
    (hD : (snap.devices.filterMap DeviceR.id).Nodup)
    (hA : (snap.areas.filterMap AreaR.area_id).Nodup)
    (hAname : ∀ a ∈ snap.areas, a.name.isSome) :
    (applyRun okExec snap approved actions).err = none ∧
    persistedRollback (applyRun okExec snap approved actions) =
      some (applyRun okExec snap approved actions).steps ∧
    (∀ st ∈ (applyRun okExec snap approved actions).steps, stepFromSnap snap st) ∧
    runCalls (runCalls snap (applyRun okExec snap approved actions).trace)
      (rollbackRun okExec (applyRun okExec snap approved actions).steps).trace = snap := by
  obtain ⟨ps, acc', hlist, hps, htr, hst⟩ :=
    applyList_okExec_char snap approved actions {} htypes
  have hrun : applyRun okExec snap approved actions =
      { applied := acc'.applied, skipped := acc'.skipped, steps := acc'.steps,
        trace := acc'.trace, err := none } := by
    unfold applyRun
    rw [hlist]
  rw [show ({} : ApplyAcc).trace = [] from rfl, List.nil_append] at htr
  rw [show ({} : ApplyAcc).steps = [] from rfl, List.nil_append] at hst
  refine ⟨by rw [hrun], by rw [hrun]; rfl, ?_, ?_⟩
  · intro st hstm
    rw [hrun] at hstm
    dsimp only at hstm
    rw [hst] at hstm
    obtain ⟨p, hp, hpe⟩ := List.mem_map.mp hstm
    rw [← hpe]
    exact PairOk_stepFromSnap (hps p hp)
  · rw [hrun]
    dsimp only
    rw [htr, hst, rollbackRun_okExec_trace]
    rw [show runCalls (runCalls snap (ps.map Prod.fst))
        ((ps.map Prod.snd).reverse.filterMap stepCall) =
        runCalls snap (ps.map Prod.fst ++ (ps.map Prod.snd).reverse.filterMap stepCall)
      from (List.foldl_append _ _ _ _).symm]
    have hupd : ∀ c ∈ ps.map Prod.fst ++ (ps.map Prod.snd).reverse.filterMap stepCall,
        updCall c = true := by
      intro c hc
      rcases List.mem_append.mp hc with hca | hcu
      · obtain ⟨p, hp, hpc⟩ := List.mem_map.mp hca
        rw [← hpc]
        exact PairOk_updCall (hps p hp)
      · obtain ⟨st, _, hsc⟩ := List.mem_filterMap.mp hcu
        exact stepCall_upd st c hsc
    rw [runCalls_upd _ hupd snap]
    rw [map_eq_self _ _ fun a ha => area_restore snap ps hps hA hAname a ha,
      map_eq_self _ _ fun d hd => device_restore snap ps hps hD d hd,
      map_eq_self _ _ fun er her => entity_restore snap ps hps hE er her]

/-- C9, witness: the characterization applied at a concrete snapshot and a
plan that modifies the same entity field twice and renames a device. -/
theorem C9_snapshot_rollback_witness :
    (applyRun okExec c9Snap [] c9Actions).err = none ∧
    persistedRollback (applyRun okExec c9Snap [] c9Actions) =
      some (applyRun okExec c9Snap [] c9Actions).steps ∧
    (∀ st ∈ (applyRun okExec c9Snap [] c9Actions).steps, stepFromSnap c9Snap st) ∧
    runCalls (runCalls c9Snap (applyRun okExec c9Snap [] c9Actions).trace)
      (rollbackRun okExec (applyRun okExec c9Snap [] c9Actions).steps).trace = c9Snap :=
  C9_snapshot_rollback c9Snap [] c9Actions (by decide) (by decide) (by decide)
    (by decide) (by decide)

end Housekeeper
